import Mathlib

/-!
SmartMediBox scheduler (`vdk.cpp`): embedding and verified properties.

The firmware keeps three `TimeEvent`s (morning, noon, evening), each owning a
servo.  This file embeds the scheduling core of `vdk.cpp` as pure functions on an
explicit `State`, with every externally visible call (servo writes, serial
output, remote-store writes, buzzer pin writes) recorded in an effect list.

Conventions of the embedding

* `int` / `long` values are `Int`; the only places where 32-bit wrap-around can
  occur (`millis() - lastBuzzer`, `lastBuzzer = millis()`, the arithmetic of
  `parseTimeToMinutes`) carry an explicit reduction modulo `2^32`.
* `Servo* servo` is the number of the servo object pointed to (1, 2, 3 for
  `servo1`, `servo2`, `servo3`).
* Reads from the outside world (the remote store, `millis()`, the clock) are
  parameters of the operation that performs them.
* The sensor, display, fan and history-upload statements of `loop` touch none of
  the scheduler variables and are left out.
-/

namespace SmartMediBox

/-! ## Outside world -/

/-- Pins written by the scheduling core. -/
inductive Pin where
  | BUZZER_PIN
  deriving DecidableEq, Repr

/-- One externally visible call made by the firmware. -/
inductive Effect where
  /-- A call `servoN.write(angle)`. -/
  | servoWrite (servo : Nat) (angle : Int)
  /-- A call `Serial.print(text)`. -/
  | serialPrint (text : String)
  /-- A call `Serial.println(text)`. -/
  | serialPrintln (text : String)
  /-- A call `Firebase.setString(fbdo, path, value)`. -/
  | setString (path : String) (value : String)
  /-- A call `Firebase.setBool(fbdo, path, value)`. -/
  | setBool (path : String) (value : Bool)
  /-- A call `digitalWrite(pin, HIGH)` (`true`) or `digitalWrite(pin, LOW)`. -/
  | digitalWrite (pin : Pin) (high : Bool)
  deriving DecidableEq, Repr

/-- The part of `DateTime` the scheduler reads: `now.hour()` and `now.minute()`. -/
structure DateTime where
  hour : Nat
  minute : Nat
  deriving DecidableEq, Repr

/-- Reinterpretation of an integer as a 32-bit two's-complement `int`/`long`. -/
def toInt32 (n : Int) : Int := (n + 2147483648) % 4294967296 - 2147483648

/-- Reinterpretation of an integer as a 32-bit `unsigned long`. -/
def toUInt32 (n : Int) : Int := n % 4294967296

/-! ## The Arduino `String` operations used by `parseTimeToMinutes` -/

/-- Position of the first occurrence of `c` in `cs`, counted from `i`; `-1` when absent
(`String::indexOf`). -/
def indexOfAux (c : Char) : List Char → Int → Int
  | [], _ => -1
  | d :: ds, i => if d = c then i else indexOfAux c ds (i + 1)

/-- The call `s.indexOf(":")` for a one-character pattern. -/
def indexOf (s : String) (c : Char) : Int := indexOfAux c s.data 0

/-- The call `s.substring(left, right)`: both arguments are converted to `unsigned int`,
swapped when out of order, an out-of-range `left` gives the empty string and `right` is
clipped to the length. -/
def substring (s : String) (left right : Int) : String :=
  let l := (toUInt32 left).toNat
  let r := (toUInt32 right).toNat
  let lo := if l > r then r else l
  let hi := if l > r then l else r
  if lo ≥ s.data.length then ""
  else
    let hi := if hi > s.data.length then s.data.length else hi
    ⟨(s.data.drop lo).take (hi - lo)⟩

/-- The call `s.substring(beginIndex)`, that is `substring(beginIndex, length)`. -/
def substringFrom (s : String) (left : Int) : String :=
  substring s left s.data.length

/-- The white-space characters skipped by `strtol`. -/
def isSpaceC (c : Char) : Bool :=
  c.toNat = 32 || (9 ≤ c.toNat && c.toNat ≤ 13)

/-- Decimal digits. -/
def isDigitC (c : Char) : Bool := 48 ≤ c.toNat && c.toNat ≤ 57

/-- Value of a run of decimal digits. -/
def digitsValue (cs : List Char) : Nat :=
  cs.foldl (fun acc c => acc * 10 + (c.toNat - 48)) 0

/-- The library call `atol`: leading white space, an optional sign, then the longest run
of digits; no digits give `0`; out-of-range values saturate at the `long` limits. -/
def atol (cs : List Char) : Int :=
  let cs := cs.dropWhile isSpaceC
  let neg := match cs with
    | '-' :: _ => true
    | _ => false
  let cs := match cs with
    | '-' :: r => r
    | '+' :: r => r
    | _ => cs
  let n : Int := (digitsValue (cs.takeWhile isDigitC) : Nat)
  let v := if neg then -n else n
  if v > 2147483647 then 2147483647
  else if v < -2147483648 then -2147483648
  else v

/-- The call `s.toInt()`, which is `atol` on the buffer. -/
def toInt (s : String) : Int := atol s.data

/-- `parseTimeToMinutes` (lines 188-193). -/
def parseTimeToMinutes (timeStr : String) : Int :=
  let sep := indexOf timeStr ':'
  let hour := toInt (substring timeStr 0 sep)
  let minute := toInt (substringFrom timeStr (sep + 1))
  toInt32 (hour * 60 + minute)

/-! ## `TimeEvent` -/

/-- `struct TimeEvent` (lines 54-63). -/
structure TimeEvent where
  label : String
  timeStart : String
  timeEnd : String
  executed : Int := 0
  timeOfBuzzer : Int := 0
  enabled : Bool := true
  lastDoorStatus : String := "closed"
  servo : Nat
  deriving DecidableEq, Repr

namespace TimeEvent

/-- `TimeEvent::executeDoor` (lines 64-78): the updated event and the calls made. -/
def executeDoor (e : TimeEvent) : TimeEvent × List Effect :=
  let r : TimeEvent × List Effect :=
    if e.executed = 0 then
      ({ e with lastDoorStatus := "opened" },
        [ Effect.servoWrite e.servo 0,
          Effect.serialPrintln ("🔓 Mở cửa cho: " ++ e.label),
          Effect.setString ("/status/cabinet/" ++ e.label) "opened",
          Effect.setBool ("/settings/reminderTimes/" ++ e.label ++ "/drank") true ])
    else if e.executed = 1 then
      ({ e with lastDoorStatus := "closed" },
        [ Effect.servoWrite e.servo 180,
          Effect.serialPrintln ("🔒 Đóng cửa cho: " ++ e.label),
          Effect.setString ("/status/cabinet/" ++ e.label) "closed" ])
    else (e, [])
  (if r.1.executed < 2 then { r.1 with executed := r.1.executed + 1 } else r.1, r.2)

/-- `TimeEvent::execute` (lines 80-90): the updated event and the calls made. -/
def execute (e : TimeEvent) : TimeEvent × List Effect :=
  if e.lastDoorStatus = "closed" then
    ({ e with lastDoorStatus := "opened" },
      [ Effect.servoWrite e.servo 0,
        Effect.serialPrintln ("🔓 Mở cửa cho: " ++ e.label) ])
  else
    ({ e with lastDoorStatus := "closed" },
      [ Effect.servoWrite e.servo 180,
        Effect.serialPrintln ("🔒 Đóng cửa cho: " ++ e.label) ])

end TimeEvent

/-! ## Global state -/

/-- The global variables read or written by the scheduler: `events[3]` (lines 108-112),
the last status strings read from the remote store, `lastBuzzer` and the button flag. -/
structure State where
  events : Fin 3 → TimeEvent
  morning : String
  noon : String
  evening : String
  lastBuzzer : Int
  servo_triggered : Bool

/-- The status variable compared with `events[i]`: `morning`, `noon`, `evening`. -/
def State.status (s : State) : Fin 3 → String
  | 0 => s.morning
  | 1 => s.noon
  | 2 => s.evening

/-- The initialisers of the globals (lines 39-46 and 108-112). -/
def init : State where
  events := fun i =>
    match i with
    | 0 => { label := "morning", timeStart := "7:00", timeEnd := "8:00", executed := 0,
             timeOfBuzzer := 0, enabled := true, lastDoorStatus := "closed", servo := 1 }
    | 1 => { label := "noon", timeStart := "12:00", timeEnd := "13:00", executed := 0,
             timeOfBuzzer := 0, enabled := true, lastDoorStatus := "closed", servo := 2 }
    | 2 => { label := "evening", timeStart := "18:00", timeEnd := "19:00", executed := 0,
             timeOfBuzzer := 0, enabled := true, lastDoorStatus := "closed", servo := 3 }
  morning := "closed"
  noon := "closed"
  evening := "closed"
  lastBuzzer := -60000
  servo_triggered := false

/-- `handleButtonPress` (lines 50-52). -/
def handleButtonPress (s : State) : State := { s with servo_triggered := true }

/-- What the twelve remote reads at the top of `setTimeEvents` return, per event index:
`none` when the `Firebase.get...` call returns `false`, otherwise the value delivered. -/
structure RemoteReads where
  start : Fin 3 → Option String
  stop : Fin 3 → Option String
  enabled : Fin 3 → Option Bool
  status : Fin 3 → Option String

/-- The two `millis()` readings an iteration of the alert loop may take: the one compared
with `lastBuzzer` (line 250) and the one stored into it (line 255).  A reading is the uptime
in milliseconds; `millis()` returns it modulo `2^32`, and the arithmetic of `pulse` reduces
modulo `2^32`, so the same result is obtained from the uptime and from its remainder. -/
structure MillisReads where
  atCheck : Nat
  atStamp : Nat
  deriving DecidableEq, Repr

/-- A state together with the calls made while reaching it. -/
structure Outcome where
  state : State
  log : List Effect

/-- `now.hour() * 60 + now.minute()`. -/
def currentMinute (now : DateTime) : Int := (now.hour : Int) * 60 + (now.minute : Int)

/-- Lines 215-226 of `setTimeEvents`: every successful read overwrites the local copy,
every failed read keeps it. -/
def refresh (r : RemoteReads) (s : State) : State :=
  { s with
    events := fun i =>
      { s.events i with
        timeStart := (r.start i).getD (s.events i).timeStart
        timeEnd := (r.stop i).getD (s.events i).timeEnd
        enabled := (r.enabled i).getD (s.events i).enabled }
    morning := (r.status 0).getD s.morning
    noon := (r.status 1).getD s.noon
    evening := (r.status 2).getD s.evening }

/-- One of the lines 233-235: `if(events[i].lastDoorStatus != status) events[i].execute();`. -/
def reconcileOne (i : Fin 3) (o : Outcome) : Outcome :=
  if (o.state.events i).lastDoorStatus ≠ o.state.status i then
    { state := { o.state with
                 events := Function.update o.state.events i (o.state.events i).execute.1 }
      log := o.log ++ (o.state.events i).execute.2 }
  else o

/-- Lines 227-235 of `setTimeEvents`: the six serial prints, then the three comparisons. -/
def reconcile (s : State) : Outcome :=
  let o : Outcome :=
    { state := s
      log :=
        [ Effect.serialPrint (s.morning ++ " "),
          Effect.serialPrintln (s.events 0).lastDoorStatus,
          Effect.serialPrint (s.noon ++ " "),
          Effect.serialPrintln (s.events 1).lastDoorStatus,
          Effect.serialPrint (s.evening ++ " "),
          Effect.serialPrintln (s.events 2).lastDoorStatus ] }
  reconcileOne 2 (reconcileOne 1 (reconcileOne 0 o))

/-- The message printed with every alert pulse (line 252). -/
def pulseMessage : String := "Đã đến giờ uống thuốc"

/-- What one iteration of the alert loop yields: the event, `lastBuzzer`, the calls. -/
structure AlertStep where
  event : TimeEvent
  lastBuzzer : Int
  log : List Effect

/-- Lines 250-260: the rate-limited, capped pulse.  `millis() - lastBuzzer` is computed
in `unsigned long`; `lastBuzzer = millis()` converts back to `long`.  The sign of
`timeOfBuzzer % 2` differs between C and `Int`, its being `0` does not. -/
def pulse (m : MillisReads) (lastBuzzer : Int) (e : TimeEvent) : AlertStep :=
  if toUInt32 ((m.atCheck : Int) - lastBuzzer) ≥ 60000 then
    if e.timeOfBuzzer < 6 then
      { event := { e with timeOfBuzzer := e.timeOfBuzzer + 1 }
        lastBuzzer := toInt32 (m.atStamp : Int)
        log :=
          [ Effect.serialPrintln pulseMessage,
            Effect.digitalWrite Pin.BUZZER_PIN (decide (e.timeOfBuzzer % 2 = 0)) ] }
    else { event := e, lastBuzzer := lastBuzzer, log := [] }
  else { event := e, lastBuzzer := lastBuzzer, log := [] }

/-- Lines 245-263: the in-window block of the alert loop. -/
def alertWindow (cur : Int) (m : MillisReads) (lastBuzzer : Int) (e : TimeEvent) :
    AlertStep :=
  let endMinute := parseTimeToMinutes e.timeEnd
  let startMinute := parseTimeToMinutes e.timeStart
  if cur ≥ startMinute ∧ cur ≤ endMinute then
    let p : AlertStep :=
      if e.enabled = true ∧ e.executed = 0 then pulse m lastBuzzer e
      else { event := e, lastBuzzer := lastBuzzer, log := [] }
    { p with
      log := p.log ++
        (if p.event.executed ≠ 0 then [Effect.digitalWrite Pin.BUZZER_PIN false] else []) }
  else { event := e, lastBuzzer := lastBuzzer, log := [] }

/-- Lines 239-271: the body of the alert loop for one event: the in-window block, then the
reset once the current minute is past the end of the window. -/
def alertBody (cur : Int) (m : MillisReads) (lastBuzzer : Int) (e : TimeEvent) :
    AlertStep :=
  let endMinute := parseTimeToMinutes e.timeEnd
  let a := alertWindow cur m lastBuzzer e
  if cur > endMinute then
    { event := { a.event with executed := 0, timeOfBuzzer := 0 }
      lastBuzzer := a.lastBuzzer
      log := a.log ++
        (if a.event.timeOfBuzzer > 0 ∨ a.event.executed ≠ 0 then
          [Effect.digitalWrite Pin.BUZZER_PIN false] else []) }
  else a

/-- Iteration `i` of the loop at lines 238-272, on the running state and log. -/
def alertIter (cur : Int) (clock : Fin 3 → MillisReads) (o : Outcome) (i : Fin 3) :
    Outcome :=
  let r := alertBody cur (clock i) o.state.lastBuzzer (o.state.events i)
  { state := { o.state with
               events := Function.update o.state.events i r.event
               lastBuzzer := r.lastBuzzer }
    log := o.log ++ r.log }

/-- `setTimeEvents` (lines 214-273). -/
def setTimeEvents (now : DateTime) (r : RemoteReads) (clock : Fin 3 → MillisReads)
    (s : State) : Outcome :=
  [0, 1, 2].foldl (alertIter (currentMinute now) clock) (reconcile (refresh r s))

/-- What `checkAndExecuteTimeEvents` yields: the returned `flag`, the state, the calls. -/
structure CheckOutcome where
  flag : Bool
  state : State
  log : List Effect

/-- Lines 199-209: the body of the loop of `checkAndExecuteTimeEvents` for one event; the
Boolean tells whether `flag = true` was executed. -/
def checkBody (cur : Int) (e : TimeEvent) : TimeEvent × List Effect × Bool :=
  if e.enabled = false then (e, [], false)
  else
    let startMinute := parseTimeToMinutes e.timeStart
    let endMinute := parseTimeToMinutes e.timeEnd
    if cur ≥ startMinute ∧ cur ≤ endMinute then
      if e.executed < 2 then (e.executeDoor.1, e.executeDoor.2, true)
      else (e, [], false)
    else if cur > endMinute then ({ e with executed := 0 }, [], false)
    else (e, [], false)

/-- Iteration `i` of the loop at lines 198-210. -/
def checkIter (cur : Int) (o : CheckOutcome) (i : Fin 3) : CheckOutcome :=
  let r := checkBody cur (o.state.events i)
  { flag := o.flag || r.2.2
    state := { o.state with events := Function.update o.state.events i r.1 }
    log := o.log ++ r.2.1 }

/-- `checkAndExecuteTimeEvents` (lines 195-212). -/
def checkAndExecuteTimeEvents (now : DateTime) (s : State) : CheckOutcome :=
  [0, 1, 2].foldl (checkIter (currentMinute now)) { flag := false, state := s, log := [] }

/-- The scheduler statements of `loop` (lines 300-342): `setTimeEvents(now)`, then, when the
button flag is set, the flag is cleared and `checkAndExecuteTimeEvents(now)` runs. -/
def loop (now : DateTime) (r : RemoteReads) (clock : Fin 3 → MillisReads) (s : State) :
    Outcome :=
  let o := setTimeEvents now r clock s
  if o.state.servo_triggered = true then
    let c := checkAndExecuteTimeEvents now { o.state with servo_triggered := false }
    { state := c.state
      log := o.log ++ [Effect.serialPrintln "🟢 Nút nhấn - điều khiển servo"] ++ c.log ++
        (if c.flag = false then [Effect.serialPrintln "Không phải giờ uống thuốc"] else []) }
  else o

/-! ## Reading the effect list -/

/-- The angles written to servo number `servo`, in order. -/
def servoWrites (servo : Nat) (log : List Effect) : List Int :=
  log.filterMap fun x =>
    match x with
    | Effect.servoWrite k a => if k = servo then some a else none
    | _ => none

/-- The open position of a door servo (lines 66 and 82). -/
def openAngle : Int := 0

/-- The closed position of a door servo (lines 72 and 86). -/
def closedAngle : Int := 180

/-! ## Windows, repeated evaluation, runs -/

/-- The window test of lines 204 and 245: `startMinute <= currentMinute <= endMinute`. -/
def inWindow (now : DateTime) (e : TimeEvent) : Prop :=
  parseTimeToMinutes e.timeStart ≤ currentMinute now ∧
    currentMinute now ≤ parseTimeToMinutes e.timeEnd

instance (now : DateTime) (e : TimeEvent) : Decidable (inWindow now e) := by
  unfold inWindow
  infer_instance

/-- The test of lines 209 and 265: `currentMinute > endMinute`. -/
def pastEnd (now : DateTime) (e : TimeEvent) : Prop :=
  currentMinute now > parseTimeToMinutes e.timeEnd

instance (now : DateTime) (e : TimeEvent) : Decidable (pastEnd now e) := by
  unfold pastEnd
  infer_instance

/-- The state left by one call of `checkAndExecuteTimeEvents(now)`. -/
def checkState (now : DateTime) (s : State) : State :=
  (checkAndExecuteTimeEvents now s).state

/-- Successive calls of `checkAndExecuteTimeEvents`, one per listed time, with the calls
they make in order. -/
def checkMany : List DateTime → State → Outcome
  | [], s => { state := s, log := [] }
  | t :: ts, s =>
    let c := checkAndExecuteTimeEvents t s
    let r := checkMany ts c.state
    { state := r.state, log := c.log ++ r.log }

/-- The state with `events[i]` replaced. -/
def State.setEvent (s : State) (i : Fin 3) (e : TimeEvent) : State :=
  { s with events := Function.update s.events i e }

/-- The operations that change the scheduler state. -/
inductive Op where
  | setTimeEvents (now : DateTime) (r : RemoteReads) (clock : Fin 3 → MillisReads)
  | checkAndExecuteTimeEvents (now : DateTime)
  | executeDoor (i : Fin 3)
  | execute (i : Fin 3)
  | handleButtonPress
  | loop (now : DateTime) (r : RemoteReads) (clock : Fin 3 → MillisReads)

/-- The effect of one operation on the state, with the calls it makes. -/
def applyOp (op : Op) (s : State) : Outcome :=
  match op with
  | Op.setTimeEvents now r clock => setTimeEvents now r clock s
  | Op.checkAndExecuteTimeEvents now =>
    { state := (checkAndExecuteTimeEvents now s).state
      log := (checkAndExecuteTimeEvents now s).log }
  | Op.executeDoor i =>
    { state := s.setEvent i (s.events i).executeDoor.1, log := (s.events i).executeDoor.2 }
  | Op.execute i =>
    { state := s.setEvent i (s.events i).execute.1, log := (s.events i).execute.2 }
  | Op.handleButtonPress => { state := handleButtonPress s, log := [] }
  | Op.loop now r clock => loop now r clock s

/-- A sequence of operations, run in order from `s`. -/
def run : List Op → State → Outcome
  | [], s => { state := s, log := [] }
  | op :: ops, s =>
    let o := applyOp op s
    let r := run ops o.state
    { state := r.state, log := o.log ++ r.log }

/-- The states the firmware can be in: those a sequence of operations reaches from the
initial values of the globals. -/
def Reachable (s : State) : Prop := ∃ ops : List Op, (run ops init).state = s

/-! ## Alert pulses of a run -/

/-- The running state when iteration `i` of the alert loop starts. -/
def alertBefore (cur : Int) (clock : Fin 3 → MillisReads) (o : Outcome) : Fin 3 → Outcome
  | 0 => o
  | 1 => alertIter cur clock o 0
  | 2 => alertIter cur clock (alertIter cur clock o 0) 1

/-- Iteration `i` of the alert loop of `setTimeEvents now r clock` called in state `s`. -/
def alertStepAt (now : DateTime) (r : RemoteReads) (clock : Fin 3 → MillisReads)
    (s : State) (i : Fin 3) : AlertStep :=
  let o := alertBefore (currentMinute now) clock (reconcile (refresh r s)) i
  alertBody (currentMinute now) (clock i) o.state.lastBuzzer (o.state.events i)

/-- The value of `lastBuzzer` when iteration `i` of the alert loop starts. -/
def lastBuzzerAt (now : DateTime) (r : RemoteReads) (clock : Fin 3 → MillisReads)
    (s : State) (i : Fin 3) : Int :=
  (alertBefore (currentMinute now) clock (reconcile (refresh r s)) i).state.lastBuzzer

/-- Number of alert pulses in a list of calls: every pulse prints `pulseMessage`. -/
def pulseCount (log : List Effect) : Nat :=
  log.countP fun x => decide (x = Effect.serialPrintln pulseMessage)

/-- Number of alert pulses the operation emits for `events[i]`. -/
def Op.pulses (i : Fin 3) (op : Op) (s : State) : Nat :=
  match op with
  | Op.setTimeEvents now r clock => pulseCount (alertStepAt now r clock s i).log
  | Op.loop now r clock => pulseCount (alertStepAt now r clock s i).log
  | _ => 0

/-- Whether the operation executes `e.timeOfBuzzer = 0` (line 270) for `events[i]`. -/
def Op.resets (i : Fin 3) (op : Op) (s : State) : Bool :=
  match op with
  | Op.setTimeEvents now r _ => decide (pastEnd now ((refresh r s).events i))
  | Op.loop now r _ => decide (pastEnd now ((refresh r s).events i))
  | _ => false

/-- Number of pulses emitted for `events[i]` since `timeOfBuzzer` was last reset, along a
sequence of operations; `k` is the number on entry. -/
def pulsesSinceReset (i : Fin 3) : List Op → State → Nat → Nat
  | [], _, k => k
  | op :: ops, s, k =>
    pulsesSinceReset i ops (applyOp op s).state
      (if op.resets i s = true then 0 else k + op.pulses i s)

/-- The `millis()` readings of the pulses an operation emits, in order. -/
def Op.pulseTimes (op : Op) (s : State) : List MillisReads :=
  match op with
  | Op.setTimeEvents now r clock =>
    [0, 1, 2].flatMap fun i =>
      if 0 < pulseCount (alertStepAt now r clock s i).log then [clock i] else []
  | Op.loop now r clock =>
    [0, 1, 2].flatMap fun i =>
      if 0 < pulseCount (alertStepAt now r clock s i).log then [clock i] else []
  | _ => []

/-- The `millis()` readings of all pulses of a sequence of operations, in order. -/
def pulseTimes : List Op → State → List MillisReads
  | [], _ => []
  | op :: ops, s => op.pulseTimes s ++ pulseTimes ops (applyOp op s).state

/-! ## Invariant of the reachable states -/

/-- What every reachable `events[i]` satisfies: label and servo are those of the
initialiser, the door status is one of the two door states, the phase is 0, 1 or 2 and the
alert count is between 0 and 6. -/
structure EventInv (i : Fin 3) (e : TimeEvent) : Prop where
  label_eq : e.label = (init.events i).label
  servo_eq : e.servo = i.val + 1
  door : e.lastDoorStatus = "opened" ∨ e.lastDoorStatus = "closed"
  phase_lo : 0 ≤ e.executed
  phase_hi : e.executed ≤ 2
  alert_lo : 0 ≤ e.timeOfBuzzer
  alert_hi : e.timeOfBuzzer ≤ 6

/-- The invariant for the three events. -/
def Inv (s : State) : Prop := ∀ i : Fin 3, EventInv i (s.events i)

/-- The event `events[i]` after the comparison of line 233, 234 or 235. -/
def reconciled (s : State) (i : Fin 3) : TimeEvent :=
  if (s.events i).lastDoorStatus ≠ s.status i then (s.events i).execute.1 else s.events i

/-- The calls made by the comparison of line 233, 234 or 235. -/
def reconciledLog (s : State) (i : Fin 3) : List Effect :=
  if (s.events i).lastDoorStatus ≠ s.status i then (s.events i).execute.2 else []

/-- The path condition of the pulse statements (lines 253-256): inside the window,
enabled with `executed == 0`, at least 60000 ms on the `unsigned long` difference, and
fewer than 6 pulses so far. -/
def pulseFires (cur : Int) (m : MillisReads) (lastBuzzer : Int) (e : TimeEvent) : Prop :=
  (cur ≥ parseTimeToMinutes e.timeStart ∧ cur ≤ parseTimeToMinutes e.timeEnd) ∧
    (e.enabled = true ∧ e.executed = 0) ∧
    toUInt32 ((m.atCheck : Int) - lastBuzzer) ≥ 60000 ∧ e.timeOfBuzzer < 6

instance (cur : Int) (m : MillisReads) (lastBuzzer : Int) (e : TimeEvent) :
    Decidable (pulseFires cur m lastBuzzer e) := by
  unfold pulseFires
  infer_instance

/-- The path condition of the call `e.executeDoor()` at line 206: enabled, inside the
window, `executed < 2`. -/
def callsExecuteDoor (cur : Int) (e : TimeEvent) : Prop :=
  e.enabled = true ∧
    (cur ≥ parseTimeToMinutes e.timeStart ∧ cur ≤ parseTimeToMinutes e.timeEnd) ∧
    e.executed < 2

instance (cur : Int) (e : TimeEvent) : Decidable (callsExecuteDoor cur e) := by
  unfold callsExecuteDoor
  infer_instance

/-! ## Concrete inputs -/

/-- A tick in which every remote read fails. -/
def noReads : RemoteReads where
  start := fun _ => none
  stop := fun _ => none
  enabled := fun _ => none
  status := fun _ => none

/-- A tick in which the remote store returns the schedule of the initialisers, all three
events enabled, and the status strings given. -/
def storeReads (status : Fin 3 → String) : RemoteReads where
  start := fun i => some (init.events i).timeStart
  stop := fun i => some (init.events i).timeEnd
  enabled := fun _ => some true
  status := fun i => some (status i)

/-- All three doors reported closed. -/
def allClosed : Fin 3 → String := fun _ => "closed"

/-- Every `millis()` reading of the tick returns `t`. -/
def clockAt (t : Nat) : Fin 3 → MillisReads := fun _ => { atCheck := t, atStamp := t }

/-- The servo writes the phase mechanism can still make for an event in phase `p`. -/
def remainingWrites (p : Int) : List Int :=
  if p = 0 then [openAngle, closedAngle] else if p = 1 then [closedAngle] else []

/-- The morning door reported opened, the other two closed. -/
def morningOpened : Fin 3 → String := Function.update allClosed 0 "opened"

/-- The state after two button-triggered evaluations at 07:05: the morning event is at
phase 2 with its door closed. -/
def settledState : State := (checkState ⟨7, 5⟩)^[2] init

/-- The state after three alert pulses for the morning event (07:05, 07:06, 07:07, one
minute of `millis()` apart) and one button-triggered evaluation at 07:08: phase 1, alert
count 3, door opened. -/
def leftoverState : State :=
  (run [ Op.setTimeEvents ⟨7, 5⟩ (storeReads allClosed) (clockAt 0),
         Op.setTimeEvents ⟨7, 6⟩ (storeReads allClosed) (clockAt 60000),
         Op.setTimeEvents ⟨7, 7⟩ (storeReads allClosed) (clockAt 120000),
         Op.checkAndExecuteTimeEvents ⟨7, 8⟩ ] init).state

/-- The test of line 250 between the reading stored by one pulse and the reading checked
by the next: the `unsigned long` difference is at least 60000. -/
def apart (p q : MillisReads) : Prop :=
  toUInt32 ((q.atCheck : Int) - toInt32 (p.atStamp : Int)) ≥ 60000

/-- A reading whose conversion to `long` is the initial value `-60000` of `lastBuzzer`. -/
def initialStamp : MillisReads := { atCheck := 0, atStamp := 4294907296 }

/-- The state after the first alert pulse: `setTimeEvents` at 07:05 with every `millis()`
reading equal to `t`, from the initial state. -/
def pulsedState (t : Nat) : State :=
  (setTimeEvents ⟨7, 5⟩ (storeReads allClosed) (clockAt t) init).state

/-- The state after the first alert pulse (reading 5000) and a button-triggered evaluation
at 07:05: the morning event is at phase 1 with alert count 1. -/
def acknowledgedState : State := checkState ⟨7, 5⟩ (pulsedState 5000)

/-- A tick in which the remote store returns the schedule of the initialisers with all
three events disabled, and the status strings given. -/
def disabledReads (status : Fin 3 → String) : RemoteReads where
  start := fun i => some (init.events i).timeStart
  stop := fun i => some (init.events i).timeEnd
  enabled := fun _ => some false
  status := fun i => some (status i)

/-- The state after a button press and a tick at 07:05 from the initial state: the morning
door has been opened by `executeDoor` (phase 1), which also issued the publication of
`"opened"`; the status string last read is still `"closed"`. -/
def openedState : State :=
  (loop ⟨7, 5⟩ (storeReads allClosed) (clockAt 1000) (handleButtonPress init)).state

/-- The moves of the phase counter: from the event `e` (with the window and enabled flag
in force) to the new value `p`, the phase is unchanged, or goes up by one from 0 or 1 for
an enabled event inside its window, or is reset to 0 past the end of the window. -/
def PhaseStep (now : DateTime) (e : TimeEvent) (p : Int) : Prop :=
  p = e.executed ∨
    (p = e.executed + 1 ∧ (e.executed = 0 ∨ e.executed = 1) ∧ e.enabled = true ∧
      inWindow now e) ∨
    (p = 0 ∧ pastEnd now e)

/-- Whether iteration `i` of the loop of `checkAndExecuteTimeEvents` executes lines
206-207, the call `e.executeDoor()` followed by `flag = true`. -/
def checkCalls (now : DateTime) (s : State) (i : Fin 3) : Bool :=
  (checkBody (currentMinute now) (s.events i)).2.2

/-- The calls made by iteration `i` of the loop of `checkAndExecuteTimeEvents`. -/
def checkLog (now : DateTime) (s : State) (i : Fin 3) : List Effect :=
  (checkBody (currentMinute now) (s.events i)).2.1

/-- The morning door reported with the unknown status string `"open"`. -/
def morningUnknown : Fin 3 → String := Function.update allClosed 0 "open"

/-- A tick in which the remote store returns a malformed morning schedule, start `"abc"`
and end `"8h00"`, the rest as in the initialisers. -/
def malformedReads : RemoteReads where
  start := Function.update (fun i => some (init.events i).timeStart) 0 (some "abc")
  stop := Function.update (fun i => some (init.events i).timeEnd) 0 (some "8h00")
  enabled := fun _ => some true
  status := fun i => some (allClosed i)

/-- The servo statements of `setup` (lines 165-171): after the three `attach` calls, angle 0
is written to each servo.  `setup` assigns none of the scheduler variables, so the state
after it is `init`. -/
def setup : List Effect :=
  [Effect.servoWrite 1 0, Effect.servoWrite 2 0, Effect.servoWrite 3 0]

/-- The last angle written to servo number `servo`, if any. -/
def lastWrite (servo : Nat) (log : List Effect) : Option Int :=
  (servoWrites servo log).getLast?

/-- The door status `door` is the one that goes with the servo angle `a`: `"opened"`
with the open position, `"closed"` with the closed position. -/
def DoorMatches (door : String) (a : Int) : Prop :=
  (door = "opened" ∧ a = openAngle) ∨ (door = "closed" ∧ a = closedAngle)

/-- Every servo written in `log` was last written with the angle of the door status of
its event. -/
def DoorsMatchLog (s : State) (log : List Effect) : Prop :=
  ∀ (i : Fin 3) (a : Int), lastWrite (i.val + 1) log = some a →
    DoorMatches (s.events i).lastDoorStatus a

/-- What an operation does to one event and its servo `k`: no write and the door status
kept, or a last write whose angle goes with the new door status. -/
def WritesMatch (k : Nat) (door door1 : String) (log : List Effect) : Prop :=
  (servoWrites k log = [] ∧ door1 = door) ∨
    ∃ a, (servoWrites k log).getLast? = some a ∧ DoorMatches door1 a

/-! # Properties -/

/-! ## Lists indexed by the three events -/

theorem mem_append_three {α : Type} (f : Fin 3 → List α) (i : Fin 3) (x : α) (hx : x ∈ f i) :
    x ∈ f 0 ++ f 1 ++ f 2 := by
  fin_cases i <;> simp_all

theorem servoWrites_append (k : Nat) (a b : List Effect) :
    servoWrites k (a ++ b) = servoWrites k a ++ servoWrites k b := by
  simp [servoWrites, List.filterMap_append]

theorem servoWrites_three (k : Nat) (f : Fin 3 → List Effect) (i : Fin 3)
    (h : ∀ j, j ≠ i → servoWrites k (f j) = []) :
    servoWrites k (f 0 ++ f 1 ++ f 2) = servoWrites k (f i) := by
  simp only [servoWrites_append]
  fin_cases i
  · rw [h 1 (by decide), h 2 (by decide)]; simp
  · rw [h 0 (by decide), h 2 (by decide)]; simp
  · rw [h 0 (by decide), h 1 (by decide)]; simp

/-! ## Frame lemmas for one event -/

section EventLemmas

variable (e : TimeEvent)

@[simp] theorem execute_label : e.execute.1.label = e.label := by
  unfold TimeEvent.execute; split <;> rfl

@[simp] theorem execute_timeStart : e.execute.1.timeStart = e.timeStart := by
  unfold TimeEvent.execute; split <;> rfl

@[simp] theorem execute_timeEnd : e.execute.1.timeEnd = e.timeEnd := by
  unfold TimeEvent.execute; split <;> rfl

@[simp] theorem execute_executed : e.execute.1.executed = e.executed := by
  unfold TimeEvent.execute; split <;> rfl

@[simp] theorem execute_timeOfBuzzer : e.execute.1.timeOfBuzzer = e.timeOfBuzzer := by
  unfold TimeEvent.execute; split <;> rfl

@[simp] theorem execute_enabled : e.execute.1.enabled = e.enabled := by
  unfold TimeEvent.execute; split <;> rfl

@[simp] theorem execute_servo : e.execute.1.servo = e.servo := by
  unfold TimeEvent.execute; split <;> rfl

theorem execute_door :
    e.execute.1.lastDoorStatus = if e.lastDoorStatus = "closed" then "opened" else "closed" := by
  unfold TimeEvent.execute; split <;> rfl

theorem execute_servoWrites (k : Nat) :
    servoWrites k e.execute.2 =
      if e.servo = k then
        [if e.lastDoorStatus = "closed" then openAngle else closedAngle] else [] := by
  unfold TimeEvent.execute
  split <;> by_cases hk : e.servo = k <;>
    simp [servoWrites, List.filterMap_cons, hk, openAngle, closedAngle]

@[simp] theorem executeDoor_label : e.executeDoor.1.label = e.label := by
  unfold TimeEvent.executeDoor; dsimp only; split_ifs <;> rfl

@[simp] theorem executeDoor_timeStart : e.executeDoor.1.timeStart = e.timeStart := by
  unfold TimeEvent.executeDoor; dsimp only; split_ifs <;> rfl

@[simp] theorem executeDoor_timeEnd : e.executeDoor.1.timeEnd = e.timeEnd := by
  unfold TimeEvent.executeDoor; dsimp only; split_ifs <;> rfl

@[simp] theorem executeDoor_timeOfBuzzer : e.executeDoor.1.timeOfBuzzer = e.timeOfBuzzer := by
  unfold TimeEvent.executeDoor; dsimp only; split_ifs <;> rfl

@[simp] theorem executeDoor_enabled : e.executeDoor.1.enabled = e.enabled := by
  unfold TimeEvent.executeDoor; dsimp only; split_ifs <;> rfl

@[simp] theorem executeDoor_servo : e.executeDoor.1.servo = e.servo := by
  unfold TimeEvent.executeDoor; dsimp only; split_ifs <;> rfl

theorem executeDoor_executed :
    e.executeDoor.1.executed = if e.executed < 2 then e.executed + 1 else e.executed := by
  unfold TimeEvent.executeDoor; dsimp only; split_ifs <;> rfl

theorem executeDoor_door :
    e.executeDoor.1.lastDoorStatus =
      if e.executed = 0 then "opened" else if e.executed = 1 then "closed"
      else e.lastDoorStatus := by
  unfold TimeEvent.executeDoor; dsimp only; split_ifs <;> rfl

theorem executeDoor_servoWrites (k : Nat) :
    servoWrites k e.executeDoor.2 =
      if e.servo = k then
        (if e.executed = 0 then [openAngle] else if e.executed = 1 then [closedAngle] else [])
      else [] := by
  unfold TimeEvent.executeDoor
  by_cases h0 : e.executed = 0 <;> by_cases h1 : e.executed = 1 <;>
    by_cases hk : e.servo = k <;>
    simp [servoWrites, List.filterMap_cons, hk, h0, h1, openAngle, closedAngle]

theorem executeDoor_of_zero (h : e.executed = 0) :
    e.executeDoor =
      ({ e with lastDoorStatus := "opened", executed := 1 },
        [ Effect.servoWrite e.servo openAngle,
          Effect.serialPrintln ("🔓 Mở cửa cho: " ++ e.label),
          Effect.setString ("/status/cabinet/" ++ e.label) "opened",
          Effect.setBool ("/settings/reminderTimes/" ++ e.label ++ "/drank") true ]) := by
  simp [TimeEvent.executeDoor, h, openAngle]

theorem executeDoor_of_one (h : e.executed = 1) :
    e.executeDoor =
      ({ e with lastDoorStatus := "closed", executed := 2 },
        [ Effect.servoWrite e.servo closedAngle,
          Effect.serialPrintln ("🔒 Đóng cửa cho: " ++ e.label),
          Effect.setString ("/status/cabinet/" ++ e.label) "closed" ]) := by
  simp [TimeEvent.executeDoor, h, closedAngle]

theorem executeDoor_of_two (h : e.executed = 2) : e.executeDoor = (e, []) := by
  simp [TimeEvent.executeDoor, h]

end EventLemmas

/-! ## The body of the alert loop -/

section AlertLemmas

variable (cur : Int) (m : MillisReads) (lb : Int) (e : TimeEvent)

theorem alertBody_of_fires (h : pulseFires cur m lb e) :
    alertBody cur m lb e =
      { event := { e with timeOfBuzzer := e.timeOfBuzzer + 1 }
        lastBuzzer := toInt32 (m.atStamp : Int)
        log := [ Effect.serialPrintln pulseMessage,
                 Effect.digitalWrite Pin.BUZZER_PIN (decide (e.timeOfBuzzer % 2 = 0)) ] } := by
  obtain ⟨⟨h1, h2⟩, ⟨h3, h4⟩, h5, h6⟩ := h
  have h7 : ¬ cur > parseTimeToMinutes e.timeEnd := by omega
  simp [alertBody, alertWindow, pulse, h1, h2, h3, h4, h5, h6, h7]

theorem alertBody_of_not_fires (h : ¬ pulseFires cur m lb e) :
    alertBody cur m lb e =
      { event :=
          if cur > parseTimeToMinutes e.timeEnd then { e with executed := 0, timeOfBuzzer := 0 }
          else e
        lastBuzzer := lb
        log :=
          if cur > parseTimeToMinutes e.timeEnd then
            (if e.timeOfBuzzer > 0 ∨ e.executed ≠ 0 then
              [Effect.digitalWrite Pin.BUZZER_PIN false] else [])
          else if (cur ≥ parseTimeToMinutes e.timeStart ∧ cur ≤ parseTimeToMinutes e.timeEnd) ∧
              e.executed ≠ 0 then
            [Effect.digitalWrite Pin.BUZZER_PIN false]
          else [] } := by
  unfold pulseFires at h
  unfold alertBody alertWindow pulse
  by_cases hw : cur ≥ parseTimeToMinutes e.timeStart ∧ cur ≤ parseTimeToMinutes e.timeEnd
  · have h7 : ¬ cur > parseTimeToMinutes e.timeEnd := by omega
    by_cases hp : e.enabled = true ∧ e.executed = 0
    · by_cases hr : toUInt32 ((m.atCheck : Int) - lb) ≥ 60000
      · have h6 : ¬ e.timeOfBuzzer < 6 := fun h6 => h ⟨hw, hp, hr, h6⟩
        simp only [hw, hp, hr, h6, h7]
        simp [hp.2]
      · simp only [hw, hp, hr, h7]
        simp [hp.2]
    · simp only [hw, hp, h7]
      by_cases he : e.executed = 0 <;> simp [he]
  · by_cases h7 : cur > parseTimeToMinutes e.timeEnd <;> simp only [hw, h7] <;> simp

@[simp] theorem alertBody_label : (alertBody cur m lb e).event.label = e.label := by
  by_cases h : pulseFires cur m lb e
  · rw [alertBody_of_fires _ _ _ _ h]
  · rw [alertBody_of_not_fires _ _ _ _ h]; dsimp only; split <;> rfl

@[simp] theorem alertBody_timeStart : (alertBody cur m lb e).event.timeStart = e.timeStart := by
  by_cases h : pulseFires cur m lb e
  · rw [alertBody_of_fires _ _ _ _ h]
  · rw [alertBody_of_not_fires _ _ _ _ h]; dsimp only; split <;> rfl

@[simp] theorem alertBody_timeEnd : (alertBody cur m lb e).event.timeEnd = e.timeEnd := by
  by_cases h : pulseFires cur m lb e
  · rw [alertBody_of_fires _ _ _ _ h]
  · rw [alertBody_of_not_fires _ _ _ _ h]; dsimp only; split <;> rfl

@[simp] theorem alertBody_enabled : (alertBody cur m lb e).event.enabled = e.enabled := by
  by_cases h : pulseFires cur m lb e
  · rw [alertBody_of_fires _ _ _ _ h]
  · rw [alertBody_of_not_fires _ _ _ _ h]; dsimp only; split <;> rfl

@[simp] theorem alertBody_door :
    (alertBody cur m lb e).event.lastDoorStatus = e.lastDoorStatus := by
  by_cases h : pulseFires cur m lb e
  · rw [alertBody_of_fires _ _ _ _ h]
  · rw [alertBody_of_not_fires _ _ _ _ h]; dsimp only; split <;> rfl

@[simp] theorem alertBody_servo : (alertBody cur m lb e).event.servo = e.servo := by
  by_cases h : pulseFires cur m lb e
  · rw [alertBody_of_fires _ _ _ _ h]
  · rw [alertBody_of_not_fires _ _ _ _ h]; dsimp only; split <;> rfl

theorem alertBody_executed :
    (alertBody cur m lb e).event.executed =
      if cur > parseTimeToMinutes e.timeEnd then 0 else e.executed := by
  by_cases h : pulseFires cur m lb e
  · have h7 : ¬ cur > parseTimeToMinutes e.timeEnd := by
      have := h.1.2
      omega
    rw [alertBody_of_fires _ _ _ _ h, if_neg h7]
  · rw [alertBody_of_not_fires _ _ _ _ h]; dsimp only; split <;> rfl

theorem alertBody_timeOfBuzzer :
    (alertBody cur m lb e).event.timeOfBuzzer =
      if pulseFires cur m lb e then e.timeOfBuzzer + 1
      else if cur > parseTimeToMinutes e.timeEnd then 0 else e.timeOfBuzzer := by
  by_cases h : pulseFires cur m lb e
  · rw [alertBody_of_fires _ _ _ _ h, if_pos h]
  · rw [alertBody_of_not_fires _ _ _ _ h, if_neg h]; dsimp only; split <;> rfl

theorem alertBody_lastBuzzer :
    (alertBody cur m lb e).lastBuzzer =
      if pulseFires cur m lb e then toInt32 (m.atStamp : Int) else lb := by
  by_cases h : pulseFires cur m lb e
  · rw [alertBody_of_fires _ _ _ _ h, if_pos h]
  · rw [alertBody_of_not_fires _ _ _ _ h, if_neg h]

theorem alertBody_pulseCount :
    pulseCount (alertBody cur m lb e).log = if pulseFires cur m lb e then 1 else 0 := by
  by_cases h : pulseFires cur m lb e
  · rw [alertBody_of_fires _ _ _ _ h, if_pos h]
    simp [pulseCount, List.countP_cons]
  · rw [alertBody_of_not_fires _ _ _ _ h, if_neg h]
    dsimp only
    split_ifs <;> simp [pulseCount, List.countP_cons]

theorem alertBody_servoWrites (k : Nat) : servoWrites k (alertBody cur m lb e).log = [] := by
  by_cases h : pulseFires cur m lb e
  · rw [alertBody_of_fires _ _ _ _ h]
    simp [servoWrites, List.filterMap_cons]
  · rw [alertBody_of_not_fires _ _ _ _ h]
    dsimp only
    split_ifs <;> simp [servoWrites, List.filterMap_cons]

end AlertLemmas

/-! ## The body of the loop of `checkAndExecuteTimeEvents` -/

section CheckLemmas

variable (cur : Int) (e : TimeEvent)

theorem checkBody_of_calls (h : callsExecuteDoor cur e) :
    checkBody cur e = (e.executeDoor.1, e.executeDoor.2, true) := by
  obtain ⟨h1, h2, h3⟩ := h
  simp [checkBody, h1, h2, h3]

theorem checkBody_of_not_calls (h : ¬ callsExecuteDoor cur e) :
    checkBody cur e =
      (if e.enabled = true ∧ cur > parseTimeToMinutes e.timeEnd then { e with executed := 0 }
        else e, [], false) := by
  unfold callsExecuteDoor at h
  unfold checkBody
  by_cases h1 : e.enabled = true
  · have h1f : ¬ e.enabled = false := by simp [h1]
    by_cases hw : cur ≥ parseTimeToMinutes e.timeStart ∧ cur ≤ parseTimeToMinutes e.timeEnd
    · have h7 : ¬ cur > parseTimeToMinutes e.timeEnd := by omega
      have h3 : ¬ e.executed < 2 := fun h3 => h ⟨h1, hw, h3⟩
      simp only [h1f, hw, h3, h7]
      simp
    · by_cases h7 : cur > parseTimeToMinutes e.timeEnd <;> simp only [h1f, hw, h7] <;> simp [h1]
  · have h1f : e.enabled = false := by simpa using h1
    simp [h1f]

@[simp] theorem checkBody_label : (checkBody cur e).1.label = e.label := by
  by_cases h : callsExecuteDoor cur e
  · rw [checkBody_of_calls _ _ h]; simp
  · rw [checkBody_of_not_calls _ _ h]; dsimp only; split <;> rfl

@[simp] theorem checkBody_timeStart : (checkBody cur e).1.timeStart = e.timeStart := by
  by_cases h : callsExecuteDoor cur e
  · rw [checkBody_of_calls _ _ h]; simp
  · rw [checkBody_of_not_calls _ _ h]; dsimp only; split <;> rfl

@[simp] theorem checkBody_timeEnd : (checkBody cur e).1.timeEnd = e.timeEnd := by
  by_cases h : callsExecuteDoor cur e
  · rw [checkBody_of_calls _ _ h]; simp
  · rw [checkBody_of_not_calls _ _ h]; dsimp only; split <;> rfl

@[simp] theorem checkBody_timeOfBuzzer :
    (checkBody cur e).1.timeOfBuzzer = e.timeOfBuzzer := by
  by_cases h : callsExecuteDoor cur e
  · rw [checkBody_of_calls _ _ h]; simp
  · rw [checkBody_of_not_calls _ _ h]; dsimp only; split <;> rfl

@[simp] theorem checkBody_enabled : (checkBody cur e).1.enabled = e.enabled := by
  by_cases h : callsExecuteDoor cur e
  · rw [checkBody_of_calls _ _ h]; simp
  · rw [checkBody_of_not_calls _ _ h]; dsimp only; split <;> rfl

@[simp] theorem checkBody_servo : (checkBody cur e).1.servo = e.servo := by
  by_cases h : callsExecuteDoor cur e
  · rw [checkBody_of_calls _ _ h]; simp
  · rw [checkBody_of_not_calls _ _ h]; dsimp only; split <;> rfl

theorem checkBody_servoWrites (k : Nat) :
    servoWrites k (checkBody cur e).2.1 =
      if callsExecuteDoor cur e ∧ e.servo = k then
        (if e.executed = 0 then [openAngle] else if e.executed = 1 then [closedAngle] else [])
      else [] := by
  by_cases h : callsExecuteDoor cur e
  · rw [checkBody_of_calls _ _ h]
    simp [executeDoor_servoWrites, h]
  · rw [checkBody_of_not_calls _ _ h]
    simp [h, servoWrites]

theorem checkBody_executed_inWindow
    (hw : cur ≥ parseTimeToMinutes e.timeStart ∧ cur ≤ parseTimeToMinutes e.timeEnd) :
    (checkBody cur e).1.executed =
      if callsExecuteDoor cur e then e.executed + 1 else e.executed := by
  by_cases h : callsExecuteDoor cur e
  · rw [checkBody_of_calls _ _ h, if_pos h, executeDoor_executed, if_pos h.2.2]
  · have h7 : ¬ cur > parseTimeToMinutes e.timeEnd := by omega
    rw [checkBody_of_not_calls _ _ h, if_neg h]
    simp [h7]

theorem checkBody_door_of_not_calls (h : ¬ callsExecuteDoor cur e) :
    (checkBody cur e).1.lastDoorStatus = e.lastDoorStatus := by
  rw [checkBody_of_not_calls _ _ h]; dsimp only; split <;> rfl

/-- A second evaluation at the same time changes nothing, unless the first one opened the
door. -/
theorem checkBody_checkBody (h : ¬ (callsExecuteDoor cur e ∧ e.executed ≤ 0)) :
    (checkBody cur (checkBody cur e).1).1 = (checkBody cur e).1 := by
  by_cases hc : callsExecuteDoor cur e
  · have h1 : e.executed = 1 := by
      have := hc.2.2
      by_contra hne
      exact h ⟨hc, by omega⟩
    have hn : ¬ callsExecuteDoor cur (checkBody cur e).1 := by
      rintro ⟨_, _, hlt⟩
      rw [checkBody_of_calls _ _ hc, executeDoor_executed] at hlt
      simp [h1] at hlt
    rw [checkBody_of_not_calls _ _ hn]
    have h7 : ¬ cur > parseTimeToMinutes e.timeEnd := by
      have := hc.2.1.2
      omega
    simp [h7]
  · have hn : ¬ callsExecuteDoor cur (checkBody cur e).1 := by
      rintro ⟨g1, g2, g3⟩
      simp only [checkBody_enabled, checkBody_timeStart, checkBody_timeEnd] at g1 g2
      have h7 : ¬ cur > parseTimeToMinutes e.timeEnd := by omega
      rw [checkBody_of_not_calls _ _ hc] at g3
      simp only [h7, and_false, if_false] at g3
      exact hc ⟨g1, g2, g3⟩
    rw [checkBody_of_not_calls _ _ hn]
    simp only [checkBody_enabled, checkBody_timeEnd]
    rw [checkBody_of_not_calls _ _ hc]
    split <;> rfl

theorem checkBody_iterate_fixed (h : ¬ (callsExecuteDoor cur e ∧ e.executed ≤ 0)) (n : Nat) :
    (fun x => (checkBody cur x).1)^[n + 1] e = (checkBody cur e).1 := by
  rw [Function.iterate_succ_apply]
  exact Function.iterate_fixed (checkBody_checkBody cur e h) n

end CheckLemmas

/-! ## The operations on the whole state -/

section StateLemmas

variable (now : DateTime) (r : RemoteReads) (clock : Fin 3 → MillisReads) (s : State)

theorem checkAndExecute_unfold :
    checkAndExecuteTimeEvents now s =
      checkIter (currentMinute now) (checkIter (currentMinute now)
        (checkIter (currentMinute now) { flag := false, state := s, log := [] } 0) 1) 2 := rfl

theorem check_events (i : Fin 3) :
    (checkAndExecuteTimeEvents now s).state.events i =
      (checkBody (currentMinute now) (s.events i)).1 := by
  rw [checkAndExecute_unfold]
  fin_cases i <;> simp [checkIter, Function.update]

theorem check_log :
    (checkAndExecuteTimeEvents now s).log =
      (checkBody (currentMinute now) (s.events 0)).2.1 ++
        (checkBody (currentMinute now) (s.events 1)).2.1 ++
        (checkBody (currentMinute now) (s.events 2)).2.1 := by
  rw [checkAndExecute_unfold]
  simp [checkIter, Function.update]

theorem check_flag :
    (checkAndExecuteTimeEvents now s).flag =
      ((checkBody (currentMinute now) (s.events 0)).2.2 ||
        (checkBody (currentMinute now) (s.events 1)).2.2 ||
        (checkBody (currentMinute now) (s.events 2)).2.2) := by
  rw [checkAndExecute_unfold]
  simp [checkIter, Function.update]

@[simp] theorem check_lastBuzzer :
    (checkAndExecuteTimeEvents now s).state.lastBuzzer = s.lastBuzzer := by
  rw [checkAndExecute_unfold]; rfl

@[simp] theorem check_servo_triggered :
    (checkAndExecuteTimeEvents now s).state.servo_triggered = s.servo_triggered := by
  rw [checkAndExecute_unfold]; rfl

@[simp] theorem check_status (i : Fin 3) :
    (checkAndExecuteTimeEvents now s).state.status i = s.status i := by
  rw [checkAndExecute_unfold]; fin_cases i <;> rfl

@[simp] theorem refresh_events (i : Fin 3) :
    (refresh r s).events i =
      { s.events i with
        timeStart := (r.start i).getD (s.events i).timeStart
        timeEnd := (r.stop i).getD (s.events i).timeEnd
        enabled := (r.enabled i).getD (s.events i).enabled } := rfl

@[simp] theorem refresh_status (i : Fin 3) :
    (refresh r s).status i = (r.status i).getD (s.status i) := by
  fin_cases i <;> rfl

@[simp] theorem refresh_lastBuzzer : (refresh r s).lastBuzzer = s.lastBuzzer := rfl

@[simp] theorem refresh_servo_triggered :
    (refresh r s).servo_triggered = s.servo_triggered := rfl

theorem reconcileOne_events (o : Outcome) (i j : Fin 3) :
    (reconcileOne i o).state.events j =
      if j = i then reconciled o.state i else o.state.events j := by
  unfold reconcileOne reconciled
  by_cases h : (o.state.events i).lastDoorStatus ≠ o.state.status i
  · by_cases hj : j = i
    · subst hj; simp [h]
    · simp [h, hj, Function.update_noteq hj]
  · by_cases hj : j = i
    · subst hj; simp [h]
    · simp [h, hj]

@[simp] theorem reconcileOne_status (o : Outcome) (i j : Fin 3) :
    (reconcileOne i o).state.status j = o.state.status j := by
  unfold reconcileOne
  split
  · fin_cases j <;> rfl
  · rfl

@[simp] theorem reconcileOne_lastBuzzer (o : Outcome) (i : Fin 3) :
    (reconcileOne i o).state.lastBuzzer = o.state.lastBuzzer := by
  unfold reconcileOne; split <;> rfl

@[simp] theorem reconcileOne_servo_triggered (o : Outcome) (i : Fin 3) :
    (reconcileOne i o).state.servo_triggered = o.state.servo_triggered := by
  unfold reconcileOne; split <;> rfl

theorem reconcileOne_log (o : Outcome) (i : Fin 3) :
    (reconcileOne i o).log = o.log ++ reconciledLog o.state i := by
  unfold reconcileOne reconciledLog
  split <;> simp

theorem reconciled_congr (s t : State) (i : Fin 3) (he : s.events i = t.events i)
    (hs : s.status i = t.status i) : reconciled s i = reconciled t i := by
  unfold reconciled; rw [he, hs]

theorem reconciledLog_congr (s t : State) (i : Fin 3) (he : s.events i = t.events i)
    (hs : s.status i = t.status i) : reconciledLog s i = reconciledLog t i := by
  unfold reconciledLog; rw [he, hs]

theorem reconcile_events (i : Fin 3) : (reconcile s).state.events i = reconciled s i := by
  unfold reconcile
  fin_cases i
  · simp only [reconcileOne_events]
    simp
  · simp only [reconcileOne_events]
    simp
    apply reconciled_congr
    · simp [reconcileOne_events]
    · simp
  · simp only [reconcileOne_events]
    simp
    apply reconciled_congr
    · simp [reconcileOne_events]
    · simp

@[simp] theorem reconcile_status (i : Fin 3) : (reconcile s).state.status i = s.status i := by
  simp [reconcile]

@[simp] theorem reconcile_lastBuzzer : (reconcile s).state.lastBuzzer = s.lastBuzzer := by
  simp [reconcile]

@[simp] theorem reconcile_servo_triggered :
    (reconcile s).state.servo_triggered = s.servo_triggered := by
  simp [reconcile]

/-- The six serial prints at lines 227-232. -/
theorem reconcile_log :
    (reconcile s).log =
      [ Effect.serialPrint (s.morning ++ " "),
        Effect.serialPrintln (s.events 0).lastDoorStatus,
        Effect.serialPrint (s.noon ++ " "),
        Effect.serialPrintln (s.events 1).lastDoorStatus,
        Effect.serialPrint (s.evening ++ " "),
        Effect.serialPrintln (s.events 2).lastDoorStatus ] ++
      reconciledLog s 0 ++ reconciledLog s 1 ++ reconciledLog s 2 := by
  unfold reconcile
  simp only [reconcileOne_log]
  congr 1
  · congr 1
    apply reconciledLog_congr
    · simp [reconcileOne_events]
    · simp
  · apply reconciledLog_congr
    · simp [reconcileOne_events]
    · simp

theorem reconcile_servoWrites (k : Nat) :
    servoWrites k (reconcile s).log =
      servoWrites k (reconciledLog s 0) ++ servoWrites k (reconciledLog s 1) ++
        servoWrites k (reconciledLog s 2) := by
  rw [reconcile_log]
  simp [servoWrites, List.filterMap_append, List.filterMap_cons]

theorem setTimeEvents_unfold :
    setTimeEvents now r clock s =
      alertIter (currentMinute now) clock
        (alertIter (currentMinute now) clock
          (alertIter (currentMinute now) clock (reconcile (refresh r s)) 0) 1) 2 := rfl

theorem alertIter_events (cur : Int) (o : Outcome) (i j : Fin 3) :
    (alertIter cur clock o i).state.events j =
      if j = i then (alertBody cur (clock i) o.state.lastBuzzer (o.state.events i)).event
      else o.state.events j := by
  unfold alertIter
  by_cases hj : j = i
  · subst hj; simp
  · simp [hj, Function.update_noteq hj]

@[simp] theorem alertIter_lastBuzzer (cur : Int) (o : Outcome) (i : Fin 3) :
    (alertIter cur clock o i).state.lastBuzzer =
      (alertBody cur (clock i) o.state.lastBuzzer (o.state.events i)).lastBuzzer := rfl

@[simp] theorem alertIter_servo_triggered (cur : Int) (o : Outcome) (i : Fin 3) :
    (alertIter cur clock o i).state.servo_triggered = o.state.servo_triggered := rfl

@[simp] theorem alertIter_status (cur : Int) (o : Outcome) (i j : Fin 3) :
    (alertIter cur clock o i).state.status j = o.state.status j := by
  fin_cases j <;> rfl

@[simp] theorem alertIter_log (cur : Int) (o : Outcome) (i : Fin 3) :
    (alertIter cur clock o i).log =
      o.log ++ (alertBody cur (clock i) o.state.lastBuzzer (o.state.events i)).log := rfl

/-- Iteration `i` of the alert loop works on the reconciled `events[i]`. -/
theorem alertStepAt_eq (i : Fin 3) :
    alertStepAt now r clock s i =
      alertBody (currentMinute now) (clock i) (lastBuzzerAt now r clock s i)
        (reconciled (refresh r s) i) := by
  unfold alertStepAt lastBuzzerAt
  fin_cases i <;> simp [alertBefore, alertIter_events, reconcile_events]

theorem lastBuzzerAt_zero : lastBuzzerAt now r clock s 0 = s.lastBuzzer := by
  simp [lastBuzzerAt, alertBefore]

theorem lastBuzzerAt_one :
    lastBuzzerAt now r clock s 1 = (alertStepAt now r clock s 0).lastBuzzer := by
  simp [lastBuzzerAt, alertBefore, alertStepAt]

theorem lastBuzzerAt_two :
    lastBuzzerAt now r clock s 2 = (alertStepAt now r clock s 1).lastBuzzer := by
  simp [lastBuzzerAt, alertBefore, alertStepAt]

theorem setTimeEvents_events (i : Fin 3) :
    (setTimeEvents now r clock s).state.events i = (alertStepAt now r clock s i).event := by
  rw [setTimeEvents_unfold]
  unfold alertStepAt
  fin_cases i <;> simp [alertBefore, alertIter_events]

theorem setTimeEvents_log :
    (setTimeEvents now r clock s).log =
      (reconcile (refresh r s)).log ++ (alertStepAt now r clock s 0).log ++
        (alertStepAt now r clock s 1).log ++ (alertStepAt now r clock s 2).log := by
  rw [setTimeEvents_unfold]
  simp [alertStepAt, alertBefore]

theorem setTimeEvents_lastBuzzer :
    (setTimeEvents now r clock s).state.lastBuzzer =
      (alertStepAt now r clock s 2).lastBuzzer := by
  rw [setTimeEvents_unfold]
  simp [alertStepAt, alertBefore]

@[simp] theorem setTimeEvents_servo_triggered :
    (setTimeEvents now r clock s).state.servo_triggered = s.servo_triggered := by
  rw [setTimeEvents_unfold]
  simp

@[simp] theorem setTimeEvents_status (i : Fin 3) :
    (setTimeEvents now r clock s).state.status i = (r.status i).getD (s.status i) := by
  rw [setTimeEvents_unfold]
  simp

theorem setTimeEvents_servoWrites (k : Nat) :
    servoWrites k (setTimeEvents now r clock s).log =
      servoWrites k (reconciledLog (refresh r s) 0) ++
        servoWrites k (reconciledLog (refresh r s) 1) ++
        servoWrites k (reconciledLog (refresh r s) 2) := by
  rw [setTimeEvents_log]
  have h : ∀ a b : List Effect, servoWrites k (a ++ b) = servoWrites k a ++ servoWrites k b :=
    fun a b => by simp [servoWrites, List.filterMap_append]
  simp only [h, alertStepAt_eq, alertBody_servoWrites, reconcile_servoWrites, List.append_nil]

/-- Under pairwise distinct servos, the writes to the servo of `events[i]` made by one call
of `checkAndExecuteTimeEvents` are those of iteration `i`. -/
theorem check_servoWrites (i : Fin 3)
    (hs : ∀ j, j ≠ i → (s.events j).servo ≠ (s.events i).servo) :
    servoWrites (s.events i).servo (checkAndExecuteTimeEvents now s).log =
      servoWrites (s.events i).servo (checkBody (currentMinute now) (s.events i)).2.1 := by
  rw [check_log]
  apply servoWrites_three (s.events i).servo
    (fun j => (checkBody (currentMinute now) (s.events j)).2.1) i
  intro j hj
  rw [checkBody_servoWrites]
  simp [hs j hj]

theorem checkMany_servoWrites (times : List DateTime) (i : Fin 3) :
    ∀ s : State, (∀ j, j ≠ i → (s.events j).servo ≠ (s.events i).servo) →
      0 ≤ (s.events i).executed → (∀ t ∈ times, inWindow t (s.events i)) →
      servoWrites (s.events i).servo (checkMany times s).log <+:
        remainingWrites (s.events i).executed := by
  induction times with
  | nil =>
    intro s _ _ _
    simp [checkMany, servoWrites]
  | cons t ts ih =>
    intro s hs hp hw
    have hwt : inWindow t (s.events i) := hw t (List.mem_cons_self _ _)
    have hsv : ∀ j, ((checkAndExecuteTimeEvents t s).state.events j).servo =
        (s.events j).servo := fun j => by rw [check_events]; simp
    have hex := checkBody_executed_inWindow (currentMinute t) (s.events i) ⟨hwt.1, hwt.2⟩
    have ih' := ih (checkAndExecuteTimeEvents t s).state
      (by intro j hj; rw [hsv, hsv]; exact hs j hj)
      (by rw [check_events, hex]; split <;> omega)
      (by
        intro u hu
        have := hw u (List.mem_cons_of_mem _ hu)
        unfold inWindow at this ⊢
        rw [check_events]
        simpa using this)
    rw [hsv, check_events, hex] at ih'
    show servoWrites _ ((checkAndExecuteTimeEvents t s).log ++ _) <+: _
    rw [servoWrites_append, check_servoWrites t s i hs, checkBody_servoWrites]
    by_cases hc : callsExecuteDoor (currentMinute t) (s.events i)
    · rw [if_pos hc] at ih'
      have hlt := hc.2.2
      by_cases h0 : (s.events i).executed = 0
      · rw [h0] at ih'
        simp only [hc, h0, remainingWrites] at ih' ⊢
        simpa using ih'
      · have h1 : (s.events i).executed = 1 := by omega
        rw [h1] at ih'
        simp only [hc, h1, remainingWrites] at ih' ⊢
        simpa using ih'
    · rw [if_neg hc] at ih'
      simpa [hc] using ih'

@[simp] theorem reconciled_label (i : Fin 3) :
    (reconciled s i).label = (s.events i).label := by
  unfold reconciled; split <;> simp

@[simp] theorem reconciled_timeStart (i : Fin 3) :
    (reconciled s i).timeStart = (s.events i).timeStart := by
  unfold reconciled; split <;> simp

@[simp] theorem reconciled_timeEnd (i : Fin 3) :
    (reconciled s i).timeEnd = (s.events i).timeEnd := by
  unfold reconciled; split <;> simp

@[simp] theorem reconciled_executed (i : Fin 3) :
    (reconciled s i).executed = (s.events i).executed := by
  unfold reconciled; split <;> simp

@[simp] theorem reconciled_timeOfBuzzer (i : Fin 3) :
    (reconciled s i).timeOfBuzzer = (s.events i).timeOfBuzzer := by
  unfold reconciled; split <;> simp

@[simp] theorem reconciled_enabled (i : Fin 3) :
    (reconciled s i).enabled = (s.events i).enabled := by
  unfold reconciled; split <;> simp

@[simp] theorem reconciled_servo (i : Fin 3) :
    (reconciled s i).servo = (s.events i).servo := by
  unfold reconciled; split <;> simp

theorem setTimeEvents_label (i : Fin 3) :
    ((setTimeEvents now r clock s).state.events i).label = (s.events i).label := by
  rw [setTimeEvents_events, alertStepAt_eq]; simp

theorem setTimeEvents_servo (i : Fin 3) :
    ((setTimeEvents now r clock s).state.events i).servo = (s.events i).servo := by
  rw [setTimeEvents_events, alertStepAt_eq]; simp

theorem setTimeEvents_timeStart (i : Fin 3) :
    ((setTimeEvents now r clock s).state.events i).timeStart =
      ((refresh r s).events i).timeStart := by
  rw [setTimeEvents_events, alertStepAt_eq]; simp

theorem setTimeEvents_timeEnd (i : Fin 3) :
    ((setTimeEvents now r clock s).state.events i).timeEnd =
      ((refresh r s).events i).timeEnd := by
  rw [setTimeEvents_events, alertStepAt_eq]; simp

theorem setTimeEvents_enabled (i : Fin 3) :
    ((setTimeEvents now r clock s).state.events i).enabled =
      ((refresh r s).events i).enabled := by
  rw [setTimeEvents_events, alertStepAt_eq]; simp

theorem setTimeEvents_executed (i : Fin 3) :
    ((setTimeEvents now r clock s).state.events i).executed =
      if pastEnd now ((refresh r s).events i) then 0 else (s.events i).executed := by
  rw [setTimeEvents_events, alertStepAt_eq, alertBody_executed]
  simp [pastEnd]

theorem setTimeEvents_timeOfBuzzer (i : Fin 3) :
    ((setTimeEvents now r clock s).state.events i).timeOfBuzzer =
      if pulseFires (currentMinute now) (clock i) (lastBuzzerAt now r clock s i)
          (reconciled (refresh r s) i) then (s.events i).timeOfBuzzer + 1
      else if pastEnd now ((refresh r s).events i) then 0 else (s.events i).timeOfBuzzer := by
  rw [setTimeEvents_events, alertStepAt_eq, alertBody_timeOfBuzzer]
  simp [pastEnd]

theorem mem_setTimeEvents_log (i : Fin 3) (x : Effect)
    (hx : x ∈ (alertStepAt now r clock s i).log) : x ∈ (setTimeEvents now r clock s).log := by
  have h3 := mem_append_three (fun j => (alertStepAt now r clock s j).log) i x hx
  rw [setTimeEvents_log]
  simp only [List.mem_append] at h3 ⊢
  rcases h3 with (h | h) | h
  · exact Or.inl (Or.inl (Or.inr h))
  · exact Or.inl (Or.inr h)
  · exact Or.inr h

theorem checkState_iterate_events (i : Fin 3) (n : Nat) :
    ∀ s : State, ((checkState now)^[n] s).events i =
      (fun e => (checkBody (currentMinute now) e).1)^[n] (s.events i) := by
  induction n with
  | zero => intro s; rfl
  | succ n ih =>
    intro s
    rw [Function.iterate_succ_apply, Function.iterate_succ_apply, ih]
    unfold checkState
    rw [check_events]

theorem loop_of_not_triggered (h : s.servo_triggered = false) :
    loop now r clock s = setTimeEvents now r clock s := by
  simp [loop, h]

theorem loop_of_triggered (h : s.servo_triggered = true) :
    loop now r clock s =
      { state := (checkAndExecuteTimeEvents now
          { (setTimeEvents now r clock s).state with servo_triggered := false }).state
        log := (setTimeEvents now r clock s).log ++
          [Effect.serialPrintln "🟢 Nút nhấn - điều khiển servo"] ++
          (checkAndExecuteTimeEvents now
            { (setTimeEvents now r clock s).state with servo_triggered := false }).log ++
          (if (checkAndExecuteTimeEvents now
              { (setTimeEvents now r clock s).state with servo_triggered := false }).flag = false
            then [Effect.serialPrintln "Không phải giờ uống thuốc"] else []) } := by
  have h2 : (setTimeEvents now r clock s).state.servo_triggered = true := by
    rw [setTimeEvents_servo_triggered, h]
  unfold loop
  simp only [h2, if_true]

theorem loop_events_of_triggered (h : s.servo_triggered = true) (i : Fin 3) :
    (loop now r clock s).state.events i =
      (checkBody (currentMinute now) ((setTimeEvents now r clock s).state.events i)).1 := by
  rw [loop_of_triggered _ _ _ _ h]
  exact check_events now _ i

theorem mem_loop_log_of_triggered (h : s.servo_triggered = true) (i : Fin 3) (x : Effect)
    (hx : x ∈ (checkBody (currentMinute now)
      ((setTimeEvents now r clock s).state.events i)).2.1) :
    x ∈ (loop now r clock s).log := by
  rw [loop_of_triggered _ _ _ _ h]
  have hc := check_log now { (setTimeEvents now r clock s).state with servo_triggered := false }
  have h3 := mem_append_three
    (fun j => (checkBody (currentMinute now)
      ((setTimeEvents now r clock s).state.events j)).2.1) i x hx
  simp only [hc, List.mem_append] at h3 ⊢
  exact Or.inl (Or.inr h3)

end StateLemmas

/-! ## The invariant holds in every reachable state -/

section Invariant

theorem eventInv_execute {i : Fin 3} {e : TimeEvent} (h : EventInv i e) :
    EventInv i e.execute.1 where
  label_eq := by simpa using h.label_eq
  servo_eq := by simpa using h.servo_eq
  door := by rw [execute_door]; split <;> simp
  phase_lo := by simpa using h.phase_lo
  phase_hi := by simpa using h.phase_hi
  alert_lo := by simpa using h.alert_lo
  alert_hi := by simpa using h.alert_hi

theorem eventInv_executeDoor {i : Fin 3} {e : TimeEvent} (h : EventInv i e) :
    EventInv i e.executeDoor.1 where
  label_eq := by simpa using h.label_eq
  servo_eq := by simpa using h.servo_eq
  door := by
    rw [executeDoor_door]
    split_ifs
    · simp
    · simp
    · exact h.door
  phase_lo := by
    have := h.phase_lo
    rw [executeDoor_executed]; split <;> omega
  phase_hi := by
    have := h.phase_hi
    rw [executeDoor_executed]; split <;> omega
  alert_lo := by simpa using h.alert_lo
  alert_hi := by simpa using h.alert_hi

theorem eventInv_alertBody {i : Fin 3} {e : TimeEvent} (h : EventInv i e) (cur : Int)
    (m : MillisReads) (lb : Int) : EventInv i (alertBody cur m lb e).event where
  label_eq := by simpa using h.label_eq
  servo_eq := by simpa using h.servo_eq
  door := by simpa using h.door
  phase_lo := by
    have := h.phase_lo
    rw [alertBody_executed]; split <;> omega
  phase_hi := by
    have := h.phase_hi
    rw [alertBody_executed]; split <;> omega
  alert_lo := by
    have := h.alert_lo
    rw [alertBody_timeOfBuzzer]; split_ifs <;> omega
  alert_hi := by
    have := h.alert_hi
    rw [alertBody_timeOfBuzzer]
    split_ifs with hf
    · have := hf.2.2.2
      omega
    · omega
    · omega

theorem eventInv_checkBody {i : Fin 3} {e : TimeEvent} (h : EventInv i e) (cur : Int) :
    EventInv i (checkBody cur e).1 := by
  by_cases hc : callsExecuteDoor cur e
  · rw [checkBody_of_calls _ _ hc]
    exact eventInv_executeDoor h
  · rw [checkBody_of_not_calls _ _ hc]
    dsimp only
    split
    · exact { h with phase_lo := le_refl _, phase_hi := by norm_num }
    · exact h

theorem eventInv_refresh {i : Fin 3} {s : State} (h : EventInv i (s.events i))
    (r : RemoteReads) : EventInv i ((refresh r s).events i) := by
  rw [refresh_events]
  exact { h with }

theorem eventInv_reconciled {i : Fin 3} {s : State} (h : EventInv i (s.events i)) :
    EventInv i (reconciled s i) := by
  unfold reconciled
  split
  · exact eventInv_execute h
  · exact h

theorem inv_init : Inv init := by
  intro i
  fin_cases i <;> constructor <;> decide

theorem inv_setTimeEvents {s : State} (h : Inv s) (now : DateTime) (r : RemoteReads)
    (clock : Fin 3 → MillisReads) : Inv (setTimeEvents now r clock s).state := by
  intro i
  rw [setTimeEvents_events, alertStepAt_eq]
  exact eventInv_alertBody (eventInv_reconciled (eventInv_refresh (h i) r)) _ _ _

theorem inv_check {s : State} (h : Inv s) (now : DateTime) :
    Inv (checkAndExecuteTimeEvents now s).state := by
  intro i
  rw [check_events]
  exact eventInv_checkBody (h i) _

theorem inv_setEvent {s : State} (h : Inv s) (i : Fin 3) (e : TimeEvent)
    (he : EventInv i e) : Inv (s.setEvent i e) := by
  intro j
  unfold State.setEvent
  by_cases hj : j = i
  · subst hj; simpa using he
  · simpa [Function.update_noteq hj] using h j

theorem inv_loop {s : State} (h : Inv s) (now : DateTime) (r : RemoteReads)
    (clock : Fin 3 → MillisReads) : Inv (loop now r clock s).state := by
  by_cases hb : s.servo_triggered = true
  · intro i
    rw [loop_events_of_triggered _ _ _ _ hb]
    exact eventInv_checkBody (inv_setTimeEvents h now r clock i) _
  · rw [loop_of_not_triggered _ _ _ _ (by simpa using hb)]
    exact inv_setTimeEvents h now r clock

theorem inv_applyOp {s : State} (h : Inv s) (op : Op) : Inv (applyOp op s).state := by
  cases op with
  | setTimeEvents now r clock => exact inv_setTimeEvents h now r clock
  | checkAndExecuteTimeEvents now => exact inv_check h now
  | executeDoor i => exact inv_setEvent h i _ (eventInv_executeDoor (h i))
  | execute i => exact inv_setEvent h i _ (eventInv_execute (h i))
  | handleButtonPress => exact h
  | loop now r clock => exact inv_loop h now r clock

theorem inv_run (ops : List Op) : ∀ {s : State}, Inv s → Inv (run ops s).state := by
  induction ops with
  | nil => intro s h; exact h
  | cons op ops ih => intro s h; exact ih (inv_applyOp h op)

theorem reachable_inv {s : State} (h : Reachable s) : Inv s := by
  obtain ⟨ops, rfl⟩ := h
  exact inv_run ops inv_init

theorem reachable_init : Reachable init := ⟨[], rfl⟩

theorem reachable_step {s : State} (h : Reachable s) (op : Op) :
    Reachable (applyOp op s).state := by
  obtain ⟨ops, rfl⟩ := h
  refine ⟨ops ++ [op], ?_⟩
  have key : ∀ (l : List Op) (t : State),
      (run (l ++ [op]) t).state = (applyOp op (run l t).state).state := by
    intro l
    induction l with
    | nil => intro t; rfl
    | cons a l ih => intro t; exact ih _
  exact key ops init

/-- In a state satisfying the invariant, the servo writes of `setTimeEvents` to the servo of
`events[i]` are those of the comparison of `events[i]` with its status string. -/
theorem setTimeEvents_servoWrites_of_inv {s : State} (h : Inv s) (now : DateTime)
    (r : RemoteReads) (clock : Fin 3 → MillisReads) (i : Fin 3) :
    servoWrites (s.events i).servo (setTimeEvents now r clock s).log =
      if (s.events i).lastDoorStatus ≠ (r.status i).getD (s.status i) then
        [if (s.events i).lastDoorStatus = "closed" then openAngle else closedAngle]
      else [] := by
  rw [setTimeEvents_servoWrites, ← servoWrites_append, ← servoWrites_append,
    servoWrites_three (s.events i).servo (fun j => reconciledLog (refresh r s) j) i]
  · unfold reconciledLog
    simp only [refresh_status, refresh_events]
    split
    · rw [execute_servoWrites]
      simp
    · simp [servoWrites]
  · intro j hj
    unfold reconciledLog
    split
    · rw [execute_servoWrites]
      have h1 := (h j).servo_eq
      have h2 := (h i).servo_eq
      have h3 : (j : Nat) ≠ (i : Nat) := fun h => hj (Fin.ext h)
      simp only [refresh_events]
      rw [if_neg]
      omega
    · simp [servoWrites]

theorem setTimeEvents_door (now : DateTime) (r : RemoteReads) (clock : Fin 3 → MillisReads)
    (s : State) (i : Fin 3) :
    ((setTimeEvents now r clock s).state.events i).lastDoorStatus =
      if (s.events i).lastDoorStatus ≠ (r.status i).getD (s.status i) then
        (if (s.events i).lastDoorStatus = "closed" then "opened" else "closed")
      else (s.events i).lastDoorStatus := by
  rw [setTimeEvents_events, alertStepAt_eq, alertBody_door]
  unfold reconciled
  simp only [refresh_status, refresh_events]
  split
  · rw [execute_door]
  · rfl

theorem loop_timeOfBuzzer (now : DateTime) (r : RemoteReads) (clock : Fin 3 → MillisReads)
    (s : State) (i : Fin 3) :
    ((loop now r clock s).state.events i).timeOfBuzzer =
      ((setTimeEvents now r clock s).state.events i).timeOfBuzzer := by
  by_cases hb : s.servo_triggered = true
  · rw [loop_events_of_triggered _ _ _ _ hb]; simp
  · rw [loop_of_not_triggered _ _ _ _ (by simpa using hb)]

theorem setEvent_timeOfBuzzer (s : State) (i j : Fin 3) (e : TimeEvent)
    (he : e.timeOfBuzzer = (s.events j).timeOfBuzzer) :
    ((s.setEvent j e).events i).timeOfBuzzer = (s.events i).timeOfBuzzer := by
  unfold State.setEvent
  by_cases hij : i = j
  · subst hij; simpa using he
  · simp [Function.update_noteq hij]

/-- One operation moves the alert count of `events[i]` as its pulses and resets say. -/
theorem applyOp_timeOfBuzzer (op : Op) (s : State) (i : Fin 3) :
    ((applyOp op s).state.events i).timeOfBuzzer =
      if op.resets i s = true then 0
      else (s.events i).timeOfBuzzer + (op.pulses i s : Int) := by
  have key : ∀ (now : DateTime) (r : RemoteReads) (clock : Fin 3 → MillisReads),
      ((setTimeEvents now r clock s).state.events i).timeOfBuzzer =
        if decide (pastEnd now ((refresh r s).events i)) = true then 0
        else (s.events i).timeOfBuzzer +
          (pulseCount (alertStepAt now r clock s i).log : Int) := by
    intro now r clock
    rw [setTimeEvents_timeOfBuzzer, alertStepAt_eq, alertBody_pulseCount]
    by_cases hf : pulseFires (currentMinute now) (clock i) (lastBuzzerAt now r clock s i)
        (reconciled (refresh r s) i)
    · have hp : ¬ pastEnd now ((refresh r s).events i) := by
        have h2 := hf.1.2
        simp only [reconciled_timeEnd] at h2
        unfold pastEnd
        omega
      simp only [hf, if_true, decide_eq_true_eq, if_neg hp]
      norm_num
    · by_cases hp : pastEnd now ((refresh r s).events i)
      · simp only [hf, if_false, decide_eq_true_eq, if_pos hp]
      · simp only [hf, if_false, decide_eq_true_eq, if_neg hp]
        norm_num
  cases op with
  | setTimeEvents now r clock => exact key now r clock
  | checkAndExecuteTimeEvents now =>
    show ((checkAndExecuteTimeEvents now s).state.events i).timeOfBuzzer = _
    rw [check_events]
    simp [Op.resets, Op.pulses]
  | executeDoor j =>
    show ((s.setEvent j _).events i).timeOfBuzzer = _
    rw [setEvent_timeOfBuzzer _ _ _ _ (by simp)]
    simp [Op.resets, Op.pulses]
  | execute j =>
    show ((s.setEvent j _).events i).timeOfBuzzer = _
    rw [setEvent_timeOfBuzzer _ _ _ _ (by simp)]
    simp [Op.resets, Op.pulses]
  | handleButtonPress => simp [applyOp, handleButtonPress, Op.resets, Op.pulses]
  | loop now r clock =>
    show ((SmartMediBox.loop now r clock s).state.events i).timeOfBuzzer = _
    rw [loop_timeOfBuzzer]
    exact key now r clock

/-- The pulses counted since the last reset are the alert count. -/
theorem pulsesSinceReset_eq (i : Fin 3) (ops : List Op) :
    ∀ (s : State) (k : Nat), (k : Int) = (s.events i).timeOfBuzzer →
      (pulsesSinceReset i ops s k : Int) = ((run ops s).state.events i).timeOfBuzzer := by
  induction ops with
  | nil => intro s k hk; exact hk
  | cons op ops ih =>
    intro s k hk
    show (pulsesSinceReset i ops (applyOp op s).state _ : Int) =
      ((run ops (applyOp op s).state).state.events i).timeOfBuzzer
    apply ih
    rw [applyOp_timeOfBuzzer]
    split
    · rfl
    · push_cast; rw [hk]

end Invariant

/-! ## Every pulse message of a log belongs to an iteration of the alert loop -/

section PulseAccount

theorem pulseCount_append (a b : List Effect) :
    pulseCount (a ++ b) = pulseCount a + pulseCount b := by
  simp [pulseCount, List.countP_append]

theorem pulseCount_execute {i : Fin 3} {e : TimeEvent} (h : EventInv i e) :
    pulseCount e.execute.2 = 0 := by
  have hl := h.label_eq
  unfold TimeEvent.execute
  fin_cases i <;> simp only [init] at hl <;> split <;>
    simp [pulseCount, List.countP_cons, hl, pulseMessage]

theorem pulseCount_executeDoor {i : Fin 3} {e : TimeEvent} (h : EventInv i e) :
    pulseCount e.executeDoor.2 = 0 := by
  have hl := h.label_eq
  unfold TimeEvent.executeDoor
  fin_cases i <;> simp only [init] at hl <;> dsimp only <;> split_ifs <;>
    simp [pulseCount, List.countP_cons, hl, pulseMessage]

theorem pulseCount_checkBody {i : Fin 3} {e : TimeEvent} (h : EventInv i e) (cur : Int) :
    pulseCount (checkBody cur e).2.1 = 0 := by
  by_cases hc : callsExecuteDoor cur e
  · rw [checkBody_of_calls _ _ hc]
    exact pulseCount_executeDoor h
  · rw [checkBody_of_not_calls _ _ hc]
    rfl

theorem pulseCount_check {s : State} (h : Inv s) (now : DateTime) :
    pulseCount (checkAndExecuteTimeEvents now s).log = 0 := by
  rw [check_log, pulseCount_append, pulseCount_append, pulseCount_checkBody (h 0),
    pulseCount_checkBody (h 1), pulseCount_checkBody (h 2)]

theorem pulseCount_reconciledLog {s : State} (h : Inv s) (i : Fin 3) :
    pulseCount (reconciledLog s i) = 0 := by
  unfold reconciledLog
  split
  · exact pulseCount_execute (h i)
  · rfl

theorem pulseCount_door {i : Fin 3} {e : TimeEvent} (h : EventInv i e) :
    pulseCount [Effect.serialPrintln e.lastDoorStatus] = 0 := by
  rcases h.door with hd | hd <;> rw [hd] <;> decide

theorem pulseCount_reconcile {s : State} (h : Inv s) : pulseCount (reconcile s).log = 0 := by
  have h0 := pulseCount_door (h 0)
  have h1 := pulseCount_door (h 1)
  have h2 := pulseCount_door (h 2)
  rw [reconcile_log, pulseCount_append, pulseCount_append, pulseCount_append,
    pulseCount_reconciledLog h, pulseCount_reconciledLog h, pulseCount_reconciledLog h]
  simp only [pulseCount, List.countP_cons, List.countP_nil] at h0 h1 h2 ⊢
  simp only [Nat.add_zero, Nat.zero_add] at h0 h1 h2 ⊢
  rw [h0, h1, h2]
  simp

/-- In a state satisfying the invariant, the pulse messages printed by `setTimeEvents` are
those of the three iterations of its alert loop. -/
theorem pulseCount_setTimeEvents {s : State} (h : Inv s) (now : DateTime) (r : RemoteReads)
    (clock : Fin 3 → MillisReads) :
    pulseCount (setTimeEvents now r clock s).log =
      (Op.setTimeEvents now r clock).pulses 0 s + (Op.setTimeEvents now r clock).pulses 1 s +
        (Op.setTimeEvents now r clock).pulses 2 s := by
  have hr : Inv (refresh r s) := fun i => eventInv_refresh (h i) r
  rw [setTimeEvents_log, pulseCount_append, pulseCount_append, pulseCount_append,
    pulseCount_reconcile hr]
  simp [Op.pulses]

theorem pulseCount_loop {s : State} (h : Inv s) (now : DateTime) (r : RemoteReads)
    (clock : Fin 3 → MillisReads) :
    pulseCount (loop now r clock s).log = pulseCount (setTimeEvents now r clock s).log := by
  by_cases hb : s.servo_triggered = true
  · have hi : Inv { (setTimeEvents now r clock s).state with servo_triggered := false } :=
      inv_setTimeEvents h now r clock
    rw [loop_of_triggered _ _ _ _ hb]
    simp only [pulseCount_append, pulseCount_check hi]
    split <;> simp [pulseCount, List.countP_cons, pulseMessage]
  · rw [loop_of_not_triggered _ _ _ _ (by simpa using hb)]

/-- In a state satisfying the invariant, the pulse messages printed by an operation are
those counted for the three events. -/
theorem pulseCount_applyOp {s : State} (h : Inv s) (op : Op) :
    pulseCount (applyOp op s).log = op.pulses 0 s + op.pulses 1 s + op.pulses 2 s := by
  cases op with
  | setTimeEvents now r clock => exact pulseCount_setTimeEvents h now r clock
  | checkAndExecuteTimeEvents now => exact pulseCount_check h now
  | executeDoor i => exact pulseCount_executeDoor (h i)
  | execute i => exact pulseCount_execute (h i)
  | handleButtonPress => rfl
  | loop now r clock =>
    show pulseCount (SmartMediBox.loop now r clock s).log = _
    rw [pulseCount_loop h]
    exact pulseCount_setTimeEvents h now r clock

end PulseAccount

/-! ## The rate limit -/

section RateLimit

variable (now : DateTime) (r : RemoteReads) (clock : Fin 3 → MillisReads) (s : State)

theorem not_pulseFires_of_recent (cur : Int) (m : MillisReads) (lb : Int) (e : TimeEvent)
    (t : Nat) (hlb : lb = toInt32 (t : Int)) (h1 : t ≤ m.atCheck)
    (h2 : m.atCheck < t + 60000) : ¬ pulseFires cur m lb e := by
  rintro ⟨_, _, h, _⟩
  rw [hlb] at h
  unfold toUInt32 toInt32 at h
  omega

theorem lastBuzzerAt_succ_of_not_fires (i : Fin 3)
    (h : ¬ pulseFires (currentMinute now) (clock i) (lastBuzzerAt now r clock s i)
      (reconciled (refresh r s) i)) :
    (alertStepAt now r clock s i).lastBuzzer = lastBuzzerAt now r clock s i := by
  rw [alertStepAt_eq, alertBody_lastBuzzer, if_neg h]

/-- When every check reading of the call is less than 60000 after the reading kept in
`lastBuzzer`, no iteration fires and `lastBuzzer` stays. -/
theorem lastBuzzerAt_of_recent (t : Nat) (hlb : s.lastBuzzer = toInt32 (t : Int))
    (hc : ∀ j, t ≤ (clock j).atCheck ∧ (clock j).atCheck < t + 60000) (i : Fin 3) :
    lastBuzzerAt now r clock s i = s.lastBuzzer := by
  have h0 : lastBuzzerAt now r clock s 0 = s.lastBuzzer := lastBuzzerAt_zero now r clock s
  have h1 : lastBuzzerAt now r clock s 1 = s.lastBuzzer := by
    rw [lastBuzzerAt_one, lastBuzzerAt_succ_of_not_fires, h0]
    exact not_pulseFires_of_recent _ _ _ _ t (h0.trans hlb) (hc 0).1 (hc 0).2
  have h2 : lastBuzzerAt now r clock s 2 = s.lastBuzzer := by
    rw [lastBuzzerAt_two, lastBuzzerAt_succ_of_not_fires, h1]
    exact not_pulseFires_of_recent _ _ _ _ t (h1.trans hlb) (hc 1).1 (hc 1).2
  fin_cases i
  · exact h0
  · exact h1
  · exact h2

theorem not_mem_reconciledLog_digitalWrite (i : Fin 3) (b : Bool) :
    Effect.digitalWrite Pin.BUZZER_PIN b ∉ reconciledLog s i := by
  unfold reconciledLog TimeEvent.execute
  split_ifs <;> simp

theorem not_mem_alertBody_high (cur : Int) (m : MillisReads) (lb : Int) (e : TimeEvent)
    (h : ¬ pulseFires cur m lb e) :
    Effect.digitalWrite Pin.BUZZER_PIN true ∉ (alertBody cur m lb e).log := by
  rw [alertBody_of_not_fires _ _ _ _ h]
  dsimp only
  split_ifs <;> simp

theorem alertStepAt_fires_iff (i : Fin 3) :
    0 < pulseCount (alertStepAt now r clock s i).log ↔
      pulseFires (currentMinute now) (clock i) (lastBuzzerAt now r clock s i)
        (reconciled (refresh r s) i) := by
  rw [alertStepAt_eq, alertBody_pulseCount]
  split <;> simp [*]

/-- A step of the chain of pulses: an iteration either fires, passing the test against the
reading kept in `lastBuzzer`, or leaves `lastBuzzer` alone. -/
theorem alertStepAt_chain (i : Fin 3) (p : MillisReads)
    (hlb : lastBuzzerAt now r clock s i = toInt32 (p.atStamp : Int)) :
    ∃ p1 : MillisReads,
      (alertStepAt now r clock s i).lastBuzzer = toInt32 (p1.atStamp : Int) ∧
      ∀ rest, List.Chain apart p1 rest →
        List.Chain apart p
          ((if 0 < pulseCount (alertStepAt now r clock s i).log then [clock i] else []) ++
            rest) := by
  by_cases h : 0 < pulseCount (alertStepAt now r clock s i).log
  · have hf := (alertStepAt_fires_iff now r clock s i).mp h
    refine ⟨clock i, ?_, fun rest hrest => ?_⟩
    · rw [alertStepAt_eq, alertBody_lastBuzzer, if_pos hf]
    · rw [if_pos h]
      refine List.Chain.cons ?_ hrest
      unfold apart
      rw [← hlb]
      exact hf.2.2.1
  · have hf := fun hf => h ((alertStepAt_fires_iff now r clock s i).mpr hf)
    refine ⟨p, ?_, fun rest hrest => ?_⟩
    · rw [alertStepAt_eq, alertBody_lastBuzzer, if_neg hf, hlb]
    · rw [if_neg h]
      exact hrest

/-- The pulses of one call of `setTimeEvents` extend the chain of pulses. -/
theorem setTimeEvents_chain (p0 : MillisReads)
    (hlb : s.lastBuzzer = toInt32 (p0.atStamp : Int)) :
    ∃ p1 : MillisReads,
      (setTimeEvents now r clock s).state.lastBuzzer = toInt32 (p1.atStamp : Int) ∧
      ∀ rest, List.Chain apart p1 rest →
        List.Chain apart p0 ((Op.setTimeEvents now r clock).pulseTimes s ++ rest) := by
  obtain ⟨q1, h1, c1⟩ := alertStepAt_chain now r clock s 0 p0
    ((lastBuzzerAt_zero now r clock s).trans hlb)
  obtain ⟨q2, h2, c2⟩ := alertStepAt_chain now r clock s 1 q1
    ((lastBuzzerAt_one now r clock s).trans h1)
  obtain ⟨q3, h3, c3⟩ := alertStepAt_chain now r clock s 2 q2
    ((lastBuzzerAt_two now r clock s).trans h2)
  refine ⟨q3, (setTimeEvents_lastBuzzer now r clock s).trans h3, fun rest hrest => ?_⟩
  unfold Op.pulseTimes
  simp only [List.flatMap_cons, List.flatMap_nil, List.append_nil, List.append_assoc]
  exact c1 _ (c2 _ (c3 _ hrest))

theorem loop_lastBuzzer :
    (loop now r clock s).state.lastBuzzer = (setTimeEvents now r clock s).state.lastBuzzer := by
  by_cases hb : s.servo_triggered = true
  · rw [loop_of_triggered _ _ _ _ hb]
    exact check_lastBuzzer now _
  · rw [loop_of_not_triggered _ _ _ _ (by simpa using hb)]

theorem applyOp_chain (op : Op) (p0 : MillisReads)
    (hlb : s.lastBuzzer = toInt32 (p0.atStamp : Int)) :
    ∃ p1 : MillisReads,
      (applyOp op s).state.lastBuzzer = toInt32 (p1.atStamp : Int) ∧
      ∀ rest, List.Chain apart p1 rest → List.Chain apart p0 (op.pulseTimes s ++ rest) := by
  cases op with
  | setTimeEvents now r clock => exact setTimeEvents_chain now r clock s p0 hlb
  | checkAndExecuteTimeEvents now =>
    exact ⟨p0, (check_lastBuzzer now s).trans hlb, fun rest h => h⟩
  | executeDoor j => exact ⟨p0, hlb, fun rest h => h⟩
  | execute j => exact ⟨p0, hlb, fun rest h => h⟩
  | handleButtonPress => exact ⟨p0, hlb, fun rest h => h⟩
  | loop now r clock =>
    obtain ⟨p1, h1, h2⟩ := setTimeEvents_chain now r clock s p0 hlb
    exact ⟨p1, (loop_lastBuzzer now r clock s).trans h1, h2⟩

theorem pulseTimes_chain (ops : List Op) :
    ∀ (s : State) (p0 : MillisReads), s.lastBuzzer = toInt32 (p0.atStamp : Int) →
      List.Chain apart p0 (pulseTimes ops s) := by
  induction ops with
  | nil => intro s p0 _; exact List.Chain.nil
  | cons op ops ih =>
    intro s p0 hlb
    obtain ⟨p1, h1, h2⟩ := applyOp_chain s op p0 hlb
    exact h2 _ (ih _ p1 h1)

theorem apart_no_wrap (p q : MillisReads) (h : apart p q) (h1 : p.atStamp ≤ q.atCheck)
    (h2 : q.atCheck < p.atStamp + 4294967296) : p.atStamp + 60000 ≤ q.atCheck := by
  unfold apart toUInt32 toInt32 at h
  omega

/-- `setTimeEvents` never unsets `lastBuzzer`: it keeps it or stores a reading. -/
theorem setTimeEvents_lastBuzzer_cases :
    (setTimeEvents now r clock s).state.lastBuzzer = s.lastBuzzer ∨
      ∃ j, (setTimeEvents now r clock s).state.lastBuzzer =
        toInt32 ((clock j).atStamp : Int) := by
  have step : ∀ i, (alertStepAt now r clock s i).lastBuzzer = lastBuzzerAt now r clock s i ∨
      (alertStepAt now r clock s i).lastBuzzer = toInt32 ((clock i).atStamp : Int) := by
    intro i
    rw [alertStepAt_eq, alertBody_lastBuzzer]
    split
    · exact Or.inr rfl
    · exact Or.inl rfl
  rw [setTimeEvents_lastBuzzer]
  rcases step 2 with h2 | h2
  · rw [h2, lastBuzzerAt_two]
    rcases step 1 with h1 | h1
    · rw [h1, lastBuzzerAt_one]
      rcases step 0 with h0 | h0
      · rw [h0, lastBuzzerAt_zero]
        exact Or.inl rfl
      · exact Or.inr ⟨0, h0⟩
    · exact Or.inr ⟨1, h1⟩
  · exact Or.inr ⟨2, h2⟩

end RateLimit

/-! ## `TimeEvent::executeDoor` -/

/-- C1: `executeDoor` by phase.  With `executed = 0` it writes the open angle to the
event's servo, publishes `"opened"` under `/status/cabinet/<label>` and `drank = true`, sets
`lastDoorStatus` to `"opened"` and leaves `executed = 1`; with `executed = 1` it writes the
closed angle, publishes `"closed"`, sets `lastDoorStatus` to `"closed"` and leaves
`executed = 2`; with `executed = 2` it makes no call at all and returns the event as it
was. -/
theorem executeDoor_by_phase (e : TimeEvent) :
    (e.executed = 0 →
      e.executeDoor =
        ({ e with lastDoorStatus := "opened", executed := 1 },
          [ Effect.servoWrite e.servo openAngle,
            Effect.serialPrintln ("🔓 Mở cửa cho: " ++ e.label),
            Effect.setString ("/status/cabinet/" ++ e.label) "opened",
            Effect.setBool ("/settings/reminderTimes/" ++ e.label ++ "/drank") true ])) ∧
    (e.executed = 1 →
      e.executeDoor =
        ({ e with lastDoorStatus := "closed", executed := 2 },
          [ Effect.servoWrite e.servo closedAngle,
            Effect.serialPrintln ("🔒 Đóng cửa cho: " ++ e.label),
            Effect.setString ("/status/cabinet/" ++ e.label) "closed" ])) ∧
    (e.executed = 2 → e.executeDoor = (e, [])) := by
  exact ⟨executeDoor_of_zero e, executeDoor_of_one e, executeDoor_of_two e⟩

/-- C1 at the morning event of the initial state: the door is opened and the phase is 1. -/
theorem executeDoor_by_phase_witness :
    (init.events 0).executed = 0 ∧
      (init.events 0).executeDoor =
        ({ init.events 0 with lastDoorStatus := "opened", executed := 1 },
          [ Effect.servoWrite 1 openAngle,
            Effect.serialPrintln "🔓 Mở cửa cho: morning",
            Effect.setString "/status/cabinet/morning" "opened",
            Effect.setBool "/settings/reminderTimes/morning/drank" true ]) :=
  ⟨by decide, (executeDoor_by_phase (init.events 0)).1 (by decide)⟩

/-! ## One scheduler tick -/

/-- C2 as stated fails: without the button flag a tick at 07:05 inside the window
07:00-08:00 of the enabled morning event, whose phase is 0, writes nothing to its servo and
leaves the phase at 0. -/
theorem tick_without_button_keeps_phase :
    (init.events 0).enabled = true ∧ inWindow ⟨7, 5⟩ (init.events 0) ∧
      (init.events 0).executed = 0 ∧ init.servo_triggered = false ∧
      ((loop ⟨7, 5⟩ (storeReads allClosed) (clockAt 1000) init).state.events 0).executed = 0 ∧
      servoWrites 1 (loop ⟨7, 5⟩ (storeReads allClosed) (clockAt 1000) init).log = [] := by
  decide

/-- With the button flag set, one iteration of `loop` advances the phase of every event
that, after the refresh from the remote store, is enabled and has the current minute inside
its window: from phase 0 it opens and publishes `"opened"`, from phase 1 it closes and
publishes `"closed"`. -/
theorem button_tick_advances (now : DateTime) (r : RemoteReads)
    (clock : Fin 3 → MillisReads) (s : State) (i : Fin 3)
    (hb : s.servo_triggered = true)
    (hen : ((refresh r s).events i).enabled = true)
    (hw : inWindow now ((refresh r s).events i)) :
    ((s.events i).executed = 0 →
      ((loop now r clock s).state.events i).executed = 1 ∧
      ((loop now r clock s).state.events i).lastDoorStatus = "opened" ∧
      Effect.servoWrite (s.events i).servo openAngle ∈ (loop now r clock s).log ∧
      Effect.setString ("/status/cabinet/" ++ (s.events i).label) "opened" ∈
        (loop now r clock s).log) ∧
    ((s.events i).executed = 1 →
      ((loop now r clock s).state.events i).executed = 2 ∧
      ((loop now r clock s).state.events i).lastDoorStatus = "closed" ∧
      Effect.servoWrite (s.events i).servo closedAngle ∈ (loop now r clock s).log ∧
      Effect.setString ("/status/cabinet/" ++ (s.events i).label) "closed" ∈
        (loop now r clock s).log) := by
  have hend : ¬ currentMinute now > parseTimeToMinutes ((r.stop i).getD (s.events i).timeEnd) := by
    have := hw.2
    simp only [refresh_events] at this
    omega
  -- the event handed to `checkAndExecuteTimeEvents`
  have hlab : ((setTimeEvents now r clock s).state.events i).label = (s.events i).label := by
    rw [setTimeEvents_events, alertStepAt_eq]
    simp [reconciled]; split <;> simp
  have hsv : ((setTimeEvents now r clock s).state.events i).servo = (s.events i).servo := by
    rw [setTimeEvents_events, alertStepAt_eq]
    simp [reconciled]; split <;> simp
  have hex : ((setTimeEvents now r clock s).state.events i).executed = (s.events i).executed := by
    rw [setTimeEvents_events, alertStepAt_eq, alertBody_executed]
    simp [reconciled]
    split <;> simp [hend]
  have hcall : (s.events i).executed < 2 →
      callsExecuteDoor (currentMinute now) ((setTimeEvents now r clock s).state.events i) := by
    intro hlt
    refine ⟨?_, ?_, by rw [hex]; exact hlt⟩
    · rw [setTimeEvents_events, alertStepAt_eq]
      simp [reconciled]
      split <;> simpa using hen
    · rw [setTimeEvents_events, alertStepAt_eq]
      have h1 := hw.1
      have h2 := hw.2
      simp only [refresh_events] at h1 h2
      simp [reconciled]
      split <;> simp <;> exact ⟨h1, h2⟩
  constructor
  · intro h0
    have hc := checkBody_of_calls _ _ (hcall (by omega))
    have hd := executeDoor_of_zero _ (hex.trans h0)
    refine ⟨?_, ?_, ?_, ?_⟩
    · rw [loop_events_of_triggered _ _ _ _ hb, hc, hd]
    · rw [loop_events_of_triggered _ _ _ _ hb, hc, hd]
    · apply mem_loop_log_of_triggered _ _ _ _ hb i
      rw [hc, hd, hsv]
      simp
    · apply mem_loop_log_of_triggered _ _ _ _ hb i
      rw [hc, hd, hlab]
      simp
  · intro h1
    have hc := checkBody_of_calls _ _ (hcall (by omega))
    have hd := executeDoor_of_one _ (hex.trans h1)
    refine ⟨?_, ?_, ?_, ?_⟩
    · rw [loop_events_of_triggered _ _ _ _ hb, hc, hd]
    · rw [loop_events_of_triggered _ _ _ _ hb, hc, hd]
    · apply mem_loop_log_of_triggered _ _ _ _ hb i
      rw [hc, hd, hsv]
      simp
    · apply mem_loop_log_of_triggered _ _ _ _ hb i
      rw [hc, hd, hlab]
      simp

/-- Without the button flag an iteration of `loop` is `setTimeEvents` alone: the phase of
every event is left as it was, or reset to 0 past the end of the window. -/
theorem plain_tick_phase (now : DateTime) (r : RemoteReads) (clock : Fin 3 → MillisReads)
    (s : State) (i : Fin 3) (hb : s.servo_triggered = false) :
    ((loop now r clock s).state.events i).executed =
      if pastEnd now ((refresh r s).events i) then 0 else (s.events i).executed := by
  rw [loop_of_not_triggered _ _ _ _ hb]
  exact setTimeEvents_executed now r clock s i

/-- C2, amended: when the button flag is set, one iteration of `loop` advances the phase of
every event that, after the refresh from the remote store, is enabled and has the current
minute inside its window.  From phase 0 the tick writes the open angle to the event's servo,
publishes `"opened"` under `/status/cabinet/<label>` and ends with phase 1 and door status
`"opened"`; from phase 1 it writes the closed angle, publishes `"closed"` and ends with
phase 2 and door status `"closed"`.  When the button flag is not set, the tick advances the
phase of no event: the phase is left as it was, or reset to 0 when the current minute is
past the end of the window; inside the window it is left as it was. -/
theorem tick_with_button_advances_phase (now : DateTime) (r : RemoteReads)
    (clock : Fin 3 → MillisReads) (s : State) (i : Fin 3) :
    (s.servo_triggered = true → ((refresh r s).events i).enabled = true →
      inWindow now ((refresh r s).events i) →
      ((s.events i).executed = 0 →
        ((loop now r clock s).state.events i).executed = 1 ∧
        ((loop now r clock s).state.events i).lastDoorStatus = "opened" ∧
        Effect.servoWrite (s.events i).servo openAngle ∈ (loop now r clock s).log ∧
        Effect.setString ("/status/cabinet/" ++ (s.events i).label) "opened" ∈
          (loop now r clock s).log) ∧
      ((s.events i).executed = 1 →
        ((loop now r clock s).state.events i).executed = 2 ∧
        ((loop now r clock s).state.events i).lastDoorStatus = "closed" ∧
        Effect.servoWrite (s.events i).servo closedAngle ∈ (loop now r clock s).log ∧
        Effect.setString ("/status/cabinet/" ++ (s.events i).label) "closed" ∈
          (loop now r clock s).log)) ∧
    (s.servo_triggered = false →
      ((loop now r clock s).state.events i).executed =
        (if pastEnd now ((refresh r s).events i) then 0 else (s.events i).executed) ∧
      (inWindow now ((refresh r s).events i) →
        ((loop now r clock s).state.events i).executed = (s.events i).executed)) := by
  refine ⟨fun hb hen hw => button_tick_advances now r clock s i hb hen hw, fun hb => ?_⟩
  have h := plain_tick_phase now r clock s i hb
  refine ⟨h, fun hw => ?_⟩
  have hnp : ¬ pastEnd now ((refresh r s).events i) := by
    have := hw.2
    unfold pastEnd
    omega
  rw [h, if_neg hnp]

/-- C2 amended, at the initial state, tick at 07:05: after a button press the morning door
is opened, `"opened"` is published and the phase is 1; without the button press the phase
stays 0. -/
theorem tick_with_button_advances_phase_witness :
    (handleButtonPress init).servo_triggered = true ∧
      inWindow ⟨7, 5⟩ ((refresh (storeReads allClosed) (handleButtonPress init)).events 0) ∧
      ((loop ⟨7, 5⟩ (storeReads allClosed) (clockAt 1000)
        (handleButtonPress init)).state.events 0).executed = 1 ∧
      Effect.servoWrite 1 openAngle ∈
        (loop ⟨7, 5⟩ (storeReads allClosed) (clockAt 1000) (handleButtonPress init)).log ∧
      ((loop ⟨7, 5⟩ (storeReads allClosed) (clockAt 1000) init).state.events 0).executed =
        (init.events 0).executed :=
  have h := (tick_with_button_advances_phase ⟨7, 5⟩ (storeReads allClosed) (clockAt 1000)
    (handleButtonPress init) 0).1 (by decide) (by decide) (by decide)
  ⟨by decide, by decide, (h.1 (by decide)).1, (h.1 (by decide)).2.2.1,
    ((tick_with_button_advances_phase ⟨7, 5⟩ (storeReads allClosed) (clockAt 1000)
      init 0).2 (by decide)).2 (by decide)⟩

/-! ## Repeated phase evaluation -/

/-- C3: for an event whose servo is not shared, starting from phase 0, any number of calls
of `checkAndExecuteTimeEvents` at times inside the event's window write to its servo at most
twice: the sequence of angles written is an initial part of (open, closed). -/
theorem phase_evaluation_at_most_open_then_close (s : State) (i : Fin 3)
    (times : List DateTime)
    (hs : ∀ j, j ≠ i → (s.events j).servo ≠ (s.events i).servo)
    (h0 : (s.events i).executed = 0)
    (hw : ∀ t ∈ times, inWindow t (s.events i)) :
    servoWrites (s.events i).servo (checkMany times s).log <+: [openAngle, closedAngle] ∧
      (servoWrites (s.events i).servo (checkMany times s).log).length ≤ 2 := by
  have h := checkMany_servoWrites times i s hs (by omega) hw
  rw [h0] at h
  have h' : servoWrites (s.events i).servo (checkMany times s).log <+:
      [openAngle, closedAngle] := by simpa [remainingWrites] using h
  exact ⟨h', by simpa using h'.length_le⟩

/-- C3 at the initial state with five evaluations between 07:05 and 07:50: the morning
servo is opened once and closed once. -/
theorem phase_evaluation_at_most_open_then_close_witness :
    servoWrites 1
        (checkMany [⟨7, 5⟩, ⟨7, 6⟩, ⟨7, 6⟩, ⟨7, 30⟩, ⟨7, 50⟩] init).log = [openAngle, closedAngle] ∧
      (servoWrites (init.events 0).servo
        (checkMany [⟨7, 5⟩, ⟨7, 6⟩, ⟨7, 6⟩, ⟨7, 30⟩, ⟨7, 50⟩] init).log <+:
          [openAngle, closedAngle] ∧
        (servoWrites (init.events 0).servo
          (checkMany [⟨7, 5⟩, ⟨7, 6⟩, ⟨7, 6⟩, ⟨7, 30⟩, ⟨7, 50⟩] init).log).length ≤ 2) :=
  ⟨by decide,
    phase_evaluation_at_most_open_then_close init 0 [⟨7, 5⟩, ⟨7, 6⟩, ⟨7, 6⟩, ⟨7, 30⟩, ⟨7, 50⟩]
      (by decide) (by decide) (by decide)⟩

/-- C4 as stated fails: at 07:05, from the initial state, one evaluation leaves the morning
event at phase 1 with the door opened, two evaluations leave it at phase 2 with the door
closed. -/
theorem phase_evaluation_not_idempotent :
    (((checkState ⟨7, 5⟩)^[2] init).events 0).executed = 2 ∧
      (((checkState ⟨7, 5⟩)^[2] init).events 0).lastDoorStatus = "closed" ∧
      ((checkState ⟨7, 5⟩ init).events 0).executed = 1 ∧
      ((checkState ⟨7, 5⟩ init).events 0).lastDoorStatus = "opened" := by
  decide

/-- C4, amended: `N > 1` evaluations at the same time leave every event exactly as one
evaluation does, except an event for which the first evaluation opens the door (enabled,
inside its window, phase 0): for that one a single evaluation leaves phase 1 and the door
opened, while `N > 1` evaluations leave phase 2 and the door closed. -/
theorem phase_evaluation_repeated (s : State) (now : DateTime) (i : Fin 3) (n : Nat)
    (hn : 1 < n) :
    (¬ (callsExecuteDoor (currentMinute now) (s.events i) ∧ (s.events i).executed ≤ 0) →
      ((checkState now)^[n] s).events i = (checkState now s).events i) ∧
    (callsExecuteDoor (currentMinute now) (s.events i) ∧ (s.events i).executed = 0 →
      ((checkState now s).events i).executed = 1 ∧
      ((checkState now s).events i).lastDoorStatus = "opened" ∧
      (((checkState now)^[n] s).events i).executed = 2 ∧
      (((checkState now)^[n] s).events i).lastDoorStatus = "closed") := by
  obtain ⟨m, rfl⟩ : ∃ m, n = m + 2 := ⟨n - 2, by omega⟩
  have h1 : (checkState now s).events i = (checkBody (currentMinute now) (s.events i)).1 :=
    check_events now s i
  constructor
  · intro h
    rw [checkState_iterate_events, h1]
    exact checkBody_iterate_fixed _ _ h (m + 1)
  · rintro ⟨hc, h0⟩
    have hb : (checkBody (currentMinute now) (s.events i)).1 =
        { s.events i with lastDoorStatus := "opened", executed := 1 } := by
      rw [checkBody_of_calls _ _ hc, executeDoor_of_zero _ h0]
    have hc2 : callsExecuteDoor (currentMinute now)
        (checkBody (currentMinute now) (s.events i)).1 := by
      rw [hb]
      exact ⟨hc.1, hc.2.1, by norm_num⟩
    have hb2 : (checkBody (currentMinute now)
        (checkBody (currentMinute now) (s.events i)).1).1 =
        { s.events i with lastDoorStatus := "closed", executed := 2 } := by
      rw [checkBody_of_calls _ _ hc2, executeDoor_of_one _ (by rw [hb])]
      rw [hb]
    have hfix : ((checkState now)^[m + 2] s).events i =
        { s.events i with lastDoorStatus := "closed", executed := 2 } := by
      rw [checkState_iterate_events, Function.iterate_succ_apply]
      have := checkBody_iterate_fixed (currentMinute now)
        (checkBody (currentMinute now) (s.events i)).1
        (by rintro ⟨_, hle⟩; rw [hb] at hle; simp at hle) m
      rw [this, hb2]
    rw [h1, hb, hfix]
    exact ⟨rfl, rfl, rfl, rfl⟩

/-- C4 amended, at the initial state, 07:05, three evaluations: the noon event (outside its
window) is as after one evaluation, the morning event ends at phase 2 with the door
closed. -/
theorem phase_evaluation_repeated_witness :
    ((checkState ⟨7, 5⟩)^[3] init).events 1 = (checkState ⟨7, 5⟩ init).events 1 ∧
      (((checkState ⟨7, 5⟩)^[3] init).events 0).executed = 2 :=
  ⟨(phase_evaluation_repeated init ⟨7, 5⟩ 1 3 (by decide)).1 (by decide),
    ((phase_evaluation_repeated init ⟨7, 5⟩ 0 3 (by decide)).2 (by decide)).2.2.1⟩

/-! ## Reconciliation -/

/-- C5: in every reachable state, let `want` be the status string `setTimeEvents` compares
`events[i]` with (the value read from `/status/cabinet/<label>` in this tick, or the last
value read when the read fails), and let it be `"opened"` or `"closed"`.  If `want` differs
from the local door status, `setTimeEvents` writes exactly once to the servo of `events[i]`,
the angle of `want`, and leaves the local door status equal to `want`; if they are equal
it writes nothing to that servo and leaves the door status as it is. -/
theorem reconciliation_drives_to_remote (s : State) (hs : Reachable s) (now : DateTime)
    (r : RemoteReads) (clock : Fin 3 → MillisReads) (i : Fin 3) (want : String)
    (hwant : (r.status i).getD (s.status i) = want)
    (hd : want = "opened" ∨ want = "closed") :
    (want ≠ (s.events i).lastDoorStatus →
      servoWrites (s.events i).servo (setTimeEvents now r clock s).log =
        [if want = "opened" then openAngle else closedAngle] ∧
      ((setTimeEvents now r clock s).state.events i).lastDoorStatus = want) ∧
    (want = (s.events i).lastDoorStatus →
      servoWrites (s.events i).servo (setTimeEvents now r clock s).log = [] ∧
      ((setTimeEvents now r clock s).state.events i).lastDoorStatus = want) := by
  have hinv := reachable_inv hs
  have hdoor := (hinv i).door
  rw [setTimeEvents_servoWrites_of_inv hinv now r clock i, setTimeEvents_door, hwant]
  constructor
  · intro hne
    have hne' : (s.events i).lastDoorStatus ≠ want := fun h => hne h.symm
    rw [if_pos hne', if_pos hne']
    rcases hd with hd | hd <;> rcases hdoor with ho | ho
    · exact absurd (hd.trans ho.symm) hne
    · simp [hd, ho]
    · simp [hd, ho, openAngle, closedAngle]
    · exact absurd (hd.trans ho.symm) hne
  · intro heq
    have heq' : ¬ (s.events i).lastDoorStatus ≠ want := fun h => h heq.symm
    rw [if_neg heq', if_neg heq']
    exact ⟨rfl, heq.symm⟩

/-- C5 at the initial state with the remote status of the morning door set to `"opened"`:
the morning servo gets one write, the open angle, and the local status is `"opened"`. -/
theorem reconciliation_drives_to_remote_witness :
    servoWrites 1
        (setTimeEvents ⟨9, 0⟩ (storeReads (Function.update allClosed 0 "opened")) (clockAt 1000)
          init).log = [openAngle] ∧
      ((setTimeEvents ⟨9, 0⟩ (storeReads (Function.update allClosed 0 "opened")) (clockAt 1000)
          init).state.events 0).lastDoorStatus = "opened" :=
  (reconciliation_drives_to_remote init reachable_init ⟨9, 0⟩
    (storeReads (Function.update allClosed 0 "opened")) (clockAt 1000) 0 "opened"
    (by decide) (by decide)).1 (by decide)

/-- When the minute is not past the end of the window, the event `setTimeEvents` hands to
the button-triggered evaluation passes the test of lines 200-205 exactly when the event, as
refreshed, is enabled, inside its window and at a phase below 2. -/
theorem callsExecuteDoor_after_setTimeEvents (now : DateTime) (r : RemoteReads)
    (clock : Fin 3 → MillisReads) (s : State) (i : Fin 3)
    (hp : ¬ pastEnd now ((refresh r s).events i)) :
    callsExecuteDoor (currentMinute now) ((setTimeEvents now r clock s).state.events i) ↔
      ((refresh r s).events i).enabled = true ∧ inWindow now ((refresh r s).events i) ∧
        (s.events i).executed < 2 := by
  unfold callsExecuteDoor inWindow
  rw [setTimeEvents_enabled, setTimeEvents_timeStart, setTimeEvents_timeEnd,
    setTimeEvents_executed, if_neg hp]

/-- The phase after a whole iteration of `loop` whose minute is not past the end of the
window: raised by one when the button flag is set and the event is enabled, inside its
window and at a phase below 2, otherwise left as it was. -/
theorem loop_executed_of_not_pastEnd (now : DateTime) (r : RemoteReads)
    (clock : Fin 3 → MillisReads) (s : State) (i : Fin 3)
    (hp : ¬ pastEnd now ((refresh r s).events i)) :
    ((loop now r clock s).state.events i).executed =
      if s.servo_triggered = true ∧ ((refresh r s).events i).enabled = true ∧
          inWindow now ((refresh r s).events i) ∧ (s.events i).executed < 2 then
        (s.events i).executed + 1
      else (s.events i).executed := by
  have hset : ((setTimeEvents now r clock s).state.events i).executed =
      (s.events i).executed := by rw [setTimeEvents_executed, if_neg hp]
  have hiff := callsExecuteDoor_after_setTimeEvents now r clock s i hp
  by_cases hb : s.servo_triggered = true
  · rw [loop_events_of_triggered _ _ _ _ hb]
    by_cases hc : callsExecuteDoor (currentMinute now)
        ((setTimeEvents now r clock s).state.events i)
    · have hcond := hiff.mp hc
      rw [if_pos ⟨hb, hcond⟩, checkBody_of_calls _ _ hc, executeDoor_executed, hset,
        if_pos hcond.2.2]
    · have hcond : ¬ (s.servo_triggered = true ∧ ((refresh r s).events i).enabled = true ∧
          inWindow now ((refresh r s).events i) ∧ (s.events i).executed < 2) :=
        fun h => hc (hiff.mpr h.2)
      rw [if_neg hcond, checkBody_of_not_calls _ _ hc, setTimeEvents_timeEnd]
      have hp' : ¬ currentMinute now > parseTimeToMinutes ((refresh r s).events i).timeEnd := hp
      simp only [hp', and_false, if_false]
      exact hset
  · have hcond : ¬ (s.servo_triggered = true ∧ ((refresh r s).events i).enabled = true ∧
        inWindow now ((refresh r s).events i) ∧ (s.events i).executed < 2) :=
      fun h => hb h.1
    rw [if_neg hcond, loop_of_not_triggered _ _ _ _ (by simpa using hb)]
    exact hset

/-- C6 as stated fails: with the button flag set, a tick at 07:05 in which the remote status
of the morning door is `"opened"` while the local status is `"closed"` reconciles (the
first write to the morning servo) and is not past the end of the window, yet the phase goes
from 0 to 1, through the button-triggered `executeDoor` (the second write). -/
theorem reconciling_button_tick_advances_phase :
    (handleButtonPress init).servo_triggered = true ∧
      ((handleButtonPress init).events 0).lastDoorStatus = "closed" ∧
      (refresh (storeReads morningOpened) (handleButtonPress init)).status 0 = "opened" ∧
      ¬ pastEnd ⟨7, 5⟩ ((refresh (storeReads morningOpened) (handleButtonPress init)).events 0) ∧
      servoWrites 1 (setTimeEvents ⟨7, 5⟩ (storeReads morningOpened) (clockAt 1000)
        (handleButtonPress init)).log = [openAngle] ∧
      servoWrites 1 (loop ⟨7, 5⟩ (storeReads morningOpened) (clockAt 1000)
        (handleButtonPress init)).log = [openAngle, openAngle] ∧
      ((handleButtonPress init).events 0).executed = 0 ∧
      ((loop ⟨7, 5⟩ (storeReads morningOpened) (clockAt 1000)
        (handleButtonPress init)).state.events 0).executed = 1 := by
  decide

/-- C6, amended: `execute` changes nothing of the event but `lastDoorStatus` and writes the
servo once; hence `setTimeEvents`, whether or not its reconciliation fires, leaves
`executed` as it was whenever the current minute is not past the end of the window used by
this evaluation.  A whole iteration of `loop` at such a minute leaves `executed` as it was
too, in particular when the button flag is clear or the phase is 2, unless the button flag
is set and the event is enabled, inside its window and at a phase below 2: then the
button-triggered evaluation raises `executed` by exactly one. -/
theorem reconciliation_keeps_phase (e : TimeEvent) (now : DateTime) (r : RemoteReads)
    (clock : Fin 3 → MillisReads) (s : State) (i : Fin 3) :
    e.execute.1 = { e with lastDoorStatus := e.execute.1.lastDoorStatus } ∧
    servoWrites e.servo e.execute.2 =
      [if e.lastDoorStatus = "closed" then openAngle else closedAngle] ∧
    (¬ pastEnd now ((refresh r s).events i) →
      ((setTimeEvents now r clock s).state.events i).executed = (s.events i).executed) ∧
    (¬ pastEnd now ((refresh r s).events i) →
      s.servo_triggered = false ∨ (s.events i).executed = 2 →
      ((loop now r clock s).state.events i).executed = (s.events i).executed) ∧
    (¬ pastEnd now ((refresh r s).events i) →
      ((loop now r clock s).state.events i).executed =
        if s.servo_triggered = true ∧ ((refresh r s).events i).enabled = true ∧
            inWindow now ((refresh r s).events i) ∧ (s.events i).executed < 2 then
          (s.events i).executed + 1
        else (s.events i).executed) := by
  have hset : ¬ pastEnd now ((refresh r s).events i) →
      ((setTimeEvents now r clock s).state.events i).executed = (s.events i).executed := by
    intro hp
    rw [setTimeEvents_executed, if_neg hp]
  refine ⟨?_, ?_, hset, ?_, loop_executed_of_not_pastEnd now r clock s i⟩
  · unfold TimeEvent.execute
    split <;> rfl
  · rw [execute_servoWrites, if_pos rfl]
  · intro hp hor
    rw [loop_executed_of_not_pastEnd now r clock s i hp, if_neg]
    rintro ⟨hb, _, _, hlt⟩
    rcases hor with h | h
    · rw [hb] at h
      exact absurd h (by decide)
    · omega

/-- C6 amended, at the settled state (morning event at phase 2, door closed), the button
flag set and the remote status of the morning door set to `"opened"`, tick at 07:10: the
door status becomes `"opened"` and the phase stays 2. -/
theorem reconciliation_keeps_phase_witness :
    (settledState.events 0).executed = 2 ∧
      (settledState.events 0).lastDoorStatus = "closed" ∧
      ((loop ⟨7, 10⟩ (storeReads morningOpened) (clockAt 1000)
        (handleButtonPress settledState)).state.events 0).lastDoorStatus = "opened" ∧
      ((loop ⟨7, 10⟩ (storeReads morningOpened) (clockAt 1000)
        (handleButtonPress settledState)).state.events 0).executed = 2 :=
  ⟨by decide, by decide, by decide,
    (reconciliation_keeps_phase (init.events 0) ⟨7, 10⟩ (storeReads morningOpened)
      (clockAt 1000) (handleButtonPress settledState) 0).2.2.2.1 (by decide)
      (Or.inr (by decide))⟩

/-! ## Window reset -/

/-- C7: whatever the phase, alert count and enabled flag of `events[i]`, a call of
`setTimeEvents` at a minute of the day strictly greater than the end of the window (as
refreshed by this call) leaves `executed = 0` and `timeOfBuzzer = 0`; and when the event had
`executed != 0` or `timeOfBuzzer > 0` the call writes `LOW` to the buzzer pin. -/
theorem window_reset (now : DateTime) (r : RemoteReads) (clock : Fin 3 → MillisReads)
    (s : State) (i : Fin 3) (hp : pastEnd now ((refresh r s).events i)) :
    ((setTimeEvents now r clock s).state.events i).executed = 0 ∧
      ((setTimeEvents now r clock s).state.events i).timeOfBuzzer = 0 ∧
      ((s.events i).executed ≠ 0 ∨ (s.events i).timeOfBuzzer > 0 →
        Effect.digitalWrite Pin.BUZZER_PIN false ∈ (setTimeEvents now r clock s).log) := by
  have hp' : currentMinute now > parseTimeToMinutes (reconciled (refresh r s) i).timeEnd := by
    simpa [pastEnd] using hp
  have hnf : ¬ pulseFires (currentMinute now) (clock i) (lastBuzzerAt now r clock s i)
      (reconciled (refresh r s) i) := by
    rintro ⟨⟨_, hle⟩, _⟩
    omega
  refine ⟨?_, ?_, ?_⟩
  · rw [setTimeEvents_executed, if_pos hp]
  · rw [setTimeEvents_timeOfBuzzer, if_neg hnf, if_pos hp]
  · intro hleft
    apply mem_setTimeEvents_log now r clock s i
    rw [alertStepAt_eq, alertBody_of_not_fires _ _ _ _ hnf]
    simp only [hp', if_true, reconciled_timeOfBuzzer, reconciled_executed, refresh_events]
    rw [if_pos (by tauto)]
    exact List.mem_singleton.mpr rfl

set_option maxRecDepth 8000 in
/-- C7 at the leftover state (phase 1, alert count 3), tick at 08:05 with the window ending
at 08:00: phase and alert count are 0 and the buzzer is written `LOW`. -/
theorem window_reset_witness :
    (leftoverState.events 0).executed = 1 ∧ (leftoverState.events 0).timeOfBuzzer = 3 ∧
      ((setTimeEvents ⟨8, 5⟩ (storeReads morningOpened) (clockAt 3600000)
        leftoverState).state.events 0).executed = 0 ∧
      ((setTimeEvents ⟨8, 5⟩ (storeReads morningOpened) (clockAt 3600000)
        leftoverState).state.events 0).timeOfBuzzer = 0 ∧
      Effect.digitalWrite Pin.BUZZER_PIN false ∈
        (setTimeEvents ⟨8, 5⟩ (storeReads morningOpened) (clockAt 3600000) leftoverState).log :=
  have h := window_reset ⟨8, 5⟩ (storeReads morningOpened) (clockAt 3600000) leftoverState 0
    (by decide)
  ⟨by decide, by decide, h.1, h.2.1, h.2.2 (Or.inl (by decide))⟩

/-! ## Alert bound -/

/-- C8: after any sequence of operations from the initial state, every event has
`0 <= timeOfBuzzer <= 6`, and the number of alert pulses emitted for the event since its
`timeOfBuzzer` was last reset (or since the start) is `timeOfBuzzer`, hence at most 6. -/
theorem alert_count_bounded (ops : List Op) (i : Fin 3) :
    0 ≤ ((run ops init).state.events i).timeOfBuzzer ∧
      ((run ops init).state.events i).timeOfBuzzer ≤ 6 ∧
      (pulsesSinceReset i ops init 0 : Int) = ((run ops init).state.events i).timeOfBuzzer ∧
      pulsesSinceReset i ops init 0 ≤ 6 := by
  have hinv := (inv_run ops inv_init) i
  have heq := pulsesSinceReset_eq i ops init 0 (by fin_cases i <;> rfl)
  refine ⟨hinv.alert_lo, hinv.alert_hi, heq, ?_⟩
  have := hinv.alert_hi
  omega

/-! ## Alert rate limit -/

/-- C9.  (1) Iteration `i` of the alert loop emits a pulse only if the `unsigned long`
difference between the `millis()` reading and `lastBuzzer` is at least 60000; without a
pulse the iteration does not switch the buzzer on, does not touch `lastBuzzer`, and leaves
`timeOfBuzzer` as it was (or at 0 past the end of the window).  (2) If `lastBuzzer` holds
the reading `t` of a pulse and all check readings of a call lie in `[t, t + 60000)`, for
instance at `t + 10`, the call emits no pulse, never writes `HIGH`, keeps `lastBuzzer`, and
leaves the alert count of every event that is not past its window unchanged.  (3) Along any
sequence of operations from the initial state, every two consecutive pulses pass the test of
line 250, so that the check reading of the later one is at least 60000 ms after the stored
reading of the earlier one whenever less than `2^32` ms lie between them. -/
theorem alert_rate_limit (now : DateTime) (r : RemoteReads) (clock : Fin 3 → MillisReads)
    (s : State) (i : Fin 3) (t : Nat) (ops : List Op) :
    ((0 < pulseCount (alertStepAt now r clock s i).log →
        toUInt32 (((clock i).atCheck : Int) - lastBuzzerAt now r clock s i) ≥ 60000) ∧
      (pulseCount (alertStepAt now r clock s i).log = 0 →
        Effect.digitalWrite Pin.BUZZER_PIN true ∉ (alertStepAt now r clock s i).log ∧
        (alertStepAt now r clock s i).lastBuzzer = lastBuzzerAt now r clock s i ∧
        ((setTimeEvents now r clock s).state.events i).timeOfBuzzer =
          if pastEnd now ((refresh r s).events i) then 0 else (s.events i).timeOfBuzzer)) ∧
    (s.lastBuzzer = toInt32 (t : Int) →
      (∀ j, t ≤ (clock j).atCheck ∧ (clock j).atCheck < t + 60000) →
        pulseCount (alertStepAt now r clock s i).log = 0 ∧
        Effect.digitalWrite Pin.BUZZER_PIN true ∉ (setTimeEvents now r clock s).log ∧
        (setTimeEvents now r clock s).state.lastBuzzer = s.lastBuzzer ∧
        (¬ pastEnd now ((refresh r s).events i) →
          ((setTimeEvents now r clock s).state.events i).timeOfBuzzer =
            (s.events i).timeOfBuzzer)) ∧
    List.Chain' (fun p q => apart p q ∧
      (p.atStamp ≤ q.atCheck → q.atCheck < p.atStamp + 4294967296 →
        p.atStamp + 60000 ≤ q.atCheck)) (pulseTimes ops init) := by
  refine ⟨⟨?_, ?_⟩, ?_, ?_⟩
  · intro h
    exact ((alertStepAt_fires_iff now r clock s i).mp h).2.2.1
  · intro h
    have hf : ¬ pulseFires (currentMinute now) (clock i) (lastBuzzerAt now r clock s i)
        (reconciled (refresh r s) i) := by
      intro hf
      have := (alertStepAt_fires_iff now r clock s i).mpr hf
      omega
    refine ⟨?_, lastBuzzerAt_succ_of_not_fires now r clock s i hf, ?_⟩
    · rw [alertStepAt_eq]
      exact not_mem_alertBody_high _ _ _ _ hf
    · rw [setTimeEvents_timeOfBuzzer, if_neg hf]
  · intro hlb hc
    have hnf : ∀ j, ¬ pulseFires (currentMinute now) (clock j) (lastBuzzerAt now r clock s j)
        (reconciled (refresh r s) j) := fun j =>
      not_pulseFires_of_recent _ _ _ _ t
        ((lastBuzzerAt_of_recent now r clock s t hlb hc j).trans hlb) (hc j).1 (hc j).2
    refine ⟨?_, ?_, ?_, ?_⟩
    · rw [alertStepAt_eq, alertBody_pulseCount, if_neg (hnf i)]
    · rw [setTimeEvents_log, reconcile_log]
      simp only [List.mem_append, not_or]
      refine ⟨⟨⟨⟨⟨⟨?_, ?_⟩, ?_⟩, ?_⟩, ?_⟩, ?_⟩, ?_⟩
      · simp
      · exact not_mem_reconciledLog_digitalWrite _ 0 true
      · exact not_mem_reconciledLog_digitalWrite _ 1 true
      · exact not_mem_reconciledLog_digitalWrite _ 2 true
      · rw [alertStepAt_eq]; exact not_mem_alertBody_high _ _ _ _ (hnf 0)
      · rw [alertStepAt_eq]; exact not_mem_alertBody_high _ _ _ _ (hnf 1)
      · rw [alertStepAt_eq]; exact not_mem_alertBody_high _ _ _ _ (hnf 2)
    · rw [setTimeEvents_lastBuzzer, lastBuzzerAt_succ_of_not_fires now r clock s 2 (hnf 2)]
      exact lastBuzzerAt_of_recent now r clock s t hlb hc 2
    · intro hp
      rw [setTimeEvents_timeOfBuzzer, if_neg (hnf i), if_neg hp]
  · have hchain := pulseTimes_chain ops init initialStamp (by decide)
    have h' : List.Chain' apart (pulseTimes ops init) :=
      List.Chain'.tail (l := initialStamp :: pulseTimes ops init) hchain
    exact h'.imp fun p q hpq => ⟨hpq, apart_no_wrap p q hpq⟩

set_option maxRecDepth 8000 in
/-- C9 at the initial state: the first evaluation at 07:05 (reading 5000) emits a pulse, the
test of line 250 being passed; an evaluation 10 ms later emits none and the alert count of
the morning event stays 1. -/
theorem alert_rate_limit_witness :
    toUInt32 (((clockAt 5000 0).atCheck : Int) -
        lastBuzzerAt ⟨7, 5⟩ (storeReads allClosed) (clockAt 5000) init 0) ≥ 60000 ∧
      ((pulsedState 5000).events 0).timeOfBuzzer = 1 ∧
      ((setTimeEvents ⟨7, 5⟩ (storeReads allClosed) (clockAt 5010)
        (pulsedState 5000)).state.events 0).timeOfBuzzer =
          ((pulsedState 5000).events 0).timeOfBuzzer :=
  ⟨(alert_rate_limit ⟨7, 5⟩ (storeReads allClosed) (clockAt 5000) init 0 0 []).1.1 (by decide),
    by decide,
    ((alert_rate_limit ⟨7, 5⟩ (storeReads allClosed) (clockAt 5010) (pulsedState 5000) 0 5000
      []).2.1 (by decide) (by decide)).2.2.2 (by decide)⟩

/-! ## Switching the alert off -/

set_option maxRecDepth 8000 in
/-- C10 as stated fails: after the phase of the morning event has advanced to 1 inside the
window with alert count 1, the next `setTimeEvents` (07:06, one minute of `millis()` later)
leaves the alert count at 1 and `lastBuzzer` at the reading 5000 of the last pulse. -/
theorem alert_count_kept_after_acknowledgement :
    (acknowledgedState.events 0).executed = 1 ∧
      (acknowledgedState.events 0).timeOfBuzzer = 1 ∧
      inWindow ⟨7, 6⟩ (acknowledgedState.events 0) ∧
      ((setTimeEvents ⟨7, 6⟩ (storeReads morningOpened) (clockAt 65000)
        acknowledgedState).state.events 0).timeOfBuzzer = 1 ∧
      (setTimeEvents ⟨7, 6⟩ (storeReads morningOpened) (clockAt 65000)
        acknowledgedState).state.lastBuzzer = 5000 := by
  decide

/-- C10, amended.  Inside the window with `executed != 0`, `setTimeEvents` writes `LOW` to
the buzzer pin and leaves `executed` and `timeOfBuzzer` as they were.  Past the end of the
window it sets `executed` and `timeOfBuzzer` to 0 and writes `LOW` when either was non-zero.
`lastBuzzer` is never unset: `setTimeEvents` keeps it or stores a `millis()` reading in it,
and `checkAndExecuteTimeEvents`, whose reset sets only `executed` to 0, changes neither
`timeOfBuzzer` nor `lastBuzzer`. -/
theorem alert_off_after_phase_advance_or_window_end (now : DateTime) (r : RemoteReads)
    (clock : Fin 3 → MillisReads) (s : State) (i : Fin 3) :
    (inWindow now ((refresh r s).events i) → (s.events i).executed ≠ 0 →
      Effect.digitalWrite Pin.BUZZER_PIN false ∈ (setTimeEvents now r clock s).log ∧
      ((setTimeEvents now r clock s).state.events i).executed = (s.events i).executed ∧
      ((setTimeEvents now r clock s).state.events i).timeOfBuzzer =
        (s.events i).timeOfBuzzer) ∧
    (pastEnd now ((refresh r s).events i) →
      ((setTimeEvents now r clock s).state.events i).executed = 0 ∧
      ((setTimeEvents now r clock s).state.events i).timeOfBuzzer = 0 ∧
      ((s.events i).executed ≠ 0 ∨ (s.events i).timeOfBuzzer > 0 →
        Effect.digitalWrite Pin.BUZZER_PIN false ∈ (setTimeEvents now r clock s).log)) ∧
    ((setTimeEvents now r clock s).state.lastBuzzer = s.lastBuzzer ∨
      ∃ j, (setTimeEvents now r clock s).state.lastBuzzer =
        toInt32 ((clock j).atStamp : Int)) ∧
    ((checkAndExecuteTimeEvents now s).state.events i).timeOfBuzzer =
      (s.events i).timeOfBuzzer ∧
    (checkAndExecuteTimeEvents now s).state.lastBuzzer = s.lastBuzzer := by
  refine ⟨?_, ?_, setTimeEvents_lastBuzzer_cases now r clock s, ?_, check_lastBuzzer now s⟩
  · intro hw hne
    have hw1 := hw.1
    have hw2 := hw.2
    have hnp : ¬ pastEnd now ((refresh r s).events i) := by
      unfold pastEnd
      omega
    have hnf : ¬ pulseFires (currentMinute now) (clock i) (lastBuzzerAt now r clock s i)
        (reconciled (refresh r s) i) := by
      rintro ⟨_, ⟨_, h0⟩, _⟩
      rw [reconciled_executed] at h0
      exact hne h0
    refine ⟨?_, ?_, ?_⟩
    · apply mem_setTimeEvents_log now r clock s i
      rw [alertStepAt_eq, alertBody_of_not_fires _ _ _ _ hnf]
      have hnp' : ¬ currentMinute now >
          parseTimeToMinutes (reconciled (refresh r s) i).timeEnd := by
        rw [reconciled_timeEnd]; exact hnp
      have hin : (currentMinute now ≥
            parseTimeToMinutes (reconciled (refresh r s) i).timeStart ∧
          currentMinute now ≤ parseTimeToMinutes (reconciled (refresh r s) i).timeEnd) ∧
          (reconciled (refresh r s) i).executed ≠ 0 := by
        rw [reconciled_timeStart, reconciled_timeEnd, reconciled_executed]
        exact ⟨⟨hw1, hw2⟩, hne⟩
      simp only [if_neg hnp', if_pos hin]
      exact List.mem_singleton.mpr rfl
    · rw [setTimeEvents_executed, if_neg hnp]
    · rw [setTimeEvents_timeOfBuzzer, if_neg hnf, if_neg hnp]
  · intro hp
    have hp' : currentMinute now >
        parseTimeToMinutes (reconciled (refresh r s) i).timeEnd := by
      rw [reconciled_timeEnd]; exact hp
    have hnf : ¬ pulseFires (currentMinute now) (clock i) (lastBuzzerAt now r clock s i)
        (reconciled (refresh r s) i) := by
      rintro ⟨⟨_, hle⟩, _⟩
      omega
    refine ⟨?_, ?_, ?_⟩
    · rw [setTimeEvents_executed, if_pos hp]
    · rw [setTimeEvents_timeOfBuzzer, if_neg hnf, if_pos hp]
    · intro hleft
      apply mem_setTimeEvents_log now r clock s i
      rw [alertStepAt_eq, alertBody_of_not_fires _ _ _ _ hnf]
      simp only [hp', if_true, reconciled_timeOfBuzzer, reconciled_executed, refresh_events]
      rw [if_pos (by tauto)]
      exact List.mem_singleton.mpr rfl
  · rw [check_events]
    simp

set_option maxRecDepth 8000 in
/-- C10 amended, at the acknowledged state, tick at 07:06: the buzzer is written `LOW`, the
phase stays 1 and the alert count stays 1. -/
theorem alert_off_after_phase_advance_or_window_end_witness :
    Effect.digitalWrite Pin.BUZZER_PIN false ∈
        (setTimeEvents ⟨7, 6⟩ (storeReads morningOpened) (clockAt 65000)
          acknowledgedState).log ∧
      ((setTimeEvents ⟨7, 6⟩ (storeReads morningOpened) (clockAt 65000)
        acknowledgedState).state.events 0).executed = (acknowledgedState.events 0).executed ∧
      ((setTimeEvents ⟨7, 6⟩ (storeReads morningOpened) (clockAt 65000)
        acknowledgedState).state.events 0).timeOfBuzzer =
          (acknowledgedState.events 0).timeOfBuzzer :=
  (alert_off_after_phase_advance_or_window_end ⟨7, 6⟩ (storeReads morningOpened)
    (clockAt 65000) acknowledgedState 0).1 (by decide) (by decide)

/-! ## The whole tick -/

section Tick

variable (now : DateTime) (r : RemoteReads) (clock : Fin 3 → MillisReads) (s : State)

theorem checkBody_of_disabled (cur : Int) (e : TimeEvent) (h : e.enabled = false) :
    checkBody cur e = (e, [], false) := by
  simp [checkBody, h]

theorem loop_events (i : Fin 3) :
    (loop now r clock s).state.events i =
      if s.servo_triggered = true then
        (checkBody (currentMinute now) ((setTimeEvents now r clock s).state.events i)).1
      else (setTimeEvents now r clock s).state.events i := by
  by_cases hb : s.servo_triggered = true
  · rw [if_pos hb, loop_events_of_triggered _ _ _ _ hb]
  · rw [if_neg hb, loop_of_not_triggered _ _ _ _ (by simpa using hb)]

/-- The servo writes of a tick: those of `setTimeEvents`, then, when the button flag is set,
those of `checkAndExecuteTimeEvents`. -/
theorem loop_servoWrites (k : Nat) :
    servoWrites k (loop now r clock s).log =
      servoWrites k (setTimeEvents now r clock s).log ++
        (if s.servo_triggered = true then
          servoWrites k (checkAndExecuteTimeEvents now
            { (setTimeEvents now r clock s).state with servo_triggered := false }).log
        else []) := by
  by_cases hb : s.servo_triggered = true
  · rw [if_pos hb, loop_of_triggered _ _ _ _ hb]
    simp only [servoWrites_append]
    have h1 : servoWrites k [Effect.serialPrintln "🟢 Nút nhấn - điều khiển servo"] = [] := rfl
    have h2 : ∀ c : Prop, ∀ _ : Decidable c,
        servoWrites k (if c then [Effect.serialPrintln "Không phải giờ uống thuốc"] else []) =
          [] := by
      intro c _
      split <;> rfl
    rw [h1, h2]
    simp
  · rw [if_neg hb, loop_of_not_triggered _ _ _ _ (by simpa using hb)]
    simp

/-- In a state satisfying the invariant, the writes of a tick to the servo of `events[i]`
are those of the reconciliation of `events[i]`, then those of iteration `i` of the
button-triggered evaluation. -/
theorem loop_servoWrites_of_inv {s : State} (h : Inv s) (now : DateTime) (r : RemoteReads)
    (clock : Fin 3 → MillisReads) (i : Fin 3) :
    servoWrites (s.events i).servo (loop now r clock s).log =
      (if (s.events i).lastDoorStatus ≠ (r.status i).getD (s.status i) then
        [if (s.events i).lastDoorStatus = "closed" then openAngle else closedAngle]
      else []) ++
        (if s.servo_triggered = true then
          servoWrites (s.events i).servo
            (checkBody (currentMinute now) ((setTimeEvents now r clock s).state.events i)).2.1
        else []) := by
  have h2 : (if s.servo_triggered = true then
        servoWrites (s.events i).servo (checkAndExecuteTimeEvents now
          { (setTimeEvents now r clock s).state with servo_triggered := false }).log
      else []) =
      (if s.servo_triggered = true then
        servoWrites (s.events i).servo
          (checkBody (currentMinute now) ((setTimeEvents now r clock s).state.events i)).2.1
      else []) := by
    by_cases hb : s.servo_triggered = true
    · rw [if_pos hb, if_pos hb]
      have hi := inv_setTimeEvents h now r clock
      have hsv : ((setTimeEvents now r clock s).state.events i).servo =
          (s.events i).servo := setTimeEvents_servo now r clock s i
      have hd : ∀ j, j ≠ i →
          ((setTimeEvents now r clock s).state.events j).servo ≠
            ((setTimeEvents now r clock s).state.events i).servo := by
        intro j hj
        have h1 := (hi j).servo_eq
        have h2 := (hi i).servo_eq
        have h3 : (j : Nat) ≠ (i : Nat) := fun h => hj (Fin.ext h)
        omega
      have key := check_servoWrites now
        { (setTimeEvents now r clock s).state with servo_triggered := false } i hd
      rw [← hsv]
      exact key
    · rw [if_neg hb, if_neg hb]
  rw [loop_servoWrites, setTimeEvents_servoWrites_of_inv h, h2]

end Tick

/-! ## Disabled events -/

/-- For an event that is disabled after the refresh, a tick ends with the event as
`setTimeEvents` left it, and iteration `i` of the alert loop does not fire. -/
theorem loop_events_of_disabled (now : DateTime) (r : RemoteReads)
    (clock : Fin 3 → MillisReads) (s : State) (i : Fin 3)
    (hdis : ((refresh r s).events i).enabled = false) :
    (loop now r clock s).state.events i = (setTimeEvents now r clock s).state.events i ∧
      ¬ pulseFires (currentMinute now) (clock i) (lastBuzzerAt now r clock s i)
        (reconciled (refresh r s) i) := by
  have hen : ((setTimeEvents now r clock s).state.events i).enabled = false := by
    rw [setTimeEvents_enabled]; exact hdis
  constructor
  · rw [loop_events]
    split
    · rw [checkBody_of_disabled _ _ hen]
    · rfl
  · rintro ⟨_, ⟨h1, _⟩, _⟩
    rw [reconciled_enabled, hdis] at h1
    exact absurd h1 (by decide)

set_option maxRecDepth 8000 in
/-- C11 as stated fails: with all events disabled by the remote store, a tick at 09:00 in
which the remote status of the morning door is `"opened"` writes the open angle to the
morning servo and sets its door status to `"opened"`; and a tick at 08:05 on the leftover
state (phase 1, alert count 3) resets phase and alert count of the disabled event to 0. -/
theorem disabled_event_reconciled_and_reset :
    ((refresh (disabledReads morningOpened) init).events 0).enabled = false ∧
      servoWrites 1 (loop ⟨9, 0⟩ (disabledReads morningOpened) (clockAt 1000) init).log =
        [openAngle] ∧
      (init.events 0).lastDoorStatus = "closed" ∧
      ((loop ⟨9, 0⟩ (disabledReads morningOpened) (clockAt 1000) init).state.events 0
        ).lastDoorStatus = "opened" ∧
      (leftoverState.events 0).executed = 1 ∧ (leftoverState.events 0).timeOfBuzzer = 3 ∧
      ((loop ⟨8, 5⟩ (disabledReads morningOpened) (clockAt 3600000)
        leftoverState).state.events 0).executed = 0 ∧
      ((loop ⟨8, 5⟩ (disabledReads morningOpened) (clockAt 3600000)
        leftoverState).state.events 0).timeOfBuzzer = 0 := by
  decide

/-- C11, amended: in every reachable state, for an event that is disabled after the
refresh, one tick (`setTimeEvents`, then `checkAndExecuteTimeEvents` when the button flag is
set) emits no alert pulse for it and never calls `executeDoor` on it; its servo is written
only by the reconciliation, once, when its door status differs from the status string of
this tick, and its door status changes only then; `executed` and `timeOfBuzzer` are left
unchanged unless the current minute is past the end of the window, in which case both are
set to 0. -/
theorem disabled_event_tick (s : State) (hs : Reachable s) (now : DateTime)
    (r : RemoteReads) (clock : Fin 3 → MillisReads) (i : Fin 3)
    (hdis : ((refresh r s).events i).enabled = false) :
    pulseCount (alertStepAt now r clock s i).log = 0 ∧
    servoWrites (s.events i).servo (loop now r clock s).log =
      (if (s.events i).lastDoorStatus ≠ (r.status i).getD (s.status i) then
        [if (s.events i).lastDoorStatus = "closed" then openAngle else closedAngle]
      else []) ∧
    ((loop now r clock s).state.events i).lastDoorStatus =
      (if (s.events i).lastDoorStatus ≠ (r.status i).getD (s.status i) then
        (if (s.events i).lastDoorStatus = "closed" then "opened" else "closed")
      else (s.events i).lastDoorStatus) ∧
    ((loop now r clock s).state.events i).executed =
      (if pastEnd now ((refresh r s).events i) then 0 else (s.events i).executed) ∧
    ((loop now r clock s).state.events i).timeOfBuzzer =
      (if pastEnd now ((refresh r s).events i) then 0 else (s.events i).timeOfBuzzer) := by
  obtain ⟨hev, hnf⟩ := loop_events_of_disabled now r clock s i hdis
  have hen : ((setTimeEvents now r clock s).state.events i).enabled = false := by
    rw [setTimeEvents_enabled]; exact hdis
  refine ⟨?_, ?_, ?_, ?_, ?_⟩
  · rw [alertStepAt_eq, alertBody_pulseCount, if_neg hnf]
  · rw [loop_servoWrites_of_inv (reachable_inv hs), checkBody_of_disabled _ _ hen]
    have : servoWrites (s.events i).servo ([] : List Effect) = [] := rfl
    simp only [this, ite_self, List.append_nil]
  · rw [hev, setTimeEvents_door]
  · rw [hev, setTimeEvents_executed]
  · rw [hev, setTimeEvents_timeOfBuzzer, if_neg hnf]

/-- C11 amended, at the initial state with all events disabled and every remote status
`"closed"`, button pressed, tick at 07:05 inside the morning window: no write to the morning
servo, phase and alert count stay 0. -/
theorem disabled_event_tick_witness :
    servoWrites 1
        (loop ⟨7, 5⟩ (disabledReads allClosed) (clockAt 1000) (handleButtonPress init)).log =
        [] ∧
      ((loop ⟨7, 5⟩ (disabledReads allClosed) (clockAt 1000)
        (handleButtonPress init)).state.events 0).executed = 0 ∧
      ((loop ⟨7, 5⟩ (disabledReads allClosed) (clockAt 1000)
        (handleButtonPress init)).state.events 0).timeOfBuzzer = 0 :=
  have h := disabled_event_tick (handleButtonPress init)
    (reachable_step reachable_init Op.handleButtonPress) ⟨7, 5⟩ (disabledReads allClosed)
    (clockAt 1000) 0 (by decide)
  ⟨h.2.1, h.2.2.2.1, h.2.2.2.2⟩

/-! ## Failed publication -/

set_option maxRecDepth 8000 in
/-- C13 as stated fails: after `executeDoor` has opened the morning door, a tick in which
the remote store is unreachable (every read fails), or in which the store still holds
`"closed"` because the publication failed, writes the closed angle to the morning servo and
sets the door status back to `"closed"`; the phase stays 1 at 07:06 and is reset to 0 at
08:01, past the end of the window. -/
theorem failed_publish_rolled_back :
    (openedState.events 0).lastDoorStatus = "opened" ∧ (openedState.events 0).executed = 1 ∧
      servoWrites 1 (loop ⟨7, 6⟩ noReads (clockAt 2000) openedState).log = [closedAngle] ∧
      ((loop ⟨7, 6⟩ noReads (clockAt 2000) openedState).state.events 0).lastDoorStatus =
        "closed" ∧
      ((loop ⟨7, 6⟩ noReads (clockAt 2000) openedState).state.events 0).executed = 1 ∧
      servoWrites 1 (loop ⟨7, 6⟩ (storeReads allClosed) (clockAt 2000) openedState).log =
        [closedAngle] ∧
      ((loop ⟨7, 6⟩ (storeReads allClosed) (clockAt 2000) openedState).state.events 0
        ).lastDoorStatus = "closed" ∧
      servoWrites 1 (loop ⟨8, 1⟩ noReads (clockAt 2000) openedState).log = [closedAngle] ∧
      ((loop ⟨8, 1⟩ noReads (clockAt 2000) openedState).state.events 0).lastDoorStatus =
        "closed" ∧
      ((loop ⟨8, 1⟩ noReads (clockAt 2000) openedState).state.events 0).executed = 0 := by
  decide

/-- C13, amended: let `executeDoor` change the door status of `events[i]` in a reachable
state whose status string agreed with the door status, and consider the next
`setTimeEvents`, which is the whole of the next iteration of `loop` when the button flag is
clear.  If its status read does not return the new status (in particular when the read
fails, or the store still returns the previous value because the publication failed), its
reconciliation writes the servo once, with the angle of the previous status, and sets the
door status back to the previous one; if it reads the new status back, it writes nothing to
the servo and the door status stays.  In both cases the phase afterwards is the one
`executeDoor` left, except that it is 0 when the current minute is past the end of the
window. -/
theorem failed_publish_next_tick (s : State) (hs : Reachable s) (i : Fin 3)
    (now : DateTime) (r : RemoteReads) (clock : Fin 3 → MillisReads)
    (hsync : s.status i = (s.events i).lastDoorStatus)
    (hchg : (s.events i).executeDoor.1.lastDoorStatus ≠ (s.events i).lastDoorStatus) :
    (r.status i = none ∨ r.status i = some (s.events i).lastDoorStatus →
      servoWrites (s.events i).servo
          (setTimeEvents now r clock (applyOp (Op.executeDoor i) s).state).log =
        [if (s.events i).lastDoorStatus = "opened" then openAngle else closedAngle] ∧
      ((setTimeEvents now r clock (applyOp (Op.executeDoor i) s).state).state.events i
        ).lastDoorStatus = (s.events i).lastDoorStatus) ∧
    (r.status i = some (s.events i).executeDoor.1.lastDoorStatus →
      servoWrites (s.events i).servo
          (setTimeEvents now r clock (applyOp (Op.executeDoor i) s).state).log = [] ∧
      ((setTimeEvents now r clock (applyOp (Op.executeDoor i) s).state).state.events i
        ).lastDoorStatus = (s.events i).executeDoor.1.lastDoorStatus) ∧
    (r.status i ≠ some (s.events i).executeDoor.1.lastDoorStatus →
      servoWrites (s.events i).servo
          (setTimeEvents now r clock (applyOp (Op.executeDoor i) s).state).log =
        [if (s.events i).lastDoorStatus = "opened" then openAngle else closedAngle] ∧
      ((setTimeEvents now r clock (applyOp (Op.executeDoor i) s).state).state.events i
        ).lastDoorStatus = (s.events i).lastDoorStatus) ∧
    ((setTimeEvents now r clock (applyOp (Op.executeDoor i) s).state).state.events i
        ).executed =
      (if pastEnd now ((refresh r (applyOp (Op.executeDoor i) s).state).events i) then 0
       else (s.events i).executeDoor.1.executed) ∧
    (s.servo_triggered = false →
      loop now r clock (applyOp (Op.executeDoor i) s).state =
        setTimeEvents now r clock (applyOp (Op.executeDoor i) s).state) := by
  have hs1 : Reachable (applyOp (Op.executeDoor i) s).state :=
    reachable_step hs (Op.executeDoor i)
  have hinv1 := reachable_inv hs1
  have hev : (applyOp (Op.executeDoor i) s).state.events i = (s.events i).executeDoor.1 := by
    show (s.setEvent i _).events i = _
    unfold State.setEvent
    simp
  have hst : (applyOp (Op.executeDoor i) s).state.status i = s.status i := by
    show (s.setEvent i _).status i = _
    fin_cases i <;> rfl
  have hsv : ((applyOp (Op.executeDoor i) s).state.events i).servo = (s.events i).servo := by
    rw [hev]; simp
  have hw := setTimeEvents_servoWrites_of_inv hinv1 now r clock i
  have hd := setTimeEvents_door now r clock (applyOp (Op.executeDoor i) s).state i
  rw [hsv, hev, hst] at hw
  rw [hev, hst] at hd
  have hold := (reachable_inv hs i).door
  have hnew := (hinv1 i).door
  rw [hev] at hnew
  have hback : (r.status i).getD (s.status i) ≠ (s.events i).executeDoor.1.lastDoorStatus →
      servoWrites (s.events i).servo
          (setTimeEvents now r clock (applyOp (Op.executeDoor i) s).state).log =
        [if (s.events i).lastDoorStatus = "opened" then openAngle else closedAngle] ∧
      ((setTimeEvents now r clock (applyOp (Op.executeDoor i) s).state).state.events i
        ).lastDoorStatus = (s.events i).lastDoorStatus := by
    intro hne
    rw [if_pos (Ne.symm hne)] at hw hd
    rw [hw, hd]
    rcases hold with ho | ho <;> rcases hnew with hn | hn
    · exact absurd (hn.trans ho.symm) hchg
    · simp [ho, hn]
    · simp [ho, hn]
    · exact absurd (hn.trans ho.symm) hchg
  refine ⟨?_, ?_, ?_, ?_, ?_⟩
  · intro hr
    apply hback
    have hwant : (r.status i).getD (s.status i) = (s.events i).lastDoorStatus := by
      rcases hr with h | h <;> rw [h] <;> simp [hsync]
    rw [hwant]
    exact Ne.symm hchg
  · intro hr
    have hwant : (r.status i).getD (s.status i) = (s.events i).executeDoor.1.lastDoorStatus := by
      rw [hr]; rfl
    rw [hwant] at hw hd
    rw [if_neg (by simp)] at hw hd
    exact ⟨hw, hd⟩
  · intro hr
    apply hback
    cases hopt : r.status i with
    | none =>
      show s.status i ≠ _
      rw [hsync]
      exact Ne.symm hchg
    | some v =>
      show v ≠ _
      intro hv
      apply hr
      rw [hopt, hv]
  · rw [setTimeEvents_executed, hev]
  · intro hb
    apply loop_of_not_triggered
    show (s.setEvent i _).servo_triggered = false
    exact hb

/-- C13 amended, at the initial state: `executeDoor` opens the morning door; the next
evaluation with the store unreachable writes the closed angle and the status is `"closed"`
again. -/
theorem failed_publish_next_tick_witness :
    servoWrites 1
        (setTimeEvents ⟨7, 6⟩ noReads (clockAt 2000) (applyOp (Op.executeDoor 0) init).state).log =
        [closedAngle] ∧
      ((setTimeEvents ⟨7, 6⟩ noReads (clockAt 2000)
        (applyOp (Op.executeDoor 0) init).state).state.events 0).lastDoorStatus = "closed" :=
  (failed_publish_next_tick init reachable_init 0 ⟨7, 6⟩ noReads (clockAt 2000)
    (by decide) (by decide)).1 (Or.inl (by decide))

/-! ## The phase state machine -/

theorem checkBody_phaseStep (now : DateTime) (e : TimeEvent) (h0 : 0 ≤ e.executed) :
    PhaseStep now e (checkBody (currentMinute now) e).1.executed := by
  by_cases hc : callsExecuteDoor (currentMinute now) e
  · obtain ⟨h1, h2, h3⟩ := hc
    rw [checkBody_of_calls _ _ ⟨h1, h2, h3⟩, executeDoor_executed, if_pos h3]
    exact Or.inr (Or.inl ⟨rfl, by omega, h1, h2.1, h2.2⟩)
  · rw [checkBody_of_not_calls _ _ hc]
    dsimp only
    split
    · rename_i h
      exact Or.inr (Or.inr ⟨rfl, h.2⟩)
    · exact Or.inl rfl

theorem setTimeEvents_phaseStep (now : DateTime) (r : RemoteReads)
    (clock : Fin 3 → MillisReads) (s : State) (i : Fin 3) :
    PhaseStep now ((refresh r s).events i)
      ((setTimeEvents now r clock s).state.events i).executed := by
  rw [setTimeEvents_executed]
  split
  · rename_i h
    exact Or.inr (Or.inr ⟨rfl, h⟩)
  · exact Or.inl rfl

theorem loop_phaseStep (now : DateTime) (r : RemoteReads) (clock : Fin 3 → MillisReads)
    (s : State) (i : Fin 3) (h0 : 0 ≤ (s.events i).executed) :
    PhaseStep now ((refresh r s).events i) ((loop now r clock s).state.events i).executed := by
  rw [loop_events]
  split
  · by_cases hp : pastEnd now ((refresh r s).events i)
    · -- past the end both steps leave 0
      have hn : ¬ callsExecuteDoor (currentMinute now)
          ((setTimeEvents now r clock s).state.events i) := by
        rintro ⟨_, ⟨_, hle⟩, _⟩
        rw [setTimeEvents_timeEnd] at hle
        unfold pastEnd at hp
        omega
      refine Or.inr (Or.inr ⟨?_, hp⟩)
      rw [checkBody_of_not_calls _ _ hn]
      dsimp only
      split
      · rfl
      · rw [setTimeEvents_executed, if_pos hp]
    · have hex : ((setTimeEvents now r clock s).state.events i).executed =
          (s.events i).executed := by rw [setTimeEvents_executed, if_neg hp]
      have key := checkBody_phaseStep now ((setTimeEvents now r clock s).state.events i)
        (by rw [hex]; exact h0)
      unfold PhaseStep inWindow pastEnd at key ⊢
      rw [hex, setTimeEvents_enabled, setTimeEvents_timeStart, setTimeEvents_timeEnd] at key
      exact key
  · exact setTimeEvents_phaseStep now r clock s i

/-- C15: in every reachable state the phase of every event is 0, 1 or 2, and it is 0
initially.  `execute` leaves the phase alone; `setTimeEvents`, `checkAndExecuteTimeEvents`
and a whole iteration of `loop` leave it unchanged, or raise it by exactly 1 (only from 0 or
1, only for an enabled event with `start <= now <= end`), or reset it to 0, and a reset
happens only when the current minute is strictly greater than the end of the window.  For
`setTimeEvents` and `loop` the window and the enabled flag are those refreshed at the start
of the call. -/
theorem phase_state_machine (s : State) (hs : Reachable s) (now : DateTime)
    (r : RemoteReads) (clock : Fin 3 → MillisReads) (i : Fin 3) :
    ((s.events i).executed = 0 ∨ (s.events i).executed = 1 ∨ (s.events i).executed = 2) ∧
    (init.events i).executed = 0 ∧
    (s.events i).execute.1.executed = (s.events i).executed ∧
    PhaseStep now ((refresh r s).events i)
      ((setTimeEvents now r clock s).state.events i).executed ∧
    PhaseStep now (s.events i) ((checkAndExecuteTimeEvents now s).state.events i).executed ∧
    PhaseStep now ((refresh r s).events i) ((loop now r clock s).state.events i).executed := by
  have hinv := reachable_inv hs i
  have hlo := hinv.phase_lo
  have hhi := hinv.phase_hi
  refine ⟨by omega, by fin_cases i <;> rfl, execute_executed _, ?_, ?_, ?_⟩
  · exact setTimeEvents_phaseStep now r clock s i
  · rw [check_events]
    exact checkBody_phaseStep now (s.events i) hlo
  · exact loop_phaseStep now r clock s i hlo

set_option maxRecDepth 8000 in
/-- C15 at the opened state (morning event at phase 1): a button-triggered tick at 07:06
raises the phase to 2, a tick at 08:05 resets it to 0. -/
theorem phase_state_machine_witness :
    PhaseStep ⟨7, 6⟩ ((refresh (storeReads morningOpened) (handleButtonPress openedState)).events 0)
        ((loop ⟨7, 6⟩ (storeReads morningOpened) (clockAt 2000)
          (handleButtonPress openedState)).state.events 0).executed ∧
      ((loop ⟨7, 6⟩ (storeReads morningOpened) (clockAt 2000)
        (handleButtonPress openedState)).state.events 0).executed = 2 ∧
      ((loop ⟨8, 5⟩ (storeReads morningOpened) (clockAt 2000)
        openedState).state.events 0).executed = 0 :=
  ⟨(phase_state_machine (handleButtonPress openedState)
      (reachable_step (reachable_step (reachable_step reachable_init Op.handleButtonPress)
        (Op.loop ⟨7, 5⟩ (storeReads allClosed) (clockAt 1000))) Op.handleButtonPress)
      ⟨7, 6⟩ (storeReads morningOpened) (clockAt 2000) 0).2.2.2.2.2,
    by decide, by decide⟩

/-! ## The window test of the button-triggered evaluation -/

theorem checkCalls_iff (now : DateTime) (s : State) (i : Fin 3) :
    checkCalls now s i = true ↔ callsExecuteDoor (currentMinute now) (s.events i) := by
  unfold checkCalls
  by_cases hc : callsExecuteDoor (currentMinute now) (s.events i)
  · rw [checkBody_of_calls _ _ hc]
    simp [hc]
  · rw [checkBody_of_not_calls _ _ hc]
    simp [hc]

theorem check_flag_iff (now : DateTime) (s : State) :
    (checkAndExecuteTimeEvents now s).flag = true ↔ ∃ j, checkCalls now s j = true := by
  rw [check_flag]
  simp only [Bool.or_eq_true]
  constructor
  · rintro ((h | h) | h)
    · exact ⟨0, h⟩
    · exact ⟨1, h⟩
    · exact ⟨2, h⟩
  · rintro ⟨j, hj⟩
    fin_cases j
    · exact Or.inl (Or.inl hj)
    · exact Or.inl (Or.inr hj)
    · exact Or.inr hj

/-- In a reachable state a call of `executeDoor` made by the evaluation shows in the log as
a write to the servo of the event. -/
theorem check_servoWrites_ne_nil_iff {s : State} (h : Inv s) (now : DateTime) (i : Fin 3) :
    servoWrites (s.events i).servo (checkAndExecuteTimeEvents now s).log ≠ [] ↔
      callsExecuteDoor (currentMinute now) (s.events i) := by
  have hd : ∀ j, j ≠ i → (s.events j).servo ≠ (s.events i).servo := by
    intro j hj
    have h1 := (h j).servo_eq
    have h2 := (h i).servo_eq
    have h3 : (j : Nat) ≠ (i : Nat) := fun h => hj (Fin.ext h)
    omega
  rw [check_servoWrites now s i hd, checkBody_servoWrites]
  by_cases hc : callsExecuteDoor (currentMinute now) (s.events i)
  · have hlo := (h i).phase_lo
    have hlt := hc.2.2
    have h01 : (s.events i).executed = 0 ∨ (s.events i).executed = 1 := by omega
    rcases h01 with h0 | h1
    · simp [hc, h0]
    · simp [hc, h1]
  · simp [hc]

/-- C16: iteration `i` of `checkAndExecuteTimeEvents` calls `executeDoor` on `events[i]` if
and only if the event is enabled, `startMinute <= currentMinute <= endMinute` (both bounds
included, `currentMinute = hour * 60 + minute`) and `executed < 2`; when it does, the event
and the calls of the iteration are those of `executeDoor`, otherwise the iteration makes no
call; the function returns `true` if and only if some iteration called `executeDoor`; and
in a reachable state the servo of the event is written exactly under that condition. -/
theorem check_window_test (now : DateTime) (s : State) (i : Fin 3) :
    (checkCalls now s i = true ↔
      (s.events i).enabled = true ∧
        (parseTimeToMinutes (s.events i).timeStart ≤ (now.hour : Int) * 60 + now.minute ∧
          (now.hour : Int) * 60 + now.minute ≤ parseTimeToMinutes (s.events i).timeEnd) ∧
        (s.events i).executed < 2) ∧
    (checkCalls now s i = true →
      (checkAndExecuteTimeEvents now s).state.events i = (s.events i).executeDoor.1 ∧
      checkLog now s i = (s.events i).executeDoor.2) ∧
    (checkCalls now s i = false → checkLog now s i = []) ∧
    (checkAndExecuteTimeEvents now s).log =
      checkLog now s 0 ++ checkLog now s 1 ++ checkLog now s 2 ∧
    ((checkAndExecuteTimeEvents now s).flag = true ↔ ∃ j, checkCalls now s j = true) ∧
    (Reachable s →
      (servoWrites (s.events i).servo (checkAndExecuteTimeEvents now s).log ≠ [] ↔
        checkCalls now s i = true)) := by
  refine ⟨?_, ?_, ?_, check_log now s, check_flag_iff now s, ?_⟩
  · rw [checkCalls_iff]
    rfl
  · intro h
    have hc := (checkCalls_iff now s i).mp h
    unfold checkLog
    rw [check_events, checkBody_of_calls _ _ hc]
    exact ⟨rfl, rfl⟩
  · intro h
    have hc : ¬ callsExecuteDoor (currentMinute now) (s.events i) := by
      intro hc
      rw [(checkCalls_iff now s i).mpr hc] at h
      exact absurd h (by decide)
    unfold checkLog
    rw [checkBody_of_not_calls _ _ hc]
  · intro hs
    rw [check_servoWrites_ne_nil_iff (reachable_inv hs), checkCalls_iff]

/-- C16 at the initial state: at 08:00, the inclusive end of the morning window, the
evaluation calls `executeDoor` on the morning event and returns `true`; at 08:01 it does
not. -/
theorem check_window_test_witness :
    checkCalls ⟨8, 0⟩ init 0 = true ∧
      (checkAndExecuteTimeEvents ⟨8, 0⟩ init).state.events 0 = (init.events 0).executeDoor.1 ∧
      (checkAndExecuteTimeEvents ⟨8, 0⟩ init).flag = true ∧
      checkCalls ⟨8, 1⟩ init 0 = false ∧ checkLog ⟨8, 1⟩ init 0 = [] :=
  ⟨by decide,
    ((check_window_test ⟨8, 0⟩ init 0).2.1 (by decide)).1,
    (check_window_test ⟨8, 0⟩ init 0).2.2.2.2.1.mpr ⟨0, by decide⟩,
    by decide,
    (check_window_test ⟨8, 1⟩ init 0).2.2.1 (by decide)⟩

/-! ## The alternating pulses -/

theorem pulse_of_capped (m : MillisReads) (lb : Int) (e : TimeEvent)
    (h : 6 ≤ e.timeOfBuzzer) :
    pulse m lb e = { event := e, lastBuzzer := lb, log := [] } := by
  have h6 : ¬ e.timeOfBuzzer < 6 := by omega
  unfold pulse
  split <;> simp [h6]

theorem pulse_of_due (m : MillisReads) (lb : Int) (e : TimeEvent)
    (hr : toUInt32 ((m.atCheck : Int) - lb) ≥ 60000) (h : e.timeOfBuzzer < 6) :
    pulse m lb e =
      { event := { e with timeOfBuzzer := e.timeOfBuzzer + 1 }
        lastBuzzer := toInt32 (m.atStamp : Int)
        log := [ Effect.serialPrintln pulseMessage,
                 Effect.digitalWrite Pin.BUZZER_PIN (decide (e.timeOfBuzzer % 2 = 0)) ] } := by
  unfold pulse
  simp [hr, h]

/-- C17: the pulse branch (lines 250-260), when due and below the cap, prints the pulse
message, writes the buzzer `HIGH` for an even and `LOW` for an odd `timeOfBuzzer`, and adds
one to `timeOfBuzzer`; at `timeOfBuzzer = 6` it makes no call and changes nothing.  Along
any run from the initial state, with `k` the number of pulses emitted for `events[i]` since
its last reset, a pulse of the next `setTimeEvents` has `k <= 5`, its calls are the message
and a buzzer write that is `HIGH` exactly when `k` is even, and it takes `timeOfBuzzer` from
`k` to `k + 1`; with `k = 6` that iteration emits no pulse and never writes `HIGH`. -/
theorem alert_pulses_alternate (m : MillisReads) (lb : Int) (e : TimeEvent)
    (ops : List Op) (now : DateTime) (r : RemoteReads) (clock : Fin 3 → MillisReads)
    (i : Fin 3) :
    (toUInt32 ((m.atCheck : Int) - lb) ≥ 60000 → e.timeOfBuzzer < 6 →
      pulse m lb e =
        { event := { e with timeOfBuzzer := e.timeOfBuzzer + 1 }
          lastBuzzer := toInt32 (m.atStamp : Int)
          log := [ Effect.serialPrintln pulseMessage,
                   Effect.digitalWrite Pin.BUZZER_PIN (decide (e.timeOfBuzzer % 2 = 0)) ] }) ∧
    (e.timeOfBuzzer = 6 → pulse m lb e = { event := e, lastBuzzer := lb, log := [] }) ∧
    (0 < pulseCount (alertStepAt now r clock (run ops init).state i).log →
      pulsesSinceReset i ops init 0 ≤ 5 ∧
      (((run ops init).state.events i).timeOfBuzzer = pulsesSinceReset i ops init 0) ∧
      (alertStepAt now r clock (run ops init).state i).log =
        [ Effect.serialPrintln pulseMessage,
          Effect.digitalWrite Pin.BUZZER_PIN
            (decide (pulsesSinceReset i ops init 0 % 2 = 0)) ] ∧
      ((setTimeEvents now r clock (run ops init).state).state.events i).timeOfBuzzer =
        pulsesSinceReset i ops init 0 + 1) ∧
    (pulsesSinceReset i ops init 0 = 6 →
      pulseCount (alertStepAt now r clock (run ops init).state i).log = 0 ∧
      Effect.digitalWrite Pin.BUZZER_PIN true ∉
        (alertStepAt now r clock (run ops init).state i).log ∧
      ((setTimeEvents now r clock (run ops init).state).state.events i).timeOfBuzzer ≤ 6) := by
  have hk := pulsesSinceReset_eq i ops init 0 (by fin_cases i <;> rfl)
  have hinv := inv_run ops inv_init
  refine ⟨pulse_of_due m lb e, fun h => pulse_of_capped m lb e (by omega), ?_, ?_⟩
  · intro hp
    have hf := (alertStepAt_fires_iff now r clock _ i).mp hp
    have hlt := hf.2.2.2
    rw [reconciled_timeOfBuzzer] at hlt
    have hlt' : ((run ops init).state.events i).timeOfBuzzer < 6 := hlt
    refine ⟨by omega, hk.symm, ?_, ?_⟩
    · rw [alertStepAt_eq, alertBody_of_fires _ _ _ _ hf]
      have hb : decide ((reconciled (refresh r (run ops init).state) i).timeOfBuzzer % 2 = 0) =
          decide (pulsesSinceReset i ops init 0 % 2 = 0) := by
        rw [reconciled_timeOfBuzzer]
        have : ((refresh r (run ops init).state).events i).timeOfBuzzer =
            ((run ops init).state.events i).timeOfBuzzer := rfl
        rw [this, ← hk]
        apply decide_eq_decide.mpr
        omega
      rw [hb]
    · rw [setTimeEvents_timeOfBuzzer, if_pos hf, ← hk]
  · intro h6
    have htob : ((run ops init).state.events i).timeOfBuzzer = 6 := by
      rw [← hk, h6]; rfl
    have hnf : ¬ pulseFires (currentMinute now) (clock i)
        (lastBuzzerAt now r clock (run ops init).state i)
        (reconciled (refresh r (run ops init).state) i) := by
      rintro ⟨_, _, _, hlt⟩
      rw [reconciled_timeOfBuzzer] at hlt
      have hlt' : ((run ops init).state.events i).timeOfBuzzer < 6 := hlt
      omega
    refine ⟨?_, ?_, (inv_setTimeEvents hinv now r clock i).alert_hi⟩
    · rw [alertStepAt_eq, alertBody_pulseCount, if_neg hnf]
    · rw [alertStepAt_eq]
      exact not_mem_alertBody_high _ _ _ _ hnf

set_option maxRecDepth 8000 in
/-- C17 at the initial state and after one pulse: the first pulse (k = 0) writes `HIGH` and
leaves the count at 1, the second (k = 1), a minute later, writes `LOW` and leaves it
at 2. -/
theorem alert_pulses_alternate_witness :
    (alertStepAt ⟨7, 5⟩ (storeReads allClosed) (clockAt 5000) (run [] init).state 0).log =
        [ Effect.serialPrintln pulseMessage, Effect.digitalWrite Pin.BUZZER_PIN true ] ∧
      (alertStepAt ⟨7, 6⟩ (storeReads allClosed) (clockAt 65000)
        (run [Op.setTimeEvents ⟨7, 5⟩ (storeReads allClosed) (clockAt 5000)] init).state 0).log =
        [ Effect.serialPrintln pulseMessage, Effect.digitalWrite Pin.BUZZER_PIN false ] ∧
      ((setTimeEvents ⟨7, 6⟩ (storeReads allClosed) (clockAt 65000)
        (run [Op.setTimeEvents ⟨7, 5⟩ (storeReads allClosed) (clockAt 5000)] init).state
          ).state.events 0).timeOfBuzzer = 2 :=
  ⟨((alert_pulses_alternate (clockAt 5000 0) init.lastBuzzer (init.events 0) []
      ⟨7, 5⟩ (storeReads allClosed) (clockAt 5000) 0).2.2.1 (by decide)).2.2.1,
    ((alert_pulses_alternate (clockAt 5000 0) init.lastBuzzer (init.events 0)
      [Op.setTimeEvents ⟨7, 5⟩ (storeReads allClosed) (clockAt 5000)]
      ⟨7, 6⟩ (storeReads allClosed) (clockAt 65000) 0).2.2.1 (by decide)).2.2.1,
    ((alert_pulses_alternate (clockAt 5000 0) init.lastBuzzer (init.events 0)
      [Op.setTimeEvents ⟨7, 5⟩ (storeReads allClosed) (clockAt 5000)]
      ⟨7, 6⟩ (storeReads allClosed) (clockAt 65000) 0).2.2.1 (by decide)).2.2.2⟩

/-! ## When the alert is active -/

theorem mem_alertBody_high (cur : Int) (m : MillisReads) (lb : Int) (e : TimeEvent)
    (h : Effect.digitalWrite Pin.BUZZER_PIN true ∈ (alertBody cur m lb e).log) :
    pulseFires cur m lb e := by
  by_contra hnf
  exact not_mem_alertBody_high cur m lb e hnf h

/-- A `HIGH` written by `setTimeEvents` is written by one of the iterations of the alert
loop. -/
theorem mem_setTimeEvents_high (now : DateTime) (r : RemoteReads)
    (clock : Fin 3 → MillisReads) (s : State)
    (h : Effect.digitalWrite Pin.BUZZER_PIN true ∈ (setTimeEvents now r clock s).log) :
    ∃ j, Effect.digitalWrite Pin.BUZZER_PIN true ∈ (alertStepAt now r clock s j).log := by
  rw [setTimeEvents_log, reconcile_log] at h
  simp only [List.mem_append] at h
  rcases h with ((((((h | h) | h) | h) | h) | h) | h)
  · simp at h
  · exact absurd h (not_mem_reconciledLog_digitalWrite _ 0 true)
  · exact absurd h (not_mem_reconciledLog_digitalWrite _ 1 true)
  · exact absurd h (not_mem_reconciledLog_digitalWrite _ 2 true)
  · exact ⟨0, h⟩
  · exact ⟨1, h⟩
  · exact ⟨2, h⟩

/-- C18: in every reachable state, iteration `i` of the alert loop of `setTimeEvents`
emits a pulse, writes the buzzer `HIGH`, or raises `timeOfBuzzer` of `events[i]` only if the
event (as refreshed by the call) is enabled, has `start <= now <= end` and has
`executed = 0`; for an event that is disabled, outside its window or at a phase other than 0
the iteration emits no pulse, writes no `HIGH` and does not raise `timeOfBuzzer`; and every
`HIGH` in the calls of `setTimeEvents` comes from such an iteration. -/
theorem alert_only_for_unacknowledged_in_window (s : State) (hs : Reachable s)
    (now : DateTime) (r : RemoteReads) (clock : Fin 3 → MillisReads) (i : Fin 3) :
    ((0 < pulseCount (alertStepAt now r clock s i).log ∨
        Effect.digitalWrite Pin.BUZZER_PIN true ∈ (alertStepAt now r clock s i).log ∨
        (s.events i).timeOfBuzzer <
          ((setTimeEvents now r clock s).state.events i).timeOfBuzzer) →
      ((refresh r s).events i).enabled = true ∧ inWindow now ((refresh r s).events i) ∧
        (s.events i).executed = 0) ∧
    (¬ (((refresh r s).events i).enabled = true ∧ inWindow now ((refresh r s).events i) ∧
        (s.events i).executed = 0) →
      pulseCount (alertStepAt now r clock s i).log = 0 ∧
      Effect.digitalWrite Pin.BUZZER_PIN true ∉ (alertStepAt now r clock s i).log ∧
      ((setTimeEvents now r clock s).state.events i).timeOfBuzzer ≤
        (s.events i).timeOfBuzzer) ∧
    (Effect.digitalWrite Pin.BUZZER_PIN true ∈ (setTimeEvents now r clock s).log →
      ∃ j, ((refresh r s).events j).enabled = true ∧ inWindow now ((refresh r s).events j) ∧
        (s.events j).executed = 0) := by
  have hlo := (reachable_inv hs i).alert_lo
  -- what firing means for the event as refreshed
  have hfire : ∀ j, pulseFires (currentMinute now) (clock j) (lastBuzzerAt now r clock s j)
      (reconciled (refresh r s) j) →
      ((refresh r s).events j).enabled = true ∧ inWindow now ((refresh r s).events j) ∧
        (s.events j).executed = 0 := by
    rintro j ⟨⟨h1, h2⟩, ⟨h3, h4⟩, _⟩
    rw [reconciled_timeStart] at h1
    rw [reconciled_timeEnd] at h2
    rw [reconciled_enabled] at h3
    rw [reconciled_executed] at h4
    exact ⟨h3, ⟨h1, h2⟩, h4⟩
  have hquiet : ¬ pulseFires (currentMinute now) (clock i) (lastBuzzerAt now r clock s i)
      (reconciled (refresh r s) i) →
      pulseCount (alertStepAt now r clock s i).log = 0 ∧
      Effect.digitalWrite Pin.BUZZER_PIN true ∉ (alertStepAt now r clock s i).log ∧
      ((setTimeEvents now r clock s).state.events i).timeOfBuzzer ≤
        (s.events i).timeOfBuzzer := by
    intro hnf
    refine ⟨?_, ?_, ?_⟩
    · rw [alertStepAt_eq, alertBody_pulseCount, if_neg hnf]
    · rw [alertStepAt_eq]
      exact not_mem_alertBody_high _ _ _ _ hnf
    · rw [setTimeEvents_timeOfBuzzer, if_neg hnf]
      split
      · exact hlo
      · exact le_refl _
  refine ⟨?_, ?_, ?_⟩
  · intro h
    apply hfire i
    by_contra hnf
    obtain ⟨q1, q2, q3⟩ := hquiet hnf
    rcases h with h | h | h
    · omega
    · exact q2 h
    · omega
  · intro hn
    exact hquiet (fun hf => hn (hfire i hf))
  · intro h
    obtain ⟨j, hj⟩ := mem_setTimeEvents_high now r clock s h
    rw [alertStepAt_eq] at hj
    exact ⟨j, hfire j (mem_alertBody_high _ _ _ _ hj)⟩

set_option maxRecDepth 8000 in
/-- C18 at the acknowledged state (morning event at phase 1) and at the initial state at
09:00 (outside every window): no pulse is emitted for the morning event. -/
theorem alert_only_for_unacknowledged_in_window_witness :
    pulseCount (alertStepAt ⟨7, 6⟩ (storeReads morningOpened) (clockAt 65000)
        acknowledgedState 0).log = 0 ∧
      pulseCount (alertStepAt ⟨9, 0⟩ (storeReads allClosed) (clockAt 65000) init 0).log = 0 :=
  ⟨((alert_only_for_unacknowledged_in_window acknowledgedState
      (reachable_step (reachable_step reachable_init
        (Op.setTimeEvents ⟨7, 5⟩ (storeReads allClosed) (clockAt 5000)))
        (Op.checkAndExecuteTimeEvents ⟨7, 5⟩))
      ⟨7, 6⟩ (storeReads morningOpened) (clockAt 65000) 0).2.1 (by decide)).1,
    ((alert_only_for_unacknowledged_in_window init reachable_init
      ⟨9, 0⟩ (storeReads allClosed) (clockAt 65000) 0).2.1 (by decide)).1⟩

/-! ## Unknown status strings -/

/-- C19: in every reachable state, if the status string `setTimeEvents` compares
`events[i]` with (the value read in this tick, or the last one read) is neither `"opened"`
nor `"closed"`, the reconciliation calls `execute`: the servo of the event is written once,
with the angle opposite to the door status, the door status flips between `"opened"` and
`"closed"` and still differs from the status string, and the status string is kept, so
that the same happens at the next tick; a whole iteration of `loop` writes the servo as
well and ends with a door status different from the status string. -/
theorem unknown_status_never_converges (s : State) (hs : Reachable s) (now : DateTime)
    (r : RemoteReads) (clock : Fin 3 → MillisReads) (i : Fin 3) (want : String)
    (hwant : (r.status i).getD (s.status i) = want)
    (hunk : want ≠ "opened" ∧ want ≠ "closed") :
    servoWrites (s.events i).servo (setTimeEvents now r clock s).log =
      [if (s.events i).lastDoorStatus = "closed" then openAngle else closedAngle] ∧
    ((setTimeEvents now r clock s).state.events i).lastDoorStatus =
      (if (s.events i).lastDoorStatus = "closed" then "opened" else "closed") ∧
    ((setTimeEvents now r clock s).state.events i).lastDoorStatus ≠
      (s.events i).lastDoorStatus ∧
    ((setTimeEvents now r clock s).state.events i).lastDoorStatus ≠ want ∧
    (setTimeEvents now r clock s).state.status i = want ∧
    Reachable (setTimeEvents now r clock s).state ∧
    servoWrites (s.events i).servo (loop now r clock s).log ≠ [] ∧
    ((loop now r clock s).state.events i).lastDoorStatus ≠ want := by
  have hinv := reachable_inv hs
  have hdoor := (hinv i).door
  have hne : (s.events i).lastDoorStatus ≠ want := by
    rcases hdoor with h | h <;> rw [h]
    · exact fun h' => hunk.1 h'.symm
    · exact fun h' => hunk.2 h'.symm
  have hw := setTimeEvents_servoWrites_of_inv hinv now r clock i
  have hd := setTimeEvents_door now r clock s i
  rw [hwant, if_pos hne] at hw hd
  have hreach : Reachable (setTimeEvents now r clock s).state :=
    reachable_step hs (Op.setTimeEvents now r clock)
  have hloopdoor := (reachable_inv (reachable_step hs (Op.loop now r clock)) i).door
  refine ⟨hw, hd, ?_, ?_, ?_, hreach, ?_, ?_⟩
  · rw [hd]
    rcases hdoor with h | h <;> rw [h] <;> decide
  · have := (reachable_inv hreach i).door
    rcases this with h | h <;> rw [h]
    · exact fun h' => hunk.1 h'.symm
    · exact fun h' => hunk.2 h'.symm
  · rw [setTimeEvents_status, hwant]
  · rw [loop_servoWrites_of_inv hinv, hwant, if_pos hne]
    simp
  · rcases hloopdoor with h | h
    · intro h'
      exact hunk.1 (h'.symm.trans h)
    · intro h'
      exact hunk.2 (h'.symm.trans h)

/-- C19 at the initial state with the morning status `"open"`: the first evaluation opens
the door, the second closes it again. -/
theorem unknown_status_never_converges_witness :
    servoWrites 1 (setTimeEvents ⟨9, 0⟩ (storeReads morningUnknown) (clockAt 1000) init).log =
        [openAngle] ∧
      servoWrites 1 (setTimeEvents ⟨9, 0⟩ (storeReads morningUnknown) (clockAt 2000)
        (setTimeEvents ⟨9, 0⟩ (storeReads morningUnknown) (clockAt 1000) init).state).log =
        [closedAngle] :=
  ⟨(unknown_status_never_converges init reachable_init ⟨9, 0⟩ (storeReads morningUnknown)
      (clockAt 1000) 0 "open" (by decide) (by decide)).1,
    (unknown_status_never_converges
      (setTimeEvents ⟨9, 0⟩ (storeReads morningUnknown) (clockAt 1000) init).state
      (reachable_step reachable_init
        (Op.setTimeEvents ⟨9, 0⟩ (storeReads morningUnknown) (clockAt 1000)))
      ⟨9, 0⟩ (storeReads morningUnknown) (clockAt 2000) 0 "open" (by decide) (by decide)).1⟩

/-! ## The door after the window -/

theorem indexOfAux_of_not_mem (c : Char) (cs : List Char) (h : c ∉ cs) :
    ∀ i, indexOfAux c cs i = -1 := by
  induction cs with
  | nil => intro i; rfl
  | cons d ds ih =>
    intro i
    have hd : ¬ d = c := fun hd => h (by simp [hd])
    have hds : c ∉ ds := fun hm => h (List.mem_cons_of_mem _ hm)
    simp only [indexOfAux, hd, if_false]
    exact ih hds _

theorem indexOfAux_append (c : Char) (hs ms : List Char) (h : c ∉ hs) :
    ∀ i, indexOfAux c (hs ++ c :: ms) i = i + hs.length := by
  induction hs with
  | nil => intro i; simp [indexOfAux]
  | cons d ds ih =>
    intro i
    have hd : ¬ d = c := fun hd => h (by simp [hd])
    have hds : c ∉ ds := fun hm => h (List.mem_cons_of_mem _ hm)
    show indexOfAux c (d :: (ds ++ c :: ms)) i = _
    simp only [indexOfAux, hd, if_false]
    rw [ih hds]
    simp only [List.length_cons]
    push_cast
    ring

theorem toUInt32_toNat (n : Nat) (h : n < 4294967296) : (toUInt32 (n : Int)).toNat = n := by
  unfold toUInt32
  omega

/-- The characters of `substring` for in-range, ordered arguments. -/
theorem substring_data (s : String) (l r : Nat) (hlr : l ≤ r) (hr : r < 4294967296) :
    (substring s l r).data = (s.data.drop l).take (min r s.data.length - l) := by
  have hl : l < 4294967296 := by omega
  simp only [substring, toUInt32_toNat l hl, toUInt32_toNat r hr]
  have h1 : ¬ l > r := by omega
  simp only [h1, if_false]
  by_cases h2 : l ≥ s.data.length
  · simp only [h2, if_true]
    have : s.data.drop l = [] := List.drop_of_length_le h2
    rw [this]
    simp
  · simp only [h2, if_false]
    by_cases h3 : r > s.data.length
    · simp only [h3, if_true]
      rw [Nat.min_eq_right (by omega)]
    · simp only [h3, if_false]
      rw [Nat.min_eq_left (by omega)]

theorem substring_neg_one_data (s : String) (hlen : s.data.length < 4294967296) :
    (substring s 0 (-1)).data = s.data := by
  have e0 : (toUInt32 0).toNat = 0 := rfl
  have e1 : (toUInt32 (-1)).toNat = 4294967295 := rfl
  simp only [substring, e0, e1]
  have h1 : ¬ (0 > 4294967295) := by omega
  simp only [h1, if_false]
  by_cases h2 : 0 ≥ s.data.length
  · simp only [h2, if_true]
    have : s.data.length = 0 := by omega
    rw [List.length_eq_zero.mp this]
  · simp only [h2, if_false]
    by_cases h3 : 4294967295 > s.data.length
    · simp only [h3, if_true]
      simp
    · simp only [h3, if_false]
      have : s.data.length = 4294967295 := by omega
      simp [this]

theorem substringFrom_data (s : String) (l : Nat) (hlen : s.data.length < 4294967296)
    (hl : l ≤ s.data.length) : (substringFrom s l).data = s.data.drop l := by
  unfold substringFrom
  rw [substring_data s l s.data.length hl hlen]
  simp

theorem dropWhile_isSpaceC_of_head (c : Char) (cs : List Char) (h : isSpaceC c = false) :
    (c :: cs).dropWhile isSpaceC = c :: cs := by
  simp [List.dropWhile, h]

theorem takeWhile_isDigitC_of_all (cs : List Char) (h : ∀ c ∈ cs, isDigitC c = true) :
    cs.takeWhile isDigitC = cs := by
  induction cs with
  | nil => rfl
  | cons c cs ih =>
    have hc := h c (List.mem_cons_self _ _)
    simp only [List.takeWhile, hc]
    rw [ih (fun d hd => h d (List.mem_cons_of_mem _ hd))]

theorem isDigitC_not_space (c : Char) (h : isDigitC c = true) : isSpaceC c = false := by
  unfold isDigitC at h
  unfold isSpaceC
  simp only [Bool.and_eq_true, decide_eq_true_eq] at h
  have h1 : c.toNat ≠ 32 := by omega
  have h2 : ¬ c.toNat ≤ 13 := by omega
  simp [h1, h2]

theorem isDigitC_ne_sign (c : Char) (h : isDigitC c = true) : c ≠ '-' ∧ c ≠ '+' := by
  unfold isDigitC at h
  simp only [Bool.and_eq_true, decide_eq_true_eq] at h
  constructor
  · rintro rfl
    exact absurd h.1 (by decide)
  · rintro rfl
    exact absurd h.1 (by decide)

/-- On a run of digits `atol` is the decimal value, up to the `long` limit. -/
theorem atol_digits (cs : List Char) (h : ∀ c ∈ cs, isDigitC c = true)
    (hv : digitsValue cs ≤ 2147483647) : atol cs = (digitsValue cs : Int) := by
  cases cs with
  | nil => rfl
  | cons c t =>
    have hc := h c (List.mem_cons_self _ _)
    have hsign := isDigitC_ne_sign c hc
    unfold atol
    rw [dropWhile_isSpaceC_of_head c t (isDigitC_not_space c hc)]
    have hm1 : (match c :: t with
        | '-' :: _ => true
        | _ => false) = false := by
      split
      · rename_i heq
        exact absurd (List.cons.inj heq).1 hsign.1
      · rfl
    have hm2 : (match c :: t with
        | '-' :: r => r
        | '+' :: r => r
        | _ => c :: t) = c :: t := by
      split
      · rename_i heq
        exact absurd (List.cons.inj heq).1 hsign.1
      · rename_i heq
        exact absurd (List.cons.inj heq).1 hsign.2
      · rfl
    simp only [hm1, hm2, takeWhile_isDigitC_of_all (c :: t) h]
    have h1 : ¬ ((digitsValue (c :: t) : Int) > 2147483647) := by omega
    have h2 : ¬ ((digitsValue (c :: t) : Int) < -2147483648) := by omega
    simp [h1, h2]

/-- A buffer that is empty or starts with a character that is no white space, sign or digit
reads as 0. -/
theorem atol_of_not_numeric (cs : List Char)
    (h : ∀ c ∈ cs.head?, isSpaceC c = false ∧ c ≠ '-' ∧ c ≠ '+' ∧ isDigitC c = false) :
    atol cs = 0 := by
  cases cs with
  | nil => rfl
  | cons c t =>
    obtain ⟨h1, h2, h3, h4⟩ := h c (by simp)
    unfold atol
    rw [dropWhile_isSpaceC_of_head c t h1]
    have hm1 : (match c :: t with
        | '-' :: _ => true
        | _ => false) = false := by
      split
      · rename_i heq
        exact absurd (List.cons.inj heq).1 h2
      · rfl
    have hm2 : (match c :: t with
        | '-' :: r => r
        | '+' :: r => r
        | _ => c :: t) = c :: t := by
      split
      · rename_i heq
        exact absurd (List.cons.inj heq).1 h2
      · rename_i heq
        exact absurd (List.cons.inj heq).1 h3
      · rfl
    simp only [hm1, hm2]
    simp [List.takeWhile, h4, digitsValue]

/-- Without a `':'` both fields are the whole string. -/
theorem parseTimeToMinutes_without_separator (s : String)
    (hlen : s.data.length < 4294967296) (h : ':' ∉ s.data) :
    parseTimeToMinutes s = toInt32 (toInt s * 60 + toInt s) := by
  have hsep : indexOf s ':' = -1 := indexOfAux_of_not_mem ':' s.data h 0
  have h1 : toInt (substring s 0 (-1)) = toInt s := by
    unfold toInt
    rw [substring_neg_one_data s hlen]
  have h2 : toInt (substringFrom s ((-1 : Int) + 1)) = toInt s := by
    have e : ((-1 : Int) + 1) = ((0 : Nat) : Int) := rfl
    unfold toInt
    rw [e, substringFrom_data s 0 hlen (Nat.zero_le _)]
    rfl
  simp only [parseTimeToMinutes, hsep, h1, h2]

/-- Two runs of digits around a `':'` are read as hours and minutes, whatever their
values. -/
theorem parseTimeToMinutes_digits (hs ms : List Char)
    (hh : ∀ c ∈ hs, isDigitC c = true) (hm : ∀ c ∈ ms, isDigitC c = true)
    (hlen : hs.length + 1 + ms.length < 4294967296)
    (hv : digitsValue hs * 60 + digitsValue ms ≤ 2147483647) :
    parseTimeToMinutes ⟨hs ++ ':' :: ms⟩ = (digitsValue hs * 60 + digitsValue ms : Nat) := by
  have hnot : ':' ∉ hs := fun hmem => absurd (hh ':' hmem) (by decide)
  have hsep : indexOf ⟨hs ++ ':' :: ms⟩ ':' = (hs.length : Int) := by
    unfold indexOf
    rw [indexOfAux_append ':' hs ms hnot 0]
    simp
  have hl : (⟨hs ++ ':' :: ms⟩ : String).data.length = hs.length + 1 + ms.length := by
    simp
    omega
  have h1 : (substring ⟨hs ++ ':' :: ms⟩ ((0 : Nat) : Int) (hs.length : Int)).data = hs := by
    rw [substring_data _ 0 hs.length (Nat.zero_le _) (by omega)]
    simp
  have h2 : (substringFrom ⟨hs ++ ':' :: ms⟩ ((hs.length + 1 : Nat) : Int)).data = ms := by
    rw [substringFrom_data _ (hs.length + 1) (by rw [hl]; exact hlen) (by rw [hl]; omega)]
    simp
  have e0 : (0 : Int) = ((0 : Nat) : Int) := rfl
  have e1 : (hs.length : Int) + 1 = ((hs.length + 1 : Nat) : Int) := by push_cast; rfl
  simp only [parseTimeToMinutes, hsep]
  rw [e1]
  unfold toInt
  rw [h2]
  rw [e0, h1]
  rw [atol_digits hs hh (by omega), atol_digits ms hm (by omega)]
  unfold toInt32
  push_cast
  omega

/-- The leading run of digits of a buffer that continues with a non-digit. -/
theorem takeWhile_isDigitC_append (ds rest : List Char) (h : ∀ c ∈ ds, isDigitC c = true)
    (hrest : ∀ c ∈ rest.head?, isDigitC c = false) :
    (ds ++ rest).takeWhile isDigitC = ds := by
  induction ds with
  | nil =>
    cases rest with
    | nil => rfl
    | cons c t =>
      have hc := hrest c (by simp)
      simp [List.takeWhile, hc]
  | cons c cs ih =>
    have hc := h c (List.mem_cons_self _ _)
    show List.takeWhile isDigitC (c :: (cs ++ rest)) = _
    simp only [List.takeWhile, hc]
    rw [ih (fun d hd => h d (List.mem_cons_of_mem _ hd))]

/-- On a buffer that starts with a digit `atol` reads the leading run of digits, saturated
at the largest `long`. -/
theorem atol_cons_digit (c : Char) (tl : List Char) (hc : isDigitC c = true) :
    atol (c :: tl) = min (digitsValue ((c :: tl).takeWhile isDigitC) : Int) 2147483647 := by
  have hsign := isDigitC_ne_sign c hc
  unfold atol
  rw [dropWhile_isSpaceC_of_head c tl (isDigitC_not_space c hc)]
  have hm1 : (match c :: tl with
      | '-' :: _ => true
      | _ => false) = false := by
    split
    · rename_i heq
      exact absurd (List.cons.inj heq).1 hsign.1
    · rfl
  have hm2 : (match c :: tl with
      | '-' :: r => r
      | '+' :: r => r
      | _ => c :: tl) = c :: tl := by
    split
    · rename_i heq
      exact absurd (List.cons.inj heq).1 hsign.1
    · rename_i heq
      exact absurd (List.cons.inj heq).1 hsign.2
    · rfl
  simp only [hm1, hm2, Bool.false_eq_true, if_false]
  have hn : (0 : Int) ≤ (digitsValue ((c :: tl).takeWhile isDigitC) : Int) :=
    Int.ofNat_nonneg _
  generalize (digitsValue ((c :: tl).takeWhile isDigitC) : Int) = n at hn ⊢
  rw [min_def]
  split_ifs <;> omega

/-- A buffer that starts with digits reads as the number made of its leading digits,
saturated at the largest `long`, whatever follows them. -/
theorem atol_leading_digits (ds rest : List Char) (h : ∀ c ∈ ds, isDigitC c = true)
    (hne : ds ≠ []) (hrest : ∀ c ∈ rest.head?, isDigitC c = false) :
    atol (ds ++ rest) = min (digitsValue ds : Int) 2147483647 := by
  cases ds with
  | nil => exact absurd rfl hne
  | cons c t =>
    have hc := h c (List.mem_cons_self _ _)
    have htw : List.takeWhile isDigitC (c :: (t ++ rest)) = c :: t :=
      takeWhile_isDigitC_append (c :: t) rest h hrest
    show atol (c :: (t ++ rest)) = _
    rw [atol_cons_digit c (t ++ rest) hc, htw]

/-- A list that contains `c` splits at the first occurrence of `c`. -/
theorem exists_first_occurrence (c : Char) (cs : List Char) (h : c ∈ cs) :
    ∃ hs ms, cs = hs ++ c :: ms ∧ c ∉ hs := by
  induction cs with
  | nil => exact absurd h (List.not_mem_nil _)
  | cons d t ih =>
    by_cases hd : d = c
    · exact ⟨[], t, by rw [hd]; rfl, List.not_mem_nil _⟩
    · have ht : c ∈ t := by
        rcases List.mem_cons.mp h with h1 | h1
        · exact absurd h1.symm hd
        · exact h1
      obtain ⟨hs, ms, heq, hnot⟩ := ih ht
      refine ⟨d :: hs, ms, by rw [heq]; rfl, ?_⟩
      intro hmem
      rcases List.mem_cons.mp hmem with h1 | h1
      · exact hd h1.symm
      · exact hnot h1

/-- `atol` always returns a value of type `long`. -/
theorem atol_range (cs : List Char) : -2147483648 ≤ atol cs ∧ atol cs ≤ 2147483647 := by
  unfold atol
  dsimp only
  split_ifs <;> omega

/-- `toInt32` always returns a value of type `int`. -/
theorem toInt32_range (n : Int) : -2147483648 ≤ toInt32 n ∧ toInt32 n ≤ 2147483647 := by
  unfold toInt32
  omega

/-- With a `':'`, the text before the first one is the hour field and the text after it the
minute field, each read by `toInt`. -/
theorem parseTimeToMinutes_with_separator (hs ms : List Char) (hnot : ':' ∉ hs)
    (hlen : hs.length + 1 + ms.length < 4294967296) :
    parseTimeToMinutes ⟨hs ++ ':' :: ms⟩ = toInt32 (atol hs * 60 + atol ms) := by
  have hsep : indexOf ⟨hs ++ ':' :: ms⟩ ':' = (hs.length : Int) := by
    unfold indexOf
    rw [indexOfAux_append ':' hs ms hnot 0]
    simp
  have hl : (⟨hs ++ ':' :: ms⟩ : String).data.length = hs.length + 1 + ms.length := by
    simp
    omega
  have h1 : (substring ⟨hs ++ ':' :: ms⟩ ((0 : Nat) : Int) (hs.length : Int)).data = hs := by
    rw [substring_data _ 0 hs.length (Nat.zero_le _) (by omega)]
    simp
  have h2 : (substringFrom ⟨hs ++ ':' :: ms⟩ ((hs.length + 1 : Nat) : Int)).data = ms := by
    rw [substringFrom_data _ (hs.length + 1) (by rw [hl]; exact hlen) (by rw [hl]; omega)]
    simp
  have e0 : (0 : Int) = ((0 : Nat) : Int) := rfl
  have e1 : (hs.length : Int) + 1 = ((hs.length + 1 : Nat) : Int) := by push_cast; rfl
  simp only [parseTimeToMinutes, hsep]
  rw [e1]
  unfold toInt
  rw [h2]
  rw [e0, h1]

/-! ## Parsing does not reject -/

set_option maxRecDepth 8000 in
/-- C14 as stated fails: `parseTimeToMinutes` returns 0 for `"abc"` and for the empty
string, 44530 for `"730"` (no separator), 1561 for `"25:61"` and 423 for `"7:3x"`; and with
the morning schedule read as start `"abc"`, end `"8h00"`, a button-triggered tick at 03:00
lies inside the resulting window and opens the morning door. -/
theorem malformed_time_is_coerced :
    parseTimeToMinutes "abc" = 0 ∧ parseTimeToMinutes "" = 0 ∧
      parseTimeToMinutes "730" = 44530 ∧ parseTimeToMinutes "25:61" = 1561 ∧
      parseTimeToMinutes "7:3x" = 423 ∧
      inWindow ⟨3, 0⟩ ((refresh malformedReads (handleButtonPress init)).events 0) ∧
      servoWrites 1 (loop ⟨3, 0⟩ malformedReads (clockAt 1000) (handleButtonPress init)).log =
        [openAngle] := by
  decide

set_option maxRecDepth 8000 in
/-- C14, amended: `parseTimeToMinutes` rejects no input; for every string it returns an
`int`.  A string (shorter than 2^32 characters) that contains a `':'` splits at the first
one into the hour field before it and the minute field after it; without a `':'` the whole
string is both fields.  Each field is read by `atol` and the result is
`hour * 60 + minute` reduced to 32 bits.  A field that is empty or starts with a character
that is no white space, sign or digit reads as 0; a field that starts with digits reads as
the number made of its leading digits, saturated at 2147483647, whatever follows them.  So
a string without `':'` that is empty or starts with such a character gives 0, and two runs
of digits `h` and `m` around a `':'` give `h * 60 + m` whenever that is at most 2147483647,
whatever the values of `h` and `m`: there is no range check, and beyond that bound the sum
wraps.  Examples: `"abc"` and `""` give 0, `"730"` gives 44530, `"25:61"` gives 1561,
`"7:3x"` gives 423, `"35791394:08"` gives -2147483648; with the morning schedule read as
start `"abc"`, end `"8h00"`, a button-triggered tick at 03:00 lies inside the window and
opens the morning door. -/
theorem parseTimeToMinutes_never_rejects (s : String) (hs ms ds rest : List Char) :
    (s.data.length < 4294967296 → ':' ∉ s.data →
      parseTimeToMinutes s = toInt32 (toInt s * 60 + toInt s)) ∧
    (s.data.length < 4294967296 → ':' ∉ s.data →
      (∀ c ∈ s.data.head?, isSpaceC c = false ∧ c ≠ '-' ∧ c ≠ '+' ∧ isDigitC c = false) →
      parseTimeToMinutes s = 0) ∧
    ((∀ c ∈ hs, isDigitC c = true) → (∀ c ∈ ms, isDigitC c = true) →
      hs.length + 1 + ms.length < 4294967296 →
      digitsValue hs * 60 + digitsValue ms ≤ 2147483647 →
      parseTimeToMinutes ⟨hs ++ ':' :: ms⟩ = (digitsValue hs * 60 + digitsValue ms : Nat)) ∧
    (-2147483648 ≤ parseTimeToMinutes s ∧ parseTimeToMinutes s ≤ 2147483647) ∧
    (':' ∈ s.data → ∃ h m, s = ⟨h ++ ':' :: m⟩ ∧ ':' ∉ h) ∧
    (':' ∉ hs → hs.length + 1 + ms.length < 4294967296 →
      parseTimeToMinutes ⟨hs ++ ':' :: ms⟩ = toInt32 (atol hs * 60 + atol ms)) ∧
    (toInt s = atol s.data) ∧
    ((∀ c ∈ rest.head?, isSpaceC c = false ∧ c ≠ '-' ∧ c ≠ '+' ∧ isDigitC c = false) →
      atol rest = 0) ∧
    ((∀ c ∈ ds, isDigitC c = true) → ds ≠ [] → (∀ c ∈ rest.head?, isDigitC c = false) →
      atol (ds ++ rest) = min (digitsValue ds : Int) 2147483647) ∧
    (parseTimeToMinutes "abc" = 0 ∧ parseTimeToMinutes "" = 0 ∧
      parseTimeToMinutes "730" = 44530 ∧ parseTimeToMinutes "25:61" = 1561 ∧
      parseTimeToMinutes "7:3x" = 423 ∧ parseTimeToMinutes "35791394:08" = -2147483648) ∧
    (inWindow ⟨3, 0⟩ ((refresh malformedReads (handleButtonPress init)).events 0) ∧
      servoWrites 1 (loop ⟨3, 0⟩ malformedReads (clockAt 1000) (handleButtonPress init)).log =
        [openAngle]) := by
  refine ⟨parseTimeToMinutes_without_separator s, ?_, parseTimeToMinutes_digits hs ms,
    toInt32_range _, ?_, parseTimeToMinutes_with_separator hs ms, rfl,
    atol_of_not_numeric rest, atol_leading_digits ds rest, by decide, by decide⟩
  · intro hlen hsep hnum
    rw [parseTimeToMinutes_without_separator s hlen hsep]
    have h0 : toInt s = 0 := atol_of_not_numeric s.data hnum
    rw [h0]
    rfl
  · intro hmem
    obtain ⟨h, m, heq, hnot⟩ := exists_first_occurrence ':' s.data hmem
    exact ⟨h, m, String.ext heq, hnot⟩

/-- C14 amended, at `"abc"` (no separator, not numeric), at `"25:61"` (hour and minute
out of range) and at `"7:3x"` (a minute field with a digit followed by a letter): the
results are 0, 1561 and `7 * 60 + 3`. -/
theorem parseTimeToMinutes_never_rejects_witness :
    parseTimeToMinutes "abc" = 0 ∧
      parseTimeToMinutes ⟨['2', '5'] ++ ':' :: ['6', '1']⟩ = ((25 * 60 + 61 : Nat) : Int) ∧
      parseTimeToMinutes ⟨['7'] ++ ':' :: (['3'] ++ ['x'])⟩ =
        toInt32 (atol ['7'] * 60 + atol (['3'] ++ ['x'])) ∧
      atol (['3'] ++ ['x']) = min (digitsValue ['3'] : Int) 2147483647 :=
  ⟨(parseTimeToMinutes_never_rejects "abc" [] [] [] []).2.1 (by decide) (by decide)
      (by decide),
    (parseTimeToMinutes_never_rejects "" ['2', '5'] ['6', '1'] [] []).2.2.1 (by decide)
      (by decide) (by decide) (by decide),
    (parseTimeToMinutes_never_rejects "" ['7'] (['3'] ++ ['x']) [] []).2.2.2.2.2.1
      (by decide) (by decide),
    (parseTimeToMinutes_never_rejects "" [] [] ['3'] ['x']).2.2.2.2.2.2.2.2.1 (by decide)
      (by decide) (by decide)⟩

/-! ## Door status and servo position -/

section DoorSync

theorem writesMatch_execute (e : TimeEvent) :
    WritesMatch e.servo e.lastDoorStatus e.execute.1.lastDoorStatus e.execute.2 := by
  right
  rw [execute_servoWrites, execute_door, if_pos rfl]
  by_cases h : e.lastDoorStatus = "closed"
  · exact ⟨openAngle, by simp [h], Or.inl ⟨by simp [h], rfl⟩⟩
  · exact ⟨closedAngle, by simp [h], Or.inr ⟨by simp [h], rfl⟩⟩

theorem writesMatch_executeDoor (e : TimeEvent) :
    WritesMatch e.servo e.lastDoorStatus e.executeDoor.1.lastDoorStatus e.executeDoor.2 := by
  rw [WritesMatch, executeDoor_servoWrites, executeDoor_door, if_pos rfl]
  by_cases h : e.executed = 0
  · exact Or.inr ⟨openAngle, by simp [h], Or.inl ⟨by simp [h], rfl⟩⟩
  · by_cases h1 : e.executed = 1
    · exact Or.inr ⟨closedAngle, by simp [h1], Or.inr ⟨by simp [h1], rfl⟩⟩
    · exact Or.inl ⟨by simp [h, h1], by simp [h, h1]⟩

theorem writesMatch_checkBody (cur : Int) (e : TimeEvent) :
    WritesMatch e.servo e.lastDoorStatus (checkBody cur e).1.lastDoorStatus
      (checkBody cur e).2.1 := by
  by_cases hc : callsExecuteDoor cur e
  · rw [checkBody_of_calls _ _ hc]
    exact writesMatch_executeDoor e
  · left
    rw [checkBody_servoWrites, checkBody_door_of_not_calls _ _ hc]
    simp [hc]

theorem servo_ne_of_inv {s : State} (h : Inv s) {i j : Fin 3} (hj : j ≠ i) :
    (s.events j).servo ≠ (s.events i).servo := by
  have h1 := (h j).servo_eq
  have h2 := (h i).servo_eq
  have h3 : (j : Nat) ≠ (i : Nat) := fun h => hj (Fin.ext h)
  omega

theorem writesMatch_setTimeEvents {s : State} (h : Inv s) (now : DateTime)
    (r : RemoteReads) (clock : Fin 3 → MillisReads) (i : Fin 3) :
    WritesMatch (s.events i).servo (s.events i).lastDoorStatus
      ((setTimeEvents now r clock s).state.events i).lastDoorStatus
      (setTimeEvents now r clock s).log := by
  rw [WritesMatch, setTimeEvents_servoWrites_of_inv h, setTimeEvents_door]
  by_cases hm : (s.events i).lastDoorStatus ≠ (r.status i).getD (s.status i)
  · rw [if_pos hm, if_pos hm]
    right
    by_cases hc : (s.events i).lastDoorStatus = "closed"
    · exact ⟨openAngle, by simp [hc], Or.inl ⟨by simp [hc], rfl⟩⟩
    · exact ⟨closedAngle, by simp [hc], Or.inr ⟨by simp [hc], rfl⟩⟩
  · rw [if_neg hm, if_neg hm]
    exact Or.inl ⟨rfl, rfl⟩

theorem writesMatch_check {s : State} (h : Inv s) (now : DateTime) (i : Fin 3) :
    WritesMatch (s.events i).servo (s.events i).lastDoorStatus
      ((checkAndExecuteTimeEvents now s).state.events i).lastDoorStatus
      (checkAndExecuteTimeEvents now s).log := by
  rw [WritesMatch, check_servoWrites now s i (fun j hj => servo_ne_of_inv h hj), check_events]
  exact writesMatch_checkBody _ _

theorem writesMatch_setEvent {s : State} (h : Inv s) (i j : Fin 3) (e : TimeEvent)
    (log : List Effect) (hsv : e.servo = (s.events j).servo)
    (hlog : ∀ k, k ≠ (s.events j).servo → servoWrites k log = [])
    (hm : WritesMatch (s.events j).servo (s.events j).lastDoorStatus e.lastDoorStatus log) :
    WritesMatch (s.events i).servo (s.events i).lastDoorStatus
      ((s.setEvent j e).events i).lastDoorStatus log := by
  unfold State.setEvent
  by_cases hij : i = j
  · subst hij
    simpa using hm
  · left
    refine ⟨hlog _ (servo_ne_of_inv h hij), ?_⟩
    simp [Function.update_noteq hij]

/-- One more operation keeps the door statuses in step with the last servo writes. -/
theorem doorsMatchLog_append {s s1 : State} (h : Inv s) (pre log : List Effect)
    (hw : ∀ i, WritesMatch (s.events i).servo (s.events i).lastDoorStatus
      (s1.events i).lastDoorStatus log)
    (hpre : DoorsMatchLog s pre) : DoorsMatchLog s1 (pre ++ log) := by
  intro i a ha
  have hsv := (h i).servo_eq
  unfold lastWrite at ha
  rw [servoWrites_append, List.getLast?_append] at ha
  rcases hw i with ⟨hnil, hdoor⟩ | ⟨b, hb, hmatch⟩
  · rw [hsv] at hnil
    rw [hnil] at ha
    rw [hdoor]
    exact hpre i a (by simpa [lastWrite] using ha)
  · rw [hsv] at hb
    rw [hb] at ha
    have : b = a := by simpa using ha
    rw [← this]
    exact hmatch

theorem doorsMatchLog_congr {s : State} {l1 l2 : List Effect}
    (h : ∀ k, servoWrites k l1 = servoWrites k l2) (h1 : DoorsMatchLog s l1) :
    DoorsMatchLog s l2 := by
  intro i a ha
  apply h1 i a
  unfold lastWrite at ha ⊢
  rw [h]
  exact ha

theorem doorsMatchLog_of_events {s t : State} {log : List Effect}
    (h : ∀ i, t.events i = s.events i) (hs : DoorsMatchLog s log) : DoorsMatchLog t log := by
  intro i a ha
  rw [h i]
  exact hs i a ha

theorem writesMatch_of_events {k : Nat} {d d1 d2 : String} {log : List Effect}
    (h : d1 = d2) (hw : WritesMatch k d d1 log) : WritesMatch k d d2 log := by
  rw [← h]
  exact hw

/-- `setTimeEvents` followed by `checkAndExecuteTimeEvents` on the state with the button
flag cleared keeps the door statuses in step with the last servo writes. -/
theorem doorsMatchLog_two_steps {s t : State} (h : Inv s) (ht : Inv t) (now : DateTime)
    (r : RemoteReads) (clock : Fin 3 → MillisReads) (pre : List Effect)
    (hev : ∀ i, t.events i = (setTimeEvents now r clock s).state.events i)
    (hpre : DoorsMatchLog s pre) :
    DoorsMatchLog (checkAndExecuteTimeEvents now t).state
      ((pre ++ (setTimeEvents now r clock s).log) ++ (checkAndExecuteTimeEvents now t).log) := by
  have h1 : DoorsMatchLog (setTimeEvents now r clock s).state
      (pre ++ (setTimeEvents now r clock s).log) :=
    doorsMatchLog_append h pre (setTimeEvents now r clock s).log
      (fun i => writesMatch_setTimeEvents h now r clock i) hpre
  have h1' : DoorsMatchLog t (pre ++ (setTimeEvents now r clock s).log) :=
    doorsMatchLog_of_events hev h1
  exact doorsMatchLog_append ht (pre ++ (setTimeEvents now r clock s).log)
    (checkAndExecuteTimeEvents now t).log (fun i => writesMatch_check ht now i) h1'

theorem doorsMatchLog_loop {s : State} (h : Inv s) (now : DateTime) (r : RemoteReads)
    (clock : Fin 3 → MillisReads) (pre : List Effect) (hpre : DoorsMatchLog s pre) :
    DoorsMatchLog (loop now r clock s).state (pre ++ (loop now r clock s).log) := by
  by_cases hb : s.servo_triggered = true
  · have hi : Inv { (setTimeEvents now r clock s).state with servo_triggered := false } :=
      inv_setTimeEvents h now r clock
    have h2 := doorsMatchLog_two_steps h hi now r clock pre (fun _ => rfl) hpre
    have hst : (loop now r clock s).state = (checkAndExecuteTimeEvents now
        { (setTimeEvents now r clock s).state with servo_triggered := false }).state := by
      rw [loop_of_triggered _ _ _ _ hb]
    rw [hst]
    refine doorsMatchLog_congr (fun k => ?_) h2
    rw [servoWrites_append, servoWrites_append, servoWrites_append, loop_servoWrites, if_pos hb,
      List.append_assoc]
  · rw [loop_of_not_triggered _ _ _ _ (by simpa using hb)]
    exact doorsMatchLog_append h pre (setTimeEvents now r clock s).log
      (fun i => writesMatch_setTimeEvents h now r clock i) hpre

theorem doorsMatchLog_applyOp {s : State} (h : Inv s) (op : Op) (pre : List Effect)
    (hpre : DoorsMatchLog s pre) :
    DoorsMatchLog (applyOp op s).state (pre ++ (applyOp op s).log) := by
  cases op with
  | setTimeEvents now r clock =>
    exact doorsMatchLog_append h pre (setTimeEvents now r clock s).log
      (fun i => writesMatch_setTimeEvents h now r clock i) hpre
  | checkAndExecuteTimeEvents now =>
    exact doorsMatchLog_append h pre (checkAndExecuteTimeEvents now s).log
      (fun i => writesMatch_check h now i) hpre
  | executeDoor j =>
    show DoorsMatchLog (s.setEvent j (s.events j).executeDoor.1)
      (pre ++ (s.events j).executeDoor.2)
    refine doorsMatchLog_append h pre (s.events j).executeDoor.2 (fun i => ?_) hpre
    refine writesMatch_setEvent h i j _ _ (by simp) (fun k hk => ?_)
      (writesMatch_executeDoor _)
    rw [executeDoor_servoWrites, if_neg (fun h' => hk h'.symm)]
  | execute j =>
    show DoorsMatchLog (s.setEvent j (s.events j).execute.1) (pre ++ (s.events j).execute.2)
    refine doorsMatchLog_append h pre (s.events j).execute.2 (fun i => ?_) hpre
    refine writesMatch_setEvent h i j _ _ (by simp) (fun k hk => ?_)
      (writesMatch_execute _)
    rw [execute_servoWrites, if_neg (fun h' => hk h'.symm)]
  | handleButtonPress =>
    show DoorsMatchLog (handleButtonPress s) (pre ++ [])
    exact doorsMatchLog_append h pre [] (fun i => Or.inl ⟨rfl, rfl⟩) hpre
  | loop now r clock => exact doorsMatchLog_loop h now r clock pre hpre

theorem doorsMatchLog_run (ops : List Op) :
    ∀ (s : State) (pre : List Effect), Inv s → DoorsMatchLog s pre →
      DoorsMatchLog (run ops s).state (pre ++ (run ops s).log) := by
  induction ops with
  | nil =>
    intro s pre _ hpre
    simpa [run] using hpre
  | cons op ops ih =>
    intro s pre h hpre
    have h1 := doorsMatchLog_applyOp h op pre hpre
    have h2 := ih (applyOp op s).state (pre ++ (applyOp op s).log) (inv_applyOp h op) h1
    show DoorsMatchLog (run ops (applyOp op s).state).state
      (pre ++ ((applyOp op s).log ++ (run ops (applyOp op s).state).log))
    rw [← List.append_assoc]
    exact h2

/-- The paths that move a door keep its status in step with the servo: after any sequence
of operations from the initial state, a servo that has been written since `setup` was last
written with the angle of the door status of its event. -/
theorem door_status_matches_last_write (ops : List Op) (i : Fin 3) (a : Int)
    (h : lastWrite ((init.events i).servo) (run ops init).log = some a) :
    (((run ops init).state.events i).lastDoorStatus = "opened" ↔ a = openAngle) ∧
      (((run ops init).state.events i).lastDoorStatus = "closed" ↔ a = closedAngle) := by
  have hJ := doorsMatchLog_run ops init [] inv_init (fun i a ha => by simp [lastWrite, servoWrites] at ha)
  have hsv : (init.events i).servo = i.val + 1 := inv_init i |>.servo_eq
  rw [hsv] at h
  have hm := hJ i a (by simpa using h)
  rcases hm with ⟨hd, ha⟩ | ⟨hd, ha⟩
  · rw [hd, ha]
    exact ⟨⟨fun _ => rfl, fun _ => rfl⟩, ⟨fun h => absurd h (by decide), fun h => absurd h (by decide)⟩⟩
  · rw [hd, ha]
    exact ⟨⟨fun h => absurd h (by decide), fun h => absurd h (by decide)⟩, ⟨fun _ => rfl, fun _ => rfl⟩⟩

end DoorSync

/-- C12, the state right after `setup`: the last angle written to each servo is 0, the open
position, while the door status of each event is `"closed"`. -/
theorem door_status_after_setup :
    openAngle = 0 ∧ lastWrite 1 setup = some openAngle ∧ lastWrite 2 setup = some openAngle ∧
      lastWrite 3 setup = some openAngle ∧
      (init.events 0).servo = 1 ∧ (init.events 1).servo = 2 ∧ (init.events 2).servo = 3 ∧
      (init.events 0).lastDoorStatus = "closed" ∧ (init.events 1).lastDoorStatus = "closed" ∧
      (init.events 2).lastDoorStatus = "closed" := by
  decide

end SmartMediBox
